import Mathlib

/-!
# Sliding-tile puzzle game: embedding of `SlidingPuzzle.hpp` and `main.cpp`

The C++ class `SlidingPuzzle` is embedded as a record with one pure function
per member function; the game controller of `main.cpp` follows it further
down.

* `int` values are mathematical integers (`Int`); `/` and `%` on `int` are the
  truncating `Int.tdiv` and `Int.tmod`.  Signed overflow is undefined in C++,
  so the embedding describes the executions in which no `int` overflows; the
  one `int` that a run of the game can drive to its limit, the move counter,
  is incremented with the 32-bit two's-complement wrap `wrapInt`.
* `std::vector<int>` is `List Int`; `v[i]` is `vecGet`, an assignment to
  `v[i]` is `vecSet`.  Indexing outside the vector is undefined in C++; here a
  read outside gives `0` and a write outside is dropped.  The grid invariant
  proved below shows that no reachable state indexes outside the vector.
* `tiles.size()` is `tiles.length`, and the unsigned `tiles.size() - 1` is the
  truncated subtraction of `Nat`; the two differ only for an empty vector,
  and `reset()` (run by the constructor) always leaves at least one entry.
* `millis()` is an argument `now`; the Arduino call `random(k)` is the next
  value of a stream `rnd : Nat → Nat` reduced into `[0, k)`.
-/

namespace Sliding15

/-! ## Vectors -/

/-- Element read `v[i]` with an `int` index. -/
def vecGet (v : List Int) (i : Int) : Int :=
  if 0 ≤ i then v.getD i.toNat 0 else 0

/-- Element write `v[i] = x` with an `int` index. -/
def vecSet (v : List Int) (i : Int) (x : Int) : List Int :=
  if 0 ≤ i then v.set i.toNat x else v

/-- Exchange `std::swap(v[i], v[j])`: `v[i]` receives the old `v[j]`, then
`v[j]` receives the old `v[i]`. -/
def vecSwap (v : List Int) (i j : Int) : List Int :=
  vecSet (vecSet v i (vecGet v j)) j (vecGet v i)

/-! ## Machine integers -/

/-- The `int` (32 bits, two's complement) that holds the mathematical result
`x`: the identity on `[-2147483648, 2147483647]`, and `2147483648` becomes
`-2147483648`. -/
def wrapInt (x : Int) : Int :=
  (x + 2147483648) % 4294967296 - 2147483648

/-! ## The class `SlidingPuzzle` -/

/-- Data members of `SlidingPuzzle`. -/
structure SlidingPuzzle where
  tiles : List Int
  gridSize : Int
  emptyPos : Int
  moveCount : Int
  startTime : Nat
  gameWon : Bool
  gameStarted : Bool
deriving DecidableEq, Repr

namespace SlidingPuzzle

/-- Helper `pos(row, col)`. -/
def pos (p : SlidingPuzzle) (row col : Int) : Int :=
  row * p.gridSize + col

/-- Helper `row(p)`. -/
def row (p : SlidingPuzzle) (q : Int) : Int :=
  Int.tdiv q p.gridSize

/-- Helper `col(p)`. -/
def col (p : SlidingPuzzle) (q : Int) : Int :=
  Int.tmod q p.gridSize

/-- Private `checkWinCondition()`: the loop over `i < tiles.size() - 1` leaves
with `false` at the first `tiles[i] != i + 1`; after it the last element is
compared with `0`. -/
def checkWinCondition (p : SlidingPuzzle) : Bool :=
  (List.range (p.tiles.length - 1)).all (fun (i : Nat) => vecGet p.tiles (i : Int) == (i : Int) + 1)
    && vecGet p.tiles ((p.tiles.length - 1 : Nat) : Int) == 0

/-- Inner loop of `countInversions()` for a fixed `i`, started with the
running total `inv`. -/
def countInversionsInner (p : SlidingPuzzle) (i : Nat) (inv : Int) : Int :=
  (List.range' (i + 1) (p.tiles.length - (i + 1))).foldl
    (fun (acc : Int) (j : Nat) =>
      if vecGet p.tiles (j : Int) = 0 then acc
      else if vecGet p.tiles (i : Int) > vecGet p.tiles (j : Int) then acc + 1
      else acc)
    inv

/-- Private `countInversions()`. -/
def countInversions (p : SlidingPuzzle) : Int :=
  (List.range (p.tiles.length - 1)).foldl
    (fun (inv : Int) (i : Nat) =>
      if vecGet p.tiles (i : Int) = 0 then inv
      else countInversionsInner p i inv)
    0

/-- Private `isSolvable()`. -/
def isSolvable (p : SlidingPuzzle) : Bool :=
  let inv := countInversions p
  if Int.tmod p.gridSize 2 = 1 then
    Int.tmod inv 2 == 0
  else
    let emptyRow := p.row p.emptyPos
    let emptyRowFromBottom := p.gridSize - emptyRow
    Int.tmod (inv + emptyRowFromBottom) 2 == 1

/-- Member `reset()`: clear the vector, push `1 .. totalTiles - 1`, push `0`,
then set the scalar members. -/
def reset (p : SlidingPuzzle) : SlidingPuzzle :=
  let totalTiles := p.gridSize * p.gridSize
  let filled : List Int :=
    (List.range' 1 (totalTiles - 1).toNat).foldl (fun (t : List Int) (i : Nat) => t ++ [(i : Int)]) []
  { p with
    tiles := filled ++ [0]
    emptyPos := totalTiles - 1
    moveCount := 0
    gameWon := false
    gameStarted := false
    startTime := 0 }

/-- Constructor `SlidingPuzzle(size)`: member initialisers, then `reset()`.
The members the initialiser list leaves out are overwritten by `reset()`. -/
def construct (size : Int) : SlidingPuzzle :=
  reset
    { tiles := []
      gridSize := size
      emptyPos := 0
      moveCount := 0
      startTime := 0
      gameWon := false
      gameStarted := false }

/-- Candidate list `validMoves` of one iteration of `shuffle`, built in the
order Up, Down, Left, Right. -/
def validMoves (p : SlidingPuzzle) : List Int :=
  let emptyRow := p.row p.emptyPos
  let emptyCol := p.col p.emptyPos
  (if emptyRow > 0 then [p.pos (emptyRow - 1) emptyCol] else [])
    ++ (if emptyRow < p.gridSize - 1 then [p.pos (emptyRow + 1) emptyCol] else [])
    ++ (if emptyCol > 0 then [p.pos emptyRow (emptyCol - 1)] else [])
    ++ (if emptyCol < p.gridSize - 1 then [p.pos emptyRow (emptyCol + 1)] else [])

/-- Swap of one iteration of `shuffle` once `randomMove` is chosen. -/
def swapWithEmpty (p : SlidingPuzzle) (randomMove : Int) : SlidingPuzzle :=
  { p with
    tiles := vecSwap p.tiles p.emptyPos randomMove
    emptyPos := randomMove }

/-- Body of the loop of `shuffle`, run `n` times.  A value is taken from
`rnd` only in an iteration whose candidate list is not empty. -/
def shuffleLoop : Nat → (Nat → Nat) → SlidingPuzzle → SlidingPuzzle
  | 0, _, p => p
  | n + 1, rnd, p =>
    let vm := validMoves p
    if vm.isEmpty then shuffleLoop n rnd p
    else
      let randomMove := vm.getD (rnd 0 % vm.length) 0
      shuffleLoop n (fun k => rnd (k + 1)) (swapWithEmpty p randomMove)

/-- Member `shuffle(numMoves)`. -/
def shuffle (p : SlidingPuzzle) (numMoves : Int) (rnd : Nat → Nat) : SlidingPuzzle :=
  let q := shuffleLoop numMoves.toNat rnd p
  { q with
    moveCount := 0
    gameWon := false
    gameStarted := false }

/-- Member `canMove(tilePos)`. -/
def canMove (p : SlidingPuzzle) (tilePos : Int) : Bool :=
  if tilePos < 0 ∨ tilePos ≥ (p.tiles.length : Int) then false
  else if vecGet p.tiles tilePos = 0 then false
  else
    let tileRow := p.row tilePos
    let tileCol := p.col tilePos
    let emptyRow := p.row p.emptyPos
    let emptyCol := p.col p.emptyPos
    (decide (|tileRow - emptyRow| = 1) && decide (tileCol = emptyCol))
      || (decide (|tileCol - emptyCol| = 1) && decide (tileRow = emptyRow))

/-- Member `moveTile(tilePos)`; `now` is the value `millis()` returns. -/
def moveTile (p : SlidingPuzzle) (tilePos : Int) (now : Nat) : Bool × SlidingPuzzle :=
  if ¬ p.canMove tilePos then (false, p)
  else
    let p1 : SlidingPuzzle :=
      if ¬ p.gameStarted then { p with gameStarted := true, startTime := now } else p
    let p2 : SlidingPuzzle :=
      { p1 with
        tiles := vecSwap p1.tiles p1.emptyPos tilePos
        emptyPos := tilePos
        moveCount := wrapInt (p1.moveCount + 1) }
    let p3 : SlidingPuzzle :=
      if p2.checkWinCondition then { p2 with gameWon := true } else p2
    (true, p3)

/-- Getter `getTile(pos)`. -/
def getTile (p : SlidingPuzzle) (q : Int) : Int :=
  if q < 0 ∨ q ≥ (p.tiles.length : Int) then -1 else vecGet p.tiles q

/-- Getter `getGridSize()`. -/
def getGridSize (p : SlidingPuzzle) : Int := p.gridSize

/-- Getter `getMoveCount()`. -/
def getMoveCount (p : SlidingPuzzle) : Int := p.moveCount

/-- Getter `getEmptyPos()`. -/
def getEmptyPos (p : SlidingPuzzle) : Int := p.emptyPos

/-- Getter `isWon()`. -/
def isWon (p : SlidingPuzzle) : Bool := p.gameWon

/-- Getter `hasStarted()`. -/
def hasStarted (p : SlidingPuzzle) : Bool := p.gameStarted

/-! ## Specification vocabulary -/

/-- Orthogonal adjacency of two slots in the words of the specification: same
column and rows one apart, or same row and columns one apart.  Rows and
columns are those of the helpers `row` and `col`. -/
def OrthAdjacent (p : SlidingPuzzle) (a b : Int) : Prop :=
  (p.col a = p.col b ∧ (p.row a = p.row b + 1 ∨ p.row b = p.row a + 1))
    ∨ (p.row a = p.row b ∧ (p.col a = p.col b + 1 ∨ p.col b = p.col a + 1))

/-- The grid invariant of the specification: `tiles` has `gridSize * gridSize`
entries, is a permutation of `0 .. gridSize * gridSize - 1`, and `emptyPos`
is an index of `tiles` holding `0`. -/
def GridInvariant (p : SlidingPuzzle) : Prop :=
  (p.tiles.length : Int) = p.gridSize * p.gridSize
    ∧ p.tiles.Perm ((List.range (p.gridSize * p.gridSize).toNat).map Int.ofNat)
    ∧ 0 ≤ p.emptyPos ∧ p.emptyPos < p.gridSize * p.gridSize
    ∧ vecGet p.tiles p.emptyPos = 0

/-- The solved arrangement in the words of the specification, with
`N = gridSize * gridSize`: `tiles[i] = i + 1` for `i` in `[0, N - 2]` and
`tiles[N - 1] = 0`. -/
def SolvedArrangement (p : SlidingPuzzle) : Prop :=
  (∀ i : Int, 0 ≤ i → i ≤ p.gridSize * p.gridSize - 2 → vecGet p.tiles i = i + 1)
    ∧ vecGet p.tiles (p.gridSize * p.gridSize - 1) = 0

/-- States a client of the class can reach for a puzzle built with
`SlidingPuzzle(size)`: the constructor, then any calls of `reset`, `shuffle`
and `moveTile` with any arguments, clock readings and random outcomes. -/
inductive Reachable (size : Int) : SlidingPuzzle → Prop
  | construct : Reachable size (construct size)
  | reset {p : SlidingPuzzle} : Reachable size p → Reachable size p.reset
  | shuffle {p : SlidingPuzzle} (n : Int) (rnd : Nat → Nat) :
      Reachable size p → Reachable size (p.shuffle n rnd)
  | moveTile {p : SlidingPuzzle} (slot : Int) (now : Nat) :
      Reachable size p → Reachable size (p.moveTile slot now).2

/-- Reachable states together with the history fact `w`: some successful
`moveTile` since the last `reset` or `shuffle` (or the constructor) left the
tiles in the solved arrangement. -/
inductive ReachableSince (size : Int) : SlidingPuzzle → Prop → Prop
  | construct : ReachableSince size (construct size) False
  | reset {p : SlidingPuzzle} {w : Prop} :
      ReachableSince size p w → ReachableSince size p.reset False
  | shuffle {p : SlidingPuzzle} {w : Prop} (n : Int) (rnd : Nat → Nat) :
      ReachableSince size p w → ReachableSince size (p.shuffle n rnd) False
  | moveTile {p : SlidingPuzzle} {w : Prop} (slot : Int) (now : Nat) :
      ReachableSince size p w →
      ReachableSince size (p.moveTile slot now).2
        (w ∨ ((p.moveTile slot now).1 = true ∧ SolvedArrangement (p.moveTile slot now).2))

/-- Play a list of slots with `moveTile`, every one of which `canMove` has to
accept; `none` as soon as one is refused. -/
def playMoves : List Int → SlidingPuzzle → Option SlidingPuzzle
  | [], p => some p
  | s :: rest, p => if p.canMove s then playMoves rest (p.moveTile s 0).2 else none

/-- Inversions of a list by recursion: for each entry, the later entries
smaller than it. -/
def invCount : List Int → Nat
  | [] => 0
  | a :: l => l.countP (fun b => decide (b < a)) + invCount l

/-- Inversions among the non-zero entries of a list. -/
def inversions (l : List Int) : Nat :=
  invCount (l.filter (fun x => decide (x ≠ 0)))

end SlidingPuzzle

/-! ## The game controller: embedding of `main.cpp`

The globals of `main.cpp` are the fields of `Controller`; every function that
writes them is a function on `Controller`.  Calls into the display, the
serial port and the buzzer write no global and are left out, and so are the
two redraw caches `lastDisplayedSeconds` and `lastDisplayedMoves`, which only
`drawStatusBar` reads.  What the environment supplies during one run of
`loop()` is collected in `Tick`: the touch sample, one field per call of
`millis()`, the random outcomes and the result of `loadPuzzleImage`.
`unsigned long` is 32 bits wide on the target, and a difference of two clock
values is the wrapping `usub`. -/

/-- Difference `a - b` of two `unsigned long` values (32 bits, wrapping). -/
def usub (a b : Nat) : Nat :=
  (a % 4294967296 + (4294967296 - b % 4294967296)) % 4294967296

/-- The enumeration `GameState`. -/
inductive GameState where
  | MAIN_MENU
  | PUZZLE_SELECT
  | PLAYING
  | WIN_SCREEN
deriving DecidableEq, Repr

/-- Constant `TOUCH_DEBOUNCE_MS`. -/
def TOUCH_DEBOUNCE_MS : Nat := 250

/-- Constant `ANIM_DURATION_MS`. -/
def ANIM_DURATION_MS : Nat := 180

/-- Constant `FLASH_DURATION_MS`. -/
def FLASH_DURATION_MS : Nat := 100

/-- Constant `STATUS_BAR_HEIGHT`. -/
def STATUS_BAR_HEIGHT : Int := 40

/-- Constant `BUTTON_BAR_HEIGHT`. -/
def BUTTON_BAR_HEIGHT : Int := 50

/-- Constant `GAME_AREA_Y`. -/
def GAME_AREA_Y : Int := STATUS_BAR_HEIGHT

/-- Constant `GAME_AREA_SIZE`. -/
def GAME_AREA_SIZE : Int := 480 - STATUS_BAR_HEIGHT - BUTTON_BAR_HEIGHT

/-- Constant `COL_FLASH_VALID` (0xFFFF). -/
def COL_FLASH_VALID : Nat := 65535

/-- Constant `COL_FLASH_INVALID` (0xF800). -/
def COL_FLASH_INVALID : Nat := 63488

/-- Globals of `main.cpp`.  `puzzle = none` is the null pointer;
`puzzleImageBuffer` records whether the buffer pointer is non-null. -/
structure Controller where
  puzzle : Option SlidingPuzzle
  gameState : GameState
  selectedDifficulty : Int
  selectedPuzzle : Int
  puzzleImageBuffer : Bool
  gameStartTime : Nat
  gameEndTime : Nat
  timerRunning : Bool
  lastTouchState : Bool
  lastTouchTime : Nat
  isAnimating : Bool
  animStartTime : Nat
  animFromPos : Int
  animToPos : Int
  animTileNum : Int
  flashTile : Int
  flashStartTime : Nat
  flashColor : Nat
deriving DecidableEq, Repr

/-- What the environment supplies during one run of `loop()`. -/
structure Tick where
  /-- Result of `tft.getTouch(&x, &y)`. -/
  touching : Bool
  x : Int
  y : Int
  /-- Value of `millis()` at the top of `loop`. -/
  now : Nat
  /-- Value of `millis()` inside `updateAnimation`. -/
  animNow : Nat
  /-- Value of `millis()` stored into `gameEndTime`. -/
  winNow : Nat
  /-- Value of `millis()` stored into `flashStartTime`. -/
  flashNow : Nat
  /-- Value of `millis()` stored into `gameStartTime`. -/
  timerNow : Nat
  /-- Value of `millis()` inside `startTileAnimation`. -/
  startNow : Nat
  /-- Value of `millis()` inside `SlidingPuzzle::moveTile`. -/
  moveNow : Nat
  /-- Outcomes of `random` for a shuffle started on this tick. -/
  rnd : Nat → Nat
  /-- Result of `loadPuzzleImage`. -/
  loadOk : Bool

/-- Values of the globals when `setup()` returns: the initialisers, then
`showMainMenu()`. -/
def initialController : Controller :=
  { puzzle := none
    gameState := GameState.MAIN_MENU
    selectedDifficulty := 0
    selectedPuzzle := 0
    puzzleImageBuffer := false
    gameStartTime := 0
    gameEndTime := 0
    timerRunning := false
    lastTouchState := false
    lastTouchTime := 0
    isAnimating := false
    animStartTime := 0
    animFromPos := -1
    animToPos := -1
    animTileNum := 0
    flashTile := -1
    flashStartTime := 0
    flashColor := 0 }

/-- Helper `inRect`. -/
def inRect (tx ty rx ry rw rh : Int) : Bool :=
  decide (tx ≥ rx) && decide (tx < rx + rw) && decide (ty ≥ ry) && decide (ty < ry + rh)

/-- Function `getGameSeconds()`; `now` is the value `millis()` returns. -/
def getGameSeconds (c : Controller) (now : Nat) : Nat :=
  if c.timerRunning = false ∧ c.gameStartTime = 0 then 0
  else
    let endT := if c.timerRunning then now else c.gameEndTime
    usub endT c.gameStartTime / 1000

/-- Function `showMainMenu()`. -/
def showMainMenu (c : Controller) : Controller :=
  { c with gameState := GameState.MAIN_MENU }

/-- Function `showPuzzleSelect(difficulty)`. -/
def showPuzzleSelect (c : Controller) (difficulty : Int) : Controller :=
  { c with gameState := GameState.PUZZLE_SELECT, selectedDifficulty := difficulty }

/-- Function `showWinScreen()`. -/
def showWinScreen (c : Controller) : Controller :=
  { c with gameState := GameState.WIN_SCREEN }

/-- Field `gridSize` of `puzzleManager.getPuzzle(difficulty, index)`: the
lists filled by `PuzzleManager::init` hold only 3 (easy), 4 (medium) and 5
(hard), and `getPuzzles` answers the medium list for any other difficulty. -/
def getPuzzleGridSize (difficulty : Int) : Int :=
  if difficulty = 0 then 3
  else if difficulty = 1 then 4
  else if difficulty = 2 then 5
  else 4

/-- The expression `(gridSize == 3) ? 50 : (gridSize == 4) ? 150 : 300`. -/
def shuffleMovesFor (gridSize : Int) : Int :=
  if gridSize = 3 then 50 else if gridSize = 4 then 150 else 300

/-- Function `startGame(difficulty, puzzleIndex)`; `loadOk` is the result of
`loadPuzzleImage`, which leaves the buffer non-null exactly when it succeeds. -/
def startGame (c : Controller) (difficulty puzzleIndex : Int) (loadOk : Bool)
    (rnd : Nat → Nat) : Controller :=
  let c1 : Controller :=
    { c with
      gameState := GameState.PLAYING
      selectedDifficulty := difficulty
      selectedPuzzle := puzzleIndex }
  let c2 : Controller := { c1 with puzzleImageBuffer := loadOk }
  if loadOk = false then showMainMenu c2
  else
    let gridSize := getPuzzleGridSize difficulty
    let shuffleMoves := shuffleMovesFor gridSize
    { c2 with
      puzzle := some ((SlidingPuzzle.construct gridSize).shuffle shuffleMoves rnd)
      gameStartTime := 0
      gameEndTime := 0
      timerRunning := false }

/-- Function `startTileAnimation(fromPos, toPos, tileNum)`. -/
def startTileAnimation (c : Controller) (fromPos toPos tileNum : Int) (now : Nat) :
    Controller :=
  { c with
    isAnimating := true
    animStartTime := now
    animFromPos := fromPos
    animToPos := toPos
    animTileNum := tileNum }

/-- Function `updateAnimation()`: the returned flag and the globals after it. -/
def updateAnimation (c : Controller) (now : Nat) : Bool × Controller :=
  if c.isAnimating = false ∨ c.puzzle.isNone then (true, c)
  else
    let elapsed := usub now c.animStartTime
    if elapsed ≥ ANIM_DURATION_MS then (true, { c with isAnimating := false })
    else (false, c)

/-- The part of `handleGameTouch` that maps a touch above the button bar to a
grid slot: `none` when the touch is outside the grid. -/
def boardSlot (gridSize x y : Int) : Option Int :=
  let tileSize := Int.tdiv GAME_AREA_SIZE gridSize
  let offsetX := Int.tdiv (480 - tileSize * gridSize) 2
  let offsetY := GAME_AREA_Y + Int.tdiv (GAME_AREA_SIZE - tileSize * gridSize) 2
  let gridX := x - offsetX
  let gridY := y - offsetY
  if gridX < 0 ∨ gridY < 0 ∨ gridX ≥ tileSize * gridSize ∨ gridY ≥ tileSize * gridSize then
    none
  else
    let col := Int.tdiv gridX tileSize
    let row := Int.tdiv gridY tileSize
    some (row * gridSize + col)

/-- Function `handleGameTouch(x, y)`. -/
def handleGameTouch (c : Controller) (x y : Int) (t : Tick) : Controller :=
  match c.puzzle with
  | none => c
  | some pz =>
    if c.isAnimating then c
    else
      let gridSize := pz.getGridSize
      let barY := 480 - BUTTON_BAR_HEIGHT
      if y ≥ barY then
        if inRect x y 10 (barY + 5) 140 40 then
          showPuzzleSelect { c with puzzleImageBuffer := false, puzzle := none }
            c.selectedDifficulty
        else if inRect x y 330 (barY + 5) 140 40 then
          let shuffleMoves := shuffleMovesFor gridSize
          { c with
            puzzle := some (pz.reset.shuffle shuffleMoves t.rnd)
            gameStartTime := 0
            gameEndTime := 0
            timerRunning := false }
        else c
      else
        match boardSlot gridSize x y with
        | none => c
        | some tilePos =>
          if pz.canMove tilePos then
            let oldEmptyPos := pz.getEmptyPos
            let tileNum := pz.getTile tilePos
            let c1 : Controller :=
              { c with
                flashTile := tilePos
                flashStartTime := t.flashNow
                flashColor := COL_FLASH_VALID }
            let c2 : Controller :=
              if c1.timerRunning = false ∧ c1.gameStartTime = 0 then
                { c1 with gameStartTime := t.timerNow, timerRunning := true }
              else c1
            let c3 := startTileAnimation c2 tilePos oldEmptyPos tileNum t.startNow
            { c3 with puzzle := some (pz.moveTile tilePos t.moveNow).2 }
          else
            { c with
              flashTile := tilePos
              flashStartTime := t.flashNow
              flashColor := COL_FLASH_INVALID }

/-- Function `handleWinTouch(x, y)`. -/
def handleWinTouch (c : Controller) (x y : Int) (t : Tick) : Controller :=
  if inRect x y 50 400 170 50 then
    startGame c c.selectedDifficulty c.selectedPuzzle t.loadOk t.rnd
  else if inRect x y 260 400 170 50 then
    showMainMenu { c with puzzleImageBuffer := false, puzzle := none }
  else c

/-- Function `handleMenuTouch(x, y)`. -/
def handleMenuTouch (c : Controller) (x y : Int) : Controller :=
  let btnW : Int := 300
  let btnH : Int := 60
  let btnX : Int := Int.tdiv (480 - btnW) 2
  if inRect x y btnX 260 btnW btnH then showPuzzleSelect c 0
  else if inRect x y btnX 340 btnW btnH then showPuzzleSelect c 1
  else if inRect x y btnX 420 btnW btnH then showPuzzleSelect c 2
  else c

/-- Function `handlePuzzleSelectTouch(x, y)`; every list of the catalogue has
five entries, so the loop visits `i = 0 .. 4` and starts the game at the first
button hit. -/
def handlePuzzleSelectTouch (c : Controller) (x y : Int) (t : Tick) : Controller :=
  if inRect x y 10 430 120 40 then showMainMenu c
  else
    let btnW : Int := 420
    let btnH : Int := 55
    let btnX : Int := Int.tdiv (480 - btnW) 2
    let startY : Int := 95
    match ([0, 1, 2, 3, 4] : List Int).find? (fun i => inRect x y btnX (startY + i * 65) btnW btnH) with
    | some i => startGame c c.selectedDifficulty i t.loadOk t.rnd
    | none => c

/-- First block of `loop()`: advance the animation and, when it completes on
a won puzzle, stop the timer and show the win screen. -/
def loopAnimation (c : Controller) (t : Tick) : Controller :=
  if c.gameState = GameState.PLAYING ∧ c.isAnimating = true then
    let r := updateAnimation c t.animNow
    if r.1 then
      let c2 : Controller := { r.2 with isAnimating := false }
      match c2.puzzle with
      | some pz =>
        if pz.isWon then
          showWinScreen { c2 with timerRunning := false, gameEndTime := t.winNow }
        else c2
      | none => c2
    else r.2
  else c

/-- Second block of `loop()`: clear the tap feedback once it has expired. -/
def loopFlash (c : Controller) (t : Tick) : Controller :=
  if c.gameState = GameState.PLAYING ∧ c.flashTile ≥ 0
      ∧ usub t.now c.flashStartTime ≥ FLASH_DURATION_MS then
    { c with flashTile := -1 }
  else c

/-- Condition of the debounce `if` of `loop()`. -/
def touchAccepted (c : Controller) (t : Tick) : Bool :=
  t.touching && !c.lastTouchState && decide (usub t.now c.lastTouchTime > TOUCH_DEBOUNCE_MS)

/-- The `switch (gameState)` of `loop()`. -/
def dispatchTouch (c : Controller) (t : Tick) : Controller :=
  match c.gameState with
  | GameState.MAIN_MENU => handleMenuTouch c t.x t.y
  | GameState.PUZZLE_SELECT => handlePuzzleSelectTouch c t.x t.y t
  | GameState.PLAYING => handleGameTouch c t.x t.y t
  | GameState.WIN_SCREEN => handleWinTouch c t.x t.y t

/-- Third block of `loop()`: the debounced press detection, the dispatch and
the update of `lastTouchState`. -/
def loopTouch (c : Controller) (t : Tick) : Controller :=
  let c1 : Controller :=
    if touchAccepted c t then dispatchTouch { c with lastTouchTime := t.now } t else c
  { c1 with lastTouchState := t.touching }

/-- Function `loop()`: its three blocks in order (the closing status-bar
refresh writes no modelled global). -/
def loop (c : Controller) (t : Tick) : Controller :=
  loopTouch (loopFlash (loopAnimation c t) t) t

/-- Run `loop()` once per element of a list of ticks. -/
def runTicks (c : Controller) : List Tick → Controller
  | [] => c
  | t :: rest => runTicks (loop c t) rest

/-- Number of press events dispatched while running a list of ticks. -/
def countDispatched (c : Controller) : List Tick → Nat
  | [] => 0
  | t :: rest =>
    (if touchAccepted (loopFlash (loopAnimation c t) t) t then 1 else 0)
      + countDispatched (loop c t) rest

/-- Clock values `now` of the ticks at which the raw touch flag rises
(`touching` true after a poll with `touching` false), starting from the
stored flag `prev`. -/
def risingEdges (prev : Bool) : List Tick → List Nat
  | [] => []
  | t :: rest =>
    (if t.touching && !prev then [t.now] else []) ++ risingEdges t.touching rest

/-- A tick in which every call of `millis()` returns `now`, the random outcomes
are all 0 and `loadPuzzleImage` succeeds. -/
def pollAt (touching : Bool) (x y : Int) (now : Nat) : Tick :=
  { touching := touching
    x := x
    y := y
    now := now
    animNow := now
    winNow := now
    flashNow := now
    timerNow := now
    startNow := now
    moveNow := now
    rnd := fun _ => 0
    loadOk := true }

/-- The controller in the playing screen on a solved 3 x 3 grid with the
timer not started: the state after `startGame` when the shuffle has come back
to the solved grid. -/
def playingSolved3 : Controller :=
  { initialController with
    gameState := GameState.PLAYING
    puzzle := some (SlidingPuzzle.construct 3)
    puzzleImageBuffer := true }

/-- The 3 x 3 game one poll before its win screen: from `playingSolved3` tile
8 is slid out (press on slot 7 at clock 500) and back (press on slot 8 at
clock 1000), so the puzzle is won and the animation of the winning move,
started at clock 1000, is in flight. -/
def wonAnimating3 : Controller :=
  runTicks playingSolved3
    [pollAt true 200 350 500, pollAt false 0 0 600, pollAt false 0 0 700,
      pollAt true 400 350 1000, pollAt false 0 0 1100]

/-- Top-left pixel of the square in which `drawGameScreen` and `drawTile`
draw grid slot `gridPos`: the geometry of `drawGameScreen` (`tileSize`,
`offsetX`, `offsetY`) and the `destX`, `destY` of `drawTile`.  The square has
side `GAME_AREA_SIZE / gridSize`. -/
def drawnTileOrigin (gridSize gridPos : Int) : Int × Int :=
  let tileSize := Int.tdiv GAME_AREA_SIZE gridSize
  let offsetX := Int.tdiv (480 - tileSize * gridSize) 2
  let offsetY := GAME_AREA_Y + Int.tdiv (GAME_AREA_SIZE - tileSize * gridSize) 2
  let destRow := Int.tdiv gridPos gridSize
  let destCol := Int.tmod gridPos gridSize
  (offsetX + destCol * tileSize, offsetY + destRow * tileSize)

/-- What the first block of `loop()` hears from `updateAnimation` over a run
of ticks of `loop()`: `some flag` on a tick where it calls `updateAnimation`,
`none` on a tick where it does not (no animation in flight, or another
screen). -/
def animationReports (c : Controller) : List Tick → List (Option Bool)
  | [] => []
  | t :: rest =>
    (if c.gameState = GameState.PLAYING ∧ c.isAnimating = true then
        some (updateAnimation c t.animNow).1
      else none)
      :: animationReports (loop c t) rest

/-- The interpolation factor of `updateAnimation`, `elapsed / ANIM_DURATION_MS`,
as an exact quotient (the source computes it in `float`). -/
def animProgress (c : Controller) (now : Nat) : ℚ :=
  (usub now c.animStartTime : ℚ) / (ANIM_DURATION_MS : ℚ)

/-- The playing screen on the 3 x 3 grid after an accepted press on slot 7 of
the solved grid at clock 500, on a tick where `startTileAnimation` read the
clock at 700, and a release polled at clock 750: the tile is moved and its
animation is in flight. -/
def animatingSolved3 : Controller :=
  runTicks playingSolved3
    [{ pollAt true 200 350 500 with startNow := 700 }, pollAt false 0 0 750]

/-! ## Vector lemmas -/

theorem vecGet_natCast (v : List Int) (n : Nat) : vecGet v (n : Int) = v.getD n 0 := by
  simp [vecGet]

theorem vecSet_natCast (v : List Int) (n : Nat) (x : Int) :
    vecSet v (n : Int) x = v.set n x := by
  simp [vecSet]

theorem vecSwap_natCast (v : List Int) (i j : Nat) :
    vecSwap v (i : Int) (j : Int) = (v.set i (v.getD j 0)).set j (v.getD i 0) := by
  simp [vecSwap, vecGet_natCast, vecSet_natCast]

theorem length_vecSwap (v : List Int) (i j : Int) : (vecSwap v i j).length = v.length := by
  unfold vecSwap vecSet
  split <;> split <;> simp

theorem getD_swap (v : List Int) (i j k : Nat) (hi : i < v.length) (hj : j < v.length) :
    ((v.set i (v.getD j 0)).set j (v.getD i 0)).getD k 0 =
      if k = j then v.getD i 0 else if k = i then v.getD j 0 else v.getD k 0 := by
  by_cases hk : k < v.length
  · rw [List.getD_eq_getElem _ _ (by simpa using hk)]
    simp only [List.getElem_set]
    by_cases h1 : j = k
    · subst h1; simp
    · by_cases h2 : i = k
      · subst h2; simp [h1, Ne.symm h1]
      · simp [h1, h2, Ne.symm h1, Ne.symm h2, List.getElem?_eq_getElem hk]
  · have h1 : k ≠ j := by omega
    have h2 : k ≠ i := by omega
    simp only [h1, h2, if_false]
    rw [List.getD_eq_default _ _ (by simpa using hk), List.getD_eq_default _ _ (by omega)]

namespace SlidingPuzzle

/-! ## Reset -/

theorem foldl_push_back (xs : List Nat) (acc : List Int) :
    xs.foldl (fun (t : List Int) (i : Nat) => t ++ [(i : Int)]) acc
      = acc ++ xs.map Int.ofNat := by
  induction xs generalizing acc with
  | nil => simp
  | cons x xs ih => simp [ih]

theorem reset_tiles (p : SlidingPuzzle) :
    p.reset.tiles
      = (List.range' 1 (p.gridSize * p.gridSize - 1).toNat).map Int.ofNat ++ [0] := by
  simp [reset, foldl_push_back]

theorem reset_state (p : SlidingPuzzle) (hsize : 1 ≤ p.gridSize) :
    p.reset.tiles
        = (List.range' 1 ((p.gridSize * p.gridSize).toNat - 1)).map Int.ofNat ++ [0]
      ∧ (p.reset.tiles.length : Int) = p.gridSize * p.gridSize
      ∧ p.reset.getEmptyPos = p.gridSize * p.gridSize - 1
      ∧ p.reset.getMoveCount = 0
      ∧ p.reset.isWon = false
      ∧ p.reset.hasStarted = false
      ∧ p.reset.startTime = 0
      ∧ p.reset.getGridSize = p.gridSize := by
  have hN : 1 ≤ p.gridSize * p.gridSize := by nlinarith
  have hcast : (p.gridSize * p.gridSize - 1).toNat = (p.gridSize * p.gridSize).toNat - 1 := by
    omega
  refine ⟨by rw [reset_tiles, hcast], ?_, rfl, rfl, rfl, rfl, rfl, rfl⟩
  rw [reset_tiles]
  simp only [List.length_append, List.length_map, List.length_range', List.length_singleton]
  omega

/-- C1: for every grid size `>= 1` (so for 3, 4 and 5), after `reset()` the
tiles are exactly `[1, 2, ..., size*size - 1, 0]` (a vector of `size*size`
entries), `emptyPos = size*size - 1`, `moveCount = 0`, the win flag is false,
`gameStarted` is false and `startTime = 0`. -/
theorem C1_reset_state (p : SlidingPuzzle) (hsize : 1 ≤ p.gridSize) :
    p.reset.tiles
        = (List.range' 1 ((p.gridSize * p.gridSize).toNat - 1)).map Int.ofNat ++ [0]
      ∧ (p.reset.tiles.length : Int) = p.gridSize * p.gridSize
      ∧ p.reset.getEmptyPos = p.gridSize * p.gridSize - 1
      ∧ p.reset.getMoveCount = 0
      ∧ p.reset.isWon = false
      ∧ p.reset.hasStarted = false
      ∧ p.reset.startTime = 0
      ∧ p.reset.getGridSize = p.gridSize :=
  reset_state p hsize

/-- Witness of C1 at grid size 3. -/
theorem C1_reset_state_witness :
    1 ≤ (construct 3).gridSize
      ∧ ((construct 3).reset.tiles
          = (List.range' 1 (((construct 3).gridSize * (construct 3).gridSize).toNat - 1)).map
              Int.ofNat ++ [0]
        ∧ ((construct 3).reset.tiles.length : Int)
            = (construct 3).gridSize * (construct 3).gridSize
        ∧ (construct 3).reset.getEmptyPos
            = (construct 3).gridSize * (construct 3).gridSize - 1
        ∧ (construct 3).reset.getMoveCount = 0
        ∧ (construct 3).reset.isWon = false
        ∧ (construct 3).reset.hasStarted = false
        ∧ (construct 3).reset.startTime = 0
        ∧ (construct 3).reset.getGridSize = (construct 3).gridSize) :=
  ⟨by decide, C1_reset_state (construct 3) (by decide)⟩

/-! ## Move validation and move application -/

theorem abs_sub_eq_one_iff (a b : Int) : |a - b| = 1 ↔ (a = b + 1 ∨ b = a + 1) := by
  constructor
  · intro h
    rcases (abs_eq (by norm_num)).1 h with h | h
    · left; omega
    · right; omega
  · intro h
    apply (abs_eq (by norm_num)).2
    rcases h with h | h
    · left; omega
    · right; omega

theorem canMove_eq_true_iff (p : SlidingPuzzle) (slot : Int) :
    p.canMove slot = true ↔
      (0 ≤ slot ∧ slot < (p.tiles.length : Int)) ∧ vecGet p.tiles slot ≠ 0
        ∧ OrthAdjacent p slot p.emptyPos := by
  unfold canMove OrthAdjacent
  by_cases h1 : slot < 0 ∨ slot ≥ (p.tiles.length : Int)
  · rw [if_pos h1]
    constructor
    · intro h; cases h
    · rintro ⟨⟨ha, hb⟩, _⟩; omega
  · rw [if_neg h1]
    by_cases h2 : vecGet p.tiles slot = 0
    · rw [if_pos h2]
      constructor
      · intro h; cases h
      · rintro ⟨_, hne, _⟩; exact absurd h2 hne
    · rw [if_neg h2]
      simp only [Bool.or_eq_true, Bool.and_eq_true, decide_eq_true_eq, abs_sub_eq_one_iff]
      constructor
      · rintro (⟨hr, hc⟩ | ⟨hc, hr⟩)
        · exact ⟨by omega, h2, Or.inl ⟨hc, hr⟩⟩
        · exact ⟨by omega, h2, Or.inr ⟨hr, hc⟩⟩
      · rintro ⟨_, _, (⟨hc, hr⟩ | ⟨hr, hc⟩)⟩
        · exact Or.inl ⟨hr, hc⟩
        · exact Or.inr ⟨hc, hr⟩

/-- C2: for every puzzle state whose `tiles` has `gridSize * gridSize` entries
and every integer `slot`, `canMove(slot)` is true if and only if
`0 <= slot < gridSize * gridSize`, `tiles[slot] != 0`, and `slot` is
orthogonally adjacent to `emptyPos` (same column and rows one apart, or same
row and columns one apart). -/
theorem C2_canMove_iff (p : SlidingPuzzle) (slot : Int)
    (hlen : (p.tiles.length : Int) = p.gridSize * p.gridSize) :
    p.canMove slot = true ↔
      (0 ≤ slot ∧ slot < p.gridSize * p.gridSize) ∧ vecGet p.tiles slot ≠ 0
        ∧ OrthAdjacent p slot p.emptyPos := by
  rw [canMove_eq_true_iff, hlen]

/-- Witness of C2 on the solved 3 x 3 grid and slot 5. -/
theorem C2_canMove_iff_witness :
    ((construct 3).tiles.length : Int) = (construct 3).gridSize * (construct 3).gridSize
      ∧ ((construct 3).canMove 5 = true ↔
          (0 ≤ (5 : Int) ∧ (5 : Int) < (construct 3).gridSize * (construct 3).gridSize)
            ∧ vecGet (construct 3).tiles 5 ≠ 0
            ∧ OrthAdjacent (construct 3) 5 (construct 3).emptyPos) :=
  ⟨by decide, C2_canMove_iff (construct 3) 5 (by decide)⟩

theorem wrapInt_of_range (x : Int) (h0 : -2147483648 ≤ x) (h1 : x ≤ 2147483647) :
    wrapInt x = x := by
  unfold wrapInt
  omega

theorem moveTile_of_canMove (p : SlidingPuzzle) (s : Int) (now : Nat)
    (h : p.canMove s = true) :
    (p.moveTile s now).1 = true
      ∧ (p.moveTile s now).2.tiles = vecSwap p.tiles p.emptyPos s
      ∧ (p.moveTile s now).2.emptyPos = s
      ∧ (p.moveTile s now).2.moveCount = wrapInt (p.moveCount + 1)
      ∧ (p.moveTile s now).2.gridSize = p.gridSize := by
  unfold moveTile
  simp only [h, not_true_eq_false, if_false]
  refine ⟨trivial, ?_, ?_, ?_, ?_⟩ <;> (split <;> split <;> rfl)

theorem moveTile_of_not_canMove (p : SlidingPuzzle) (s : Int) (now : Nat)
    (hcan : p.canMove s = false) :
    (p.moveTile s now).1 = false ∧ (p.moveTile s now).2 = p := by
  unfold moveTile
  simp [hcan]

/-- At `moveCount = 2147483647` the increment of `moveTile` wraps: the counter
reads `-2147483648` after the move. -/
theorem moveTile_moveCount_wraps :
    GridInvariant { construct 3 with moveCount := 2147483647 }
      ∧ ({ construct 3 with moveCount := 2147483647 } : SlidingPuzzle).canMove 5 = true
      ∧ (({ construct 3 with moveCount := 2147483647 } : SlidingPuzzle).moveTile 5 0).2.getMoveCount
          = -2147483648 :=
  ⟨⟨by decide, by decide, by decide, by decide, by decide⟩, by decide, by decide⟩

/-- C3: for every puzzle state satisfying the grid invariant whose move
counter is an `int` below `INT_MAX` (so that `moveCount++` does not overflow)
and every slot `s` with `canMove(s)` true, `moveTile(s)` returns true and
leaves `tiles[s] = 0`, `tiles[old emptyPos] = old tiles[s]`, `emptyPos = s` and
`moveCount = old moveCount + 1`. -/
theorem C3_moveTile_effect (p : SlidingPuzzle) (s : Int) (now : Nat)
    (hinv : GridInvariant p) (hcan : p.canMove s = true)
    (hlo : -2147483648 ≤ p.moveCount) (hhi : p.moveCount < 2147483647) :
    (p.moveTile s now).1 = true
      ∧ vecGet (p.moveTile s now).2.tiles s = 0
      ∧ vecGet (p.moveTile s now).2.tiles p.emptyPos = vecGet p.tiles s
      ∧ (p.moveTile s now).2.getEmptyPos = s
      ∧ (p.moveTile s now).2.getMoveCount = p.moveCount + 1 := by
  obtain ⟨h1, h2, h3, h4, _⟩ := moveTile_of_canMove p s now hcan
  obtain ⟨hlen, _, he0, he1, hz⟩ := hinv
  obtain ⟨⟨hs0, hs1⟩, hne, _⟩ := (canMove_eq_true_iff p s).1 hcan
  refine ⟨h1, ?_, ?_, h3, h4.trans (wrapInt_of_range _ (by omega) (by omega))⟩
  · rw [h2]
    lift s to ℕ using hs0
    lift p.emptyPos to ℕ using he0 with e
    rw [vecSwap_natCast, vecGet_natCast, getD_swap _ _ _ _ (by omega) (by omega)]
    simpa [vecGet_natCast] using hz
  · rw [h2]
    have hse : s ≠ p.emptyPos := by
      intro h; rw [h] at hne; exact hne hz
    lift s to ℕ using hs0
    lift p.emptyPos to ℕ using he0 with e
    rw [vecSwap_natCast, vecGet_natCast, getD_swap _ _ _ _ (by omega) (by omega)]
    have hse2 : e ≠ s := by
      intro h; apply hse; rw [h]
    simp [hse2, vecGet_natCast]

/-- Witness of C3 on the solved 3 x 3 grid, slot 5, clock 100. -/
theorem C3_moveTile_effect_witness :
    GridInvariant (construct 3) ∧ (construct 3).canMove 5 = true
      ∧ -2147483648 ≤ (construct 3).moveCount
      ∧ (construct 3).moveCount < 2147483647
      ∧ (((construct 3).moveTile 5 100).1 = true
        ∧ vecGet ((construct 3).moveTile 5 100).2.tiles 5 = 0
        ∧ vecGet ((construct 3).moveTile 5 100).2.tiles (construct 3).emptyPos
            = vecGet (construct 3).tiles 5
        ∧ ((construct 3).moveTile 5 100).2.getEmptyPos = 5
        ∧ ((construct 3).moveTile 5 100).2.getMoveCount = (construct 3).moveCount + 1) :=
  ⟨⟨by decide, by decide, by decide, by decide, by decide⟩, by decide, by decide, by decide,
    C3_moveTile_effect (construct 3) 5 100
      ⟨by decide, by decide, by decide, by decide, by decide⟩ (by decide) (by decide)
      (by decide)⟩

/-- C4: for every puzzle state and every slot `s` with `canMove(s)` false,
`moveTile(s)` returns false and leaves the whole state unchanged: tiles,
`emptyPos`, `moveCount`, win flag, `gameStarted` and `startTime`. -/
theorem C4_moveTile_rejected (p : SlidingPuzzle) (s : Int) (now : Nat)
    (hcan : p.canMove s = false) :
    (p.moveTile s now).1 = false ∧ (p.moveTile s now).2 = p :=
  moveTile_of_not_canMove p s now hcan

/-- Witness of C4 on the solved 3 x 3 grid: slot 8 is the empty slot. -/
theorem C4_moveTile_rejected_witness :
    (construct 3).canMove 8 = false
      ∧ (((construct 3).moveTile 8 100).1 = false
        ∧ ((construct 3).moveTile 8 100).2 = construct 3) :=
  ⟨by decide, C4_moveTile_rejected (construct 3) 8 100 (by decide)⟩

/-! ## Swapping two entries of a vector -/

theorem list_split_at (v : List Int) (i : Nat) (hi : i < v.length) :
    ∃ A a B, v = A ++ a :: B ∧ A.length = i := by
  refine ⟨v.take i, v[i], v.drop (i + 1), ?_, ?_⟩
  · rw [← List.drop_eq_getElem_cons hi, List.take_append_drop]
  · rw [List.length_take]; omega

theorem swap_decomp (v : List Int) (i j : Nat) (hij : i < j) (hj : j < v.length) :
    ∃ A M B a b, v = A ++ a :: (M ++ b :: B) ∧ A.length = i ∧ i + M.length + 1 = j
      ∧ v.getD i 0 = a ∧ v.getD j 0 = b
      ∧ (v.set i (v.getD j 0)).set j (v.getD i 0) = A ++ b :: (M ++ a :: B) := by
  obtain ⟨A, a, R, hv, hA⟩ := list_split_at v i (by omega)
  have hR : j - i - 1 < R.length := by
    have := congrArg List.length hv
    simp at this
    omega
  obtain ⟨M, b, B, hR2, hM⟩ := list_split_at R (j - i - 1) hR
  subst hR2
  have hgi : v.getD i 0 = a := by
    rw [hv, List.getD_append_right _ _ _ _ (by omega)]
    simp [hA]
  have hgj : v.getD j 0 = b := by
    rw [hv, List.getD_append_right _ _ _ _ (by omega)]
    have : j - A.length = (M.length + 1) := by omega
    rw [this, List.getD_cons_succ, List.getD_append_right _ _ _ _ (by omega)]
    simp
  refine ⟨A, M, B, a, b, hv, hA, by omega, hgi, hgj, ?_⟩
  rw [hgi, hgj, hv]
  rw [List.set_append_right _ _ (by omega)]
  have h1 : i - A.length = 0 := by omega
  rw [h1, List.set_cons_zero, List.set_append_right _ _ (by omega)]
  have h2 : j - A.length = M.length + 1 := by omega
  rw [h2, List.set_cons_succ, List.set_append_right _ _ (by omega)]
  simp

theorem set_getElem_same (v : List Int) (i : Nat) (hi : i < v.length) : v.set i v[i] = v := by
  apply List.ext_getElem (by simp)
  intro n h1 h2
  simp only [List.getElem_set]
  split
  · next h => subst h; rfl
  · rfl

theorem swap_perm (v : List Int) (i j : Nat) (hi : i < v.length) (hj : j < v.length) :
    ((v.set i (v.getD j 0)).set j (v.getD i 0)).Perm v := by
  have key : ∀ (i j : Nat), i < j → j < v.length →
      ((v.set i (v.getD j 0)).set j (v.getD i 0)).Perm v := by
    intro i j hij hj
    obtain ⟨A, M, B, a, b, hv, -, -, -, -, hs⟩ := swap_decomp v i j hij hj
    rw [hs]
    conv_rhs => rw [hv]
    rw [List.perm_iff_count]
    intro x
    simp [List.count_cons]
    omega
  rcases Nat.lt_trichotomy i j with h | h | h
  · exact key i j h hj
  · subst h
    rw [List.getD_eq_getElem _ _ hi, set_getElem_same _ _ hi, set_getElem_same _ _ hi]
  · have := key j i h hi
    rwa [List.set_comm _ _ _ (Nat.ne_of_lt h)] at this

/-! ## Rows and columns -/

theorem tdiv_tmod_of_decomp (g r c : Int) (hg : 1 ≤ g) (hr : 0 ≤ r) (hc0 : 0 ≤ c)
    (hc : c < g) : Int.tdiv (r * g + c) g = r ∧ Int.tmod (r * g + c) g = c := by
  have hnn : 0 ≤ r * g + c := by positivity
  rw [Int.tdiv_eq_ediv hnn (by omega), Int.tmod_eq_emod hnn (by omega)]
  exact (Int.ediv_emod_unique (by omega)).2 ⟨by ring, hc0, hc⟩

theorem slot_decomp (g e : Int) (hg : 1 ≤ g) (he : 0 ≤ e) :
    ∃ r c, e = r * g + c ∧ 0 ≤ r ∧ 0 ≤ c ∧ c < g ∧ Int.tdiv e g = r ∧ Int.tmod e g = c
      ∧ (e < g * g → r < g) := by
  refine ⟨e / g, e % g, ?_, Int.ediv_nonneg he (by omega), Int.emod_nonneg _ (by omega),
    Int.emod_lt_of_pos _ (by omega), Int.tdiv_eq_ediv he (by omega),
    Int.tmod_eq_emod he (by omega), ?_⟩
  · have := Int.ediv_add_emod e g
    linarith [mul_comm g (e / g)]
  · intro h
    exact Int.ediv_lt_of_lt_mul (by omega) h

/-- Candidates of `validMoves` in a grid of side `g >= 1` whose empty slot `e`
is in range: each is in range and is one of `e - g` (row above), `e + g` (row
below), `e - 1`, `e + 1` (same row). -/
theorem validMoves_spec (p : SlidingPuzzle) (hg : 1 ≤ p.gridSize) (he0 : 0 ≤ p.emptyPos)
    (he1 : p.emptyPos < p.gridSize * p.gridSize) (c : Int) (hc : c ∈ p.validMoves) :
    0 ≤ c ∧ c < p.gridSize * p.gridSize ∧
      ((p.col c = p.col p.emptyPos
          ∧ ((c = p.emptyPos - p.gridSize ∧ p.row c = p.row p.emptyPos - 1)
            ∨ (c = p.emptyPos + p.gridSize ∧ p.row c = p.row p.emptyPos + 1)))
        ∨ (p.row c = p.row p.emptyPos
          ∧ ((c = p.emptyPos - 1 ∧ p.col c = p.col p.emptyPos - 1)
            ∨ (c = p.emptyPos + 1 ∧ p.col c = p.col p.emptyPos + 1)))) := by
  obtain ⟨r, k, hek, hr0, hk0, hk1, hrow, hcol, hrg⟩ := slot_decomp p.gridSize p.emptyPos hg he0
  have hr1 := hrg he1
  have hrg2 : r * p.gridSize ≤ (p.gridSize - 1) * p.gridSize :=
    Int.mul_le_mul_of_nonneg_right (by omega) (by omega)
  have hrg3 : 0 ≤ r * p.gridSize := by positivity
  have hgg : (p.gridSize - 1) * p.gridSize = p.gridSize * p.gridSize - p.gridSize := by ring
  simp only [validMoves, row, col, pos, hrow, hcol, List.mem_append, List.mem_ite_nil_right,
    List.mem_singleton] at hc ⊢
  rcases hc with ((⟨h, rfl⟩ | ⟨h, rfl⟩) | ⟨h, rfl⟩) | ⟨h, rfl⟩
  · obtain ⟨h1, h2⟩ := tdiv_tmod_of_decomp p.gridSize (r - 1) k hg (by omega) hk0 hk1
    have : (r - 1) * p.gridSize = r * p.gridSize - p.gridSize := by ring
    have hrg4 : 0 ≤ (r - 1) * p.gridSize := by
      have : 0 ≤ r - 1 := by omega
      positivity
    rw [h1, h2]
    refine ⟨by omega, by omega, Or.inl ⟨rfl, Or.inl ⟨by omega, rfl⟩⟩⟩
  · obtain ⟨h1, h2⟩ := tdiv_tmod_of_decomp p.gridSize (r + 1) k hg (by omega) hk0 hk1
    have : (r + 1) * p.gridSize = r * p.gridSize + p.gridSize := by ring
    have hrg5 : (r + 1) * p.gridSize ≤ (p.gridSize - 1) * p.gridSize :=
      Int.mul_le_mul_of_nonneg_right (by omega) (by omega)
    rw [h1, h2]
    refine ⟨by omega, by omega, Or.inl ⟨rfl, Or.inr ⟨by omega, rfl⟩⟩⟩
  · obtain ⟨h1, h2⟩ := tdiv_tmod_of_decomp p.gridSize r (k - 1) hg hr0 (by omega) (by omega)
    rw [h1, h2]
    refine ⟨by omega, by omega, Or.inr ⟨rfl, Or.inl ⟨by omega, rfl⟩⟩⟩
  · obtain ⟨h1, h2⟩ := tdiv_tmod_of_decomp p.gridSize r (k + 1) hg hr0 (by omega) (by omega)
    rw [h1, h2]
    refine ⟨by omega, by omega, Or.inr ⟨rfl, Or.inr ⟨by omega, rfl⟩⟩⟩

/-! ## The grid invariant -/

theorem GridInvariant.nodup {p : SlidingPuzzle} (h : GridInvariant p) : p.tiles.Nodup :=
  (h.2.1.nodup_iff).2 ((List.nodup_range _).map Int.ofNat_injective)

theorem GridInvariant.count {p : SlidingPuzzle} (h : GridInvariant p) (v : Int) :
    p.tiles.count v = if 0 ≤ v ∧ v < p.gridSize * p.gridSize then 1 else 0 := by
  rw [h.2.1.count_eq, List.count_eq_of_nodup ((List.nodup_range _).map Int.ofNat_injective)]
  congr 1
  apply propext
  simp only [List.mem_map, List.mem_range]
  constructor
  · rintro ⟨n, hn, rfl⟩
    have : ((n : Nat) : Int) = Int.ofNat n := rfl
    omega
  · rintro ⟨h0, h1⟩
    refine ⟨v.toNat, by omega, ?_⟩
    have : Int.ofNat v.toNat = ((v.toNat : Nat) : Int) := rfl
    omega

/-- Under the grid invariant the only slot holding `0` is `emptyPos`. -/
theorem GridInvariant.ne_zero {p : SlidingPuzzle} (h : GridInvariant p) (c : Int)
    (hc0 : 0 ≤ c) (hc1 : c < p.gridSize * p.gridSize) (hne : c ≠ p.emptyPos) :
    vecGet p.tiles c ≠ 0 := by
  obtain ⟨hlen, _, he0, he1, hz⟩ := id h
  intro hzc
  apply hne
  lift c to ℕ using hc0
  lift p.emptyPos to ℕ using he0 with e
  rw [vecGet_natCast, List.getD_eq_getElem _ _ (by omega)] at hz hzc
  have := (h.nodup.getElem_inj_iff).1 (hzc.trans hz.symm)
  rw [this]

theorem swapWithEmpty_invariant (p : SlidingPuzzle) (h : GridInvariant p) (c : Int)
    (hc0 : 0 ≤ c) (hc1 : c < p.gridSize * p.gridSize) :
    GridInvariant (p.swapWithEmpty c) := by
  obtain ⟨hlen, hperm, he0, he1, hz⟩ := h
  refine ⟨?_, ?_, hc0, hc1, ?_⟩
  · simpa [swapWithEmpty, length_vecSwap] using hlen
  · show (vecSwap p.tiles p.emptyPos c).Perm _
    lift c to ℕ using hc0
    lift p.emptyPos to ℕ using he0 with e
    rw [vecSwap_natCast]
    exact (swap_perm _ _ _ (by omega) (by omega)).trans hperm
  · show vecGet (vecSwap p.tiles p.emptyPos c) c = 0
    lift c to ℕ using hc0
    lift p.emptyPos to ℕ using he0 with e
    rw [vecSwap_natCast, vecGet_natCast, getD_swap _ _ _ _ (by omega) (by omega)]
    simpa [vecGet_natCast] using hz

theorem reset_eq_construct (p : SlidingPuzzle) : p.reset = construct p.gridSize := rfl

theorem reset_invariant (p : SlidingPuzzle) (hg : 1 ≤ p.gridSize) : GridInvariant p.reset := by
  have hN : 1 ≤ p.gridSize * p.gridSize := by nlinarith
  obtain ⟨ht, hlen, he, -⟩ := reset_state p hg
  have hgs : p.reset.gridSize = p.gridSize := rfl
  have hep : p.reset.emptyPos = p.gridSize * p.gridSize - 1 := rfl
  refine ⟨by rw [hlen, hgs], ?_, by rw [hep]; omega, by rw [hep, hgs]; omega, ?_⟩
  · rw [ht, hgs]
    obtain ⟨m, hm⟩ : ∃ m, (p.gridSize * p.gridSize).toNat = m + 1 := ⟨_, (Nat.succ_pred (by omega)).symm⟩
    rw [hm, List.range_eq_range', List.range'_succ]
    simp
  · rw [hep, ht]
    have hcast : p.gridSize * p.gridSize - 1 = (((p.gridSize * p.gridSize).toNat - 1 : Nat) : Int) := by
      omega
    rw [hcast, vecGet_natCast, List.getD_append_right _ _ _ _ (by simp)]
    simp

theorem getD_mod_mem (vm : List Int) (r : Nat) (h : vm.isEmpty = false) :
    vm.getD (r % vm.length) 0 ∈ vm := by
  have hpos : 0 < vm.length := by
    cases vm with
    | nil => simp at h
    | cons a l => simp
  rw [List.getD_eq_getElem _ _ (Nat.mod_lt _ hpos)]
  exact List.getElem_mem _

theorem shuffleLoop_gridSize (n : Nat) (rnd : Nat → Nat) (p : SlidingPuzzle) :
    (shuffleLoop n rnd p).gridSize = p.gridSize := by
  induction n generalizing rnd p with
  | zero => rfl
  | succ n ih =>
    simp only [shuffleLoop]
    split
    · exact ih _ _
    · rw [ih]; rfl

theorem shuffleLoop_counters (n : Nat) (rnd : Nat → Nat) (p : SlidingPuzzle) :
    (shuffleLoop n rnd p).moveCount = p.moveCount
      ∧ (shuffleLoop n rnd p).gameWon = p.gameWon
      ∧ (shuffleLoop n rnd p).gameStarted = p.gameStarted
      ∧ (shuffleLoop n rnd p).startTime = p.startTime := by
  induction n generalizing rnd p with
  | zero => exact ⟨rfl, rfl, rfl, rfl⟩
  | succ n ih =>
    simp only [shuffleLoop]
    split
    · exact ih _ _
    · exact ih _ _

theorem shuffleLoop_invariant (n : Nat) (rnd : Nat → Nat) (p : SlidingPuzzle)
    (hg : 1 ≤ p.gridSize) (h : GridInvariant p) : GridInvariant (shuffleLoop n rnd p) := by
  induction n generalizing rnd p with
  | zero => exact h
  | succ n ih =>
    simp only [shuffleLoop]
    split
    · exact ih _ _ hg h
    · next hne =>
      have hmem := getD_mod_mem p.validMoves (rnd 0) (by simpa using hne)
      obtain ⟨hc0, hc1, -⟩ := validMoves_spec p hg h.2.2.1 h.2.2.2.1 _ hmem
      exact ih _ _ hg (swapWithEmpty_invariant p h _ hc0 hc1)

theorem shuffle_invariant (p : SlidingPuzzle) (n : Int) (rnd : Nat → Nat)
    (hg : 1 ≤ p.gridSize) (h : GridInvariant p) : GridInvariant (p.shuffle n rnd) :=
  shuffleLoop_invariant n.toNat rnd p hg h

theorem moveTile_invariant (p : SlidingPuzzle) (s : Int) (now : Nat) (h : GridInvariant p) :
    GridInvariant (p.moveTile s now).2 := by
  cases hcan : p.canMove s with
  | false => rw [(moveTile_of_not_canMove p s now hcan).2]; exact h
  | true =>
    obtain ⟨-, ht, he, -, hgs⟩ := moveTile_of_canMove p s now hcan
    obtain ⟨⟨hs0, hs1⟩, -, -⟩ := (canMove_eq_true_iff p s).1 hcan
    rw [h.1] at hs1
    have := swapWithEmpty_invariant p h s hs0 hs1
    unfold GridInvariant at this ⊢
    rw [ht, he, hgs]
    exact this

theorem moveTile_gridSize (p : SlidingPuzzle) (s : Int) (now : Nat) :
    (p.moveTile s now).2.gridSize = p.gridSize := by
  cases hcan : p.canMove s with
  | false => rw [(moveTile_of_not_canMove p s now hcan).2]
  | true => exact (moveTile_of_canMove p s now hcan).2.2.2.2

theorem Reachable.gridSize_eq {size : Int} {p : SlidingPuzzle} (h : Reachable size p) :
    p.gridSize = size := by
  induction h with
  | construct => rfl
  | reset _ ih => exact ih
  | shuffle n rnd _ ih => exact (shuffleLoop_gridSize _ _ _).trans ih
  | moveTile s now _ ih => exact (moveTile_gridSize _ _ _).trans ih

theorem Reachable.invariant {size : Int} {p : SlidingPuzzle} (hsize : 1 ≤ size)
    (h : Reachable size p) : GridInvariant p := by
  induction h with
  | construct => exact reset_invariant _ hsize
  | reset hr _ => exact reset_invariant _ (by rw [hr.gridSize_eq]; exact hsize)
  | shuffle n rnd hr ih => exact shuffle_invariant _ n rnd (by rw [hr.gridSize_eq]; exact hsize) ih
  | moveTile s now _ ih => exact moveTile_invariant _ s now ih

/-- C5: in every state reachable from the constructor (grid size `>= 1`) by
any sequence of `reset()`, `shuffle(n)` and `moveTile(slot)`, `tiles` has
`gridSize * gridSize` entries and is a permutation of
`0 .. gridSize * gridSize - 1` (exactly one zero, every other value of the
range exactly once, no value outside the range), and `emptyPos` is in range
with `tiles[emptyPos] = 0`. -/
theorem C5_grid_invariant (size : Int) (hsize : 1 ≤ size) (p : SlidingPuzzle)
    (h : Reachable size p) :
    GridInvariant p
      ∧ p.gridSize = size
      ∧ p.tiles.count 0 = 1
      ∧ (∀ v : Int, 1 ≤ v → v < p.gridSize * p.gridSize → p.tiles.count v = 1)
      ∧ (∀ v : Int, v < 0 ∨ p.gridSize * p.gridSize ≤ v → p.tiles.count v = 0) := by
  have hinv := h.invariant hsize
  have hg : 1 ≤ p.gridSize := by rw [h.gridSize_eq]; exact hsize
  have hN : 1 ≤ p.gridSize * p.gridSize := by nlinarith
  refine ⟨hinv, h.gridSize_eq, ?_, ?_, ?_⟩
  · rw [hinv.count, if_pos ⟨le_refl _, by omega⟩]
  · intro v h1 h2
    rw [hinv.count, if_pos ⟨by omega, h2⟩]
  · intro v hv
    rw [hinv.count, if_neg (by omega)]

/-- Witness of C5: the 3 x 3 puzzle after `shuffle(1)` with random outcome 0. -/
theorem C5_grid_invariant_witness :
    1 ≤ (3 : Int) ∧ Reachable 3 ((construct 3).shuffle 1 (fun _ => 0))
      ∧ (GridInvariant ((construct 3).shuffle 1 (fun _ => 0))
        ∧ ((construct 3).shuffle 1 (fun _ => 0)).gridSize = 3
        ∧ ((construct 3).shuffle 1 (fun _ => 0)).tiles.count 0 = 1
        ∧ (∀ v : Int, 1 ≤ v →
            v < ((construct 3).shuffle 1 (fun _ => 0)).gridSize
                  * ((construct 3).shuffle 1 (fun _ => 0)).gridSize →
            ((construct 3).shuffle 1 (fun _ => 0)).tiles.count v = 1)
        ∧ (∀ v : Int,
            v < 0 ∨ ((construct 3).shuffle 1 (fun _ => 0)).gridSize
                  * ((construct 3).shuffle 1 (fun _ => 0)).gridSize ≤ v →
            ((construct 3).shuffle 1 (fun _ => 0)).tiles.count v = 0)) :=
  ⟨by decide, Reachable.shuffle 1 _ Reachable.construct,
    C5_grid_invariant 3 (by decide) _ (Reachable.shuffle 1 _ Reachable.construct)⟩

/-! ## The win flag -/

theorem checkWinCondition_iff (p : SlidingPuzzle)
    (hlen : (p.tiles.length : Int) = p.gridSize * p.gridSize) (hpos : 1 ≤ p.tiles.length) :
    p.checkWinCondition = true ↔ SolvedArrangement p := by
  simp only [checkWinCondition, SolvedArrangement, Bool.and_eq_true, List.all_eq_true,
    List.mem_range, beq_iff_eq]
  have hlast : p.gridSize * p.gridSize - 1 = ((p.tiles.length - 1 : Nat) : Int) := by omega
  constructor
  · rintro ⟨h1, h2⟩
    refine ⟨fun i hi0 hi1 => ?_, by rw [hlast]; exact h2⟩
    lift i to ℕ using hi0
    exact h1 i (by omega)
  · rintro ⟨h1, h2⟩
    refine ⟨fun i hi => h1 i (by omega) (by omega), by rw [← hlast]; exact h2⟩

theorem GridInvariant.length_pos {p : SlidingPuzzle} (h : GridInvariant p) :
    1 ≤ p.tiles.length := by
  obtain ⟨hlen, _, he0, he1, _⟩ := h
  omega

theorem latch_gameWon (q : SlidingPuzzle) :
    (if q.checkWinCondition = true then { q with gameWon := true } else q).gameWon
        = (q.gameWon || q.checkWinCondition)
      ∧ (if q.checkWinCondition = true then { q with gameWon := true } else q).checkWinCondition
        = q.checkWinCondition := by
  cases h : q.checkWinCondition with
  | false => simp [h]
  | true =>
    simp only [if_true, Bool.or_true, true_and]
    exact h

theorem moveTile_gameWon (p : SlidingPuzzle) (s : Int) (now : Nat) (h : p.canMove s = true) :
    (p.moveTile s now).2.gameWon = (p.gameWon || (p.moveTile s now).2.checkWinCondition) := by
  unfold moveTile
  simp only [h, not_true_eq_false, if_false]
  rw [(latch_gameWon _).2, (latch_gameWon _).1]
  cases hs : p.gameStarted <;> rfl

theorem ReachableSince.reachable {size : Int} {p : SlidingPuzzle} {w : Prop}
    (h : ReachableSince size p w) : Reachable size p := by
  induction h with
  | construct => exact Reachable.construct
  | reset _ ih => exact Reachable.reset ih
  | shuffle n rnd _ ih => exact Reachable.shuffle n rnd ih
  | moveTile s now _ ih => exact Reachable.moveTile s now ih

theorem solved_reset (p : SlidingPuzzle) (hg : 1 ≤ p.gridSize) :
    p.reset.checkWinCondition = true ∧ SolvedArrangement p.reset := by
  have hinv := reset_invariant p hg
  have hiff := checkWinCondition_iff p.reset hinv.1 hinv.length_pos
  suffices h : SolvedArrangement p.reset from ⟨hiff.2 h, h⟩
  obtain ⟨ht, hlen, -⟩ := reset_state p hg
  have hN : 1 ≤ p.gridSize * p.gridSize := by nlinarith
  have hgs : p.reset.gridSize = p.gridSize := rfl
  refine ⟨fun i hi0 hi1 => ?_, ?_⟩
  · rw [hgs] at hi1
    lift i to ℕ using hi0
    rw [vecGet_natCast, ht, List.getD_append _ _ _ _ (by simp; omega),
      List.getD_eq_getElem _ _ (by simp; omega)]
    simp
    omega
  · have h := hinv.2.2.2.2
    exact h

theorem isWon_iff_history {size : Int} {p : SlidingPuzzle} {w : Prop} (hsize : 1 ≤ size)
    (h : ReachableSince size p w) : p.isWon = true ↔ w := by
  induction h with
  | construct => simp [isWon, construct, reset]
  | reset _ _ => simp [isWon, reset]
  | shuffle n rnd _ _ => simp [isWon, shuffle]
  | @moveTile p w s now hr ih =>
    cases hcan : p.canMove s with
    | false =>
      obtain ⟨h1, h2⟩ := moveTile_of_not_canMove p s now hcan
      rw [h1, h2, ih]
      simp
    | true =>
      have hinv : GridInvariant (p.moveTile s now).2 :=
        (Reachable.moveTile s now hr.reachable).invariant hsize
      have hiff := checkWinCondition_iff _ hinv.1 hinv.length_pos
      have h1 := (moveTile_of_canMove p s now hcan).1
      have hw := moveTile_gameWon p s now hcan
      unfold isWon at ih ⊢
      rw [hw, Bool.or_eq_true, ih, hiff, h1]
      simp

/-- C6 as stated fails: right after construction the 3 x 3 puzzle is
reachable and its tiles are in the solved arrangement, yet `isWon()` is
false. -/
theorem C6_isWon_iff_solved_counterexample :
    Reachable 3 (construct 3)
      ∧ ¬ ((construct 3).isWon = true ↔ SolvedArrangement (construct 3)) := by
  refine ⟨Reachable.construct, fun h => ?_⟩
  have hs : SolvedArrangement (construct 3) :=
    (solved_reset ⟨[], 3, 0, 0, 0, false, false⟩ (by decide)).2
  exact absurd (h.2 hs) (by decide)

/-- C6, amended: in every state reachable by `reset`, `shuffle` and `moveTile`
(grid size `>= 1`), `isWon()` is true if and only if some successful
`moveTile` since the last `reset()` or `shuffle()` left the tiles in the
solved arrangement (`tiles[i] = i + 1` for `i` in `[0, N - 2]` and
`tiles[N - 1] = 0`); the private test `checkWinCondition()` is the one that
holds exactly when the tiles are in the solved arrangement. -/
theorem C6_isWon_history (size : Int) (hsize : 1 ≤ size) (p : SlidingPuzzle) (w : Prop)
    (h : ReachableSince size p w) :
    (p.isWon = true ↔ w) ∧ (p.checkWinCondition = true ↔ SolvedArrangement p) := by
  have hinv := h.reachable.invariant hsize
  exact ⟨isWon_iff_history hsize h, checkWinCondition_iff p hinv.1 hinv.length_pos⟩

/-- Witness of the amended C6: the 3 x 3 puzzle, slot 5 moved out and back. -/
theorem C6_isWon_history_witness :
    1 ≤ (3 : Int)
      ∧ ReachableSince 3 ((((construct 3).moveTile 5 7).2.moveTile 8 9).2)
          ((False ∨ (((construct 3).moveTile 5 7).1 = true
                ∧ SolvedArrangement ((construct 3).moveTile 5 7).2))
            ∨ ((((construct 3).moveTile 5 7).2.moveTile 8 9).1 = true
                ∧ SolvedArrangement (((construct 3).moveTile 5 7).2.moveTile 8 9).2))
      ∧ (((((construct 3).moveTile 5 7).2.moveTile 8 9).2.isWon = true ↔
            ((False ∨ (((construct 3).moveTile 5 7).1 = true
                  ∧ SolvedArrangement ((construct 3).moveTile 5 7).2))
              ∨ ((((construct 3).moveTile 5 7).2.moveTile 8 9).1 = true
                  ∧ SolvedArrangement (((construct 3).moveTile 5 7).2.moveTile 8 9).2)))
        ∧ ((((construct 3).moveTile 5 7).2.moveTile 8 9).2.checkWinCondition = true ↔
            SolvedArrangement (((construct 3).moveTile 5 7).2.moveTile 8 9).2)) :=
  ⟨by decide, ReachableSince.moveTile 8 9 (ReachableSince.moveTile 5 7 ReachableSince.construct),
    C6_isWon_history 3 (by decide) _ _
      (ReachableSince.moveTile 8 9 (ReachableSince.moveTile 5 7 ReachableSince.construct))⟩

/-- C7 as stated fails: for grid size 3, `isWon()` right after `reset()` is
false. -/
theorem C7_isWon_after_reset_counterexample :
    (construct 3).gridSize = 3 ∧ ¬ ((construct 3).reset.isWon = true) := by
  decide

/-- C7, amended: for every grid size `>= 1` (so for 3, 4 and 5), immediately
after `reset()` the tiles are in the solved arrangement and the private test
`checkWinCondition()` is true, but the query `isWon()` returns false, because
`reset()` clears the win flag. -/
theorem C7_after_reset (p : SlidingPuzzle) (hsize : 1 ≤ p.gridSize) :
    p.reset.isWon = false
      ∧ p.reset.checkWinCondition = true
      ∧ SolvedArrangement p.reset :=
  ⟨rfl, solved_reset p hsize⟩

/-- Witness of the amended C7 at grid size 4. -/
theorem C7_after_reset_witness :
    1 ≤ (construct 4).gridSize
      ∧ ((construct 4).reset.isWon = false
        ∧ (construct 4).reset.checkWinCondition = true
        ∧ SolvedArrangement (construct 4).reset) :=
  ⟨by decide, C7_after_reset (construct 4) (by decide)⟩

/-! ## Shuffle as a sequence of legal moves -/

theorem validMoves_eq (p : SlidingPuzzle) (hg : 1 ≤ p.gridSize) (he0 : 0 ≤ p.emptyPos) :
    p.validMoves =
      (if p.row p.emptyPos > 0 then [p.emptyPos - p.gridSize] else [])
        ++ (if p.row p.emptyPos < p.gridSize - 1 then [p.emptyPos + p.gridSize] else [])
        ++ (if p.col p.emptyPos > 0 then [p.emptyPos - 1] else [])
        ++ (if p.col p.emptyPos < p.gridSize - 1 then [p.emptyPos + 1] else []) := by
  obtain ⟨r, k, hek, -, -, -, hrow, hcol, -⟩ := slot_decomp p.gridSize p.emptyPos hg he0
  have h1 : (r - 1) * p.gridSize + k = p.emptyPos - p.gridSize := by rw [hek]; ring
  have h2 : (r + 1) * p.gridSize + k = p.emptyPos + p.gridSize := by rw [hek]; ring
  have h3 : r * p.gridSize + (k - 1) = p.emptyPos - 1 := by rw [hek]; ring
  have h4 : r * p.gridSize + (k + 1) = p.emptyPos + 1 := by rw [hek]; ring
  simp only [validMoves, row, col, pos, hrow, hcol, h1, h2, h3, h4]

theorem validMoves_ne_nil (p : SlidingPuzzle) (hg : 2 ≤ p.gridSize) : p.validMoves ≠ [] := by
  unfold validMoves
  by_cases h : p.row p.emptyPos > 0
  · simp [h]
  · have h2 : p.row p.emptyPos < p.gridSize - 1 := by omega
    simp [h2]

/-- Each candidate of `validMoves` under the grid invariant is a slot that
`canMove` accepts and is orthogonally adjacent to the empty slot. -/
theorem validMoves_canMove (p : SlidingPuzzle) (hg : 1 ≤ p.gridSize) (h : GridInvariant p)
    (c : Int) (hc : c ∈ p.validMoves) :
    p.canMove c = true ∧ OrthAdjacent p c p.emptyPos ∧ 0 ≤ c ∧ c < p.gridSize * p.gridSize := by
  obtain ⟨hc0, hc1, hadj⟩ := validMoves_spec p hg h.2.2.1 h.2.2.2.1 c hc
  have hne : c ≠ p.emptyPos := by
    rcases hadj with ⟨_, (⟨h1, _⟩ | ⟨h1, _⟩)⟩ | ⟨_, (⟨h1, _⟩ | ⟨h1, _⟩)⟩ <;> omega
  have hadj2 : OrthAdjacent p c p.emptyPos := by
    rcases hadj with ⟨hcol, (⟨_, h1⟩ | ⟨_, h1⟩)⟩ | ⟨hrow, (⟨_, h1⟩ | ⟨_, h1⟩)⟩
    · exact Or.inl ⟨hcol, Or.inr (by omega)⟩
    · exact Or.inl ⟨hcol, Or.inl h1⟩
    · exact Or.inr ⟨hrow, Or.inr (by omega)⟩
    · exact Or.inr ⟨hrow, Or.inl h1⟩
  refine ⟨(canMove_eq_true_iff p c).2 ⟨⟨hc0, by rw [h.1]; exact hc1⟩, ?_, hadj2⟩, hadj2, hc0, hc1⟩
  exact h.ne_zero c hc0 hc1 hne

theorem canMove_congr (p q : SlidingPuzzle) (s : Int) (ht : p.tiles = q.tiles)
    (he : p.emptyPos = q.emptyPos) (hg : p.gridSize = q.gridSize) :
    p.canMove s = q.canMove s := by
  unfold canMove row col
  rw [ht, he, hg]

theorem playMoves_congr (ms : List Int) (p p2 q : SlidingPuzzle) (ht : p.tiles = p2.tiles)
    (he : p.emptyPos = p2.emptyPos) (hg : p.gridSize = p2.gridSize)
    (h : playMoves ms p = some q) :
    ∃ q2, playMoves ms p2 = some q2 ∧ q.tiles = q2.tiles ∧ q.emptyPos = q2.emptyPos
      ∧ q.gridSize = q2.gridSize := by
  induction ms generalizing p p2 with
  | nil =>
    simp only [playMoves, Option.some.injEq] at h
    subst h
    exact ⟨p2, rfl, ht, he, hg⟩
  | cons s rest ih =>
    simp only [playMoves] at h ⊢
    by_cases hcan : p.canMove s = true
    · have hcan2 : p2.canMove s = true := by rw [← canMove_congr p p2 s ht he hg]; exact hcan
      rw [if_pos hcan] at h
      rw [if_pos hcan2]
      obtain ⟨-, t1, e1, -, g1⟩ := moveTile_of_canMove p s 0 hcan
      obtain ⟨-, t2, e2, -, g2⟩ := moveTile_of_canMove p2 s 0 hcan2
      exact ih _ _ (by rw [t1, t2, ht, he]) (by rw [e1, e2]) (by rw [g1, g2, hg]) h
    · rw [if_neg hcan] at h
      cases h

theorem shuffleLoop_playMoves (k : Nat) (rnd : Nat → Nat) (p : SlidingPuzzle)
    (hg : 1 ≤ p.gridSize) (h : GridInvariant p) :
    ∃ ms : List Int, ms.length ≤ k ∧ ∃ q, playMoves ms p = some q
      ∧ q.tiles = (shuffleLoop k rnd p).tiles
      ∧ q.emptyPos = (shuffleLoop k rnd p).emptyPos
      ∧ q.gridSize = (shuffleLoop k rnd p).gridSize := by
  induction k generalizing rnd p with
  | zero => exact ⟨[], le_refl _, p, rfl, rfl, rfl, rfl⟩
  | succ k ih =>
    simp only [shuffleLoop]
    split
    · obtain ⟨ms, hlen, q, hq⟩ := ih rnd p hg h
      exact ⟨ms, by omega, q, hq⟩
    · next hne =>
      have hmem := getD_mod_mem p.validMoves (rnd 0) (by simpa using hne)
      obtain ⟨hcan, -, hc0, hc1⟩ := validMoves_canMove p hg h _ hmem
      obtain ⟨ms, hlen, q, hq, ht, he, hgs⟩ :=
        ih (fun i => rnd (i + 1))
          (p.swapWithEmpty (p.validMoves.getD (rnd 0 % p.validMoves.length) 0)) hg
          (swapWithEmpty_invariant p h _ hc0 hc1)
      obtain ⟨-, t1, e1, -, g1⟩ := moveTile_of_canMove p _ 0 hcan
      obtain ⟨q2, hq2, ht2, he2, hg2⟩ :=
        playMoves_congr ms _ (p.moveTile (p.validMoves.getD (rnd 0 % p.validMoves.length) 0) 0).2
          q (by rw [t1]; rfl) (by rw [e1]; rfl) (by rw [g1]; rfl) hq
      refine ⟨p.validMoves.getD (rnd 0 % p.validMoves.length) 0 :: ms, by simp; omega, q2, ?_,
        by rw [← ht2, ht], by rw [← he2, he], by rw [← hg2, hgs]⟩
      simp only [playMoves]
      rw [if_pos hcan]
      exact hq2

theorem shuffleLoop_succ (p : SlidingPuzzle) (hne : p.validMoves ≠ []) (n : Nat)
    (rnd : Nat → Nat) :
    shuffleLoop (n + 1) rnd p
      = shuffleLoop n (fun k => rnd (k + 1))
          (p.swapWithEmpty (p.validMoves.getD (rnd 0 % p.validMoves.length) 0)) := by
  simp only [shuffleLoop]
  rw [if_neg (by simpa using hne)]

/-- C9: in a grid of side `size >= 1`, every iteration of `shuffle` builds its
candidate list in the order Up (`emptyPos - gridSize`), Down
(`emptyPos + gridSize`), Left (`emptyPos - 1`), Right (`emptyPos + 1`); for
`size >= 2` the list is not empty, and the iteration swaps the empty slot with
the candidate at the random index; every candidate is in range, orthogonally
adjacent to the empty slot and accepted by `canMove`, and the swap leaves the
tiles and `emptyPos` that `moveTile` on that slot leaves.  So for every `n`
and every random outcomes the grid after `reset()` and `shuffle(n)` is
reached from the solved grid by at most `n` legal moves.  Scenario: size 3,
solved `[1,2,3,4,5,6,7,8,0]`, candidates `[5, 7]`, `shuffle(1)` taking slot 5
gives `[1,2,3,4,5,0,7,8,6]` with `emptyPos = 5`. -/
theorem C9_shuffle_legal_moves (size : Int) (hsize : 1 ≤ size) :
    (∀ p : SlidingPuzzle, GridInvariant p → p.gridSize = size →
        p.validMoves =
            (if p.row p.emptyPos > 0 then [p.emptyPos - p.gridSize] else [])
              ++ (if p.row p.emptyPos < p.gridSize - 1 then [p.emptyPos + p.gridSize] else [])
              ++ (if p.col p.emptyPos > 0 then [p.emptyPos - 1] else [])
              ++ (if p.col p.emptyPos < p.gridSize - 1 then [p.emptyPos + 1] else [])
          ∧ (2 ≤ size → p.validMoves ≠ [])
          ∧ (p.validMoves ≠ [] → ∀ (n : Nat) (rnd : Nat → Nat),
              shuffleLoop (n + 1) rnd p
                = shuffleLoop n (fun k => rnd (k + 1))
                    (p.swapWithEmpty (p.validMoves.getD (rnd 0 % p.validMoves.length) 0)))
          ∧ (∀ c ∈ p.validMoves, ∀ now : Nat,
              0 ≤ c ∧ c < p.gridSize * p.gridSize ∧ OrthAdjacent p c p.emptyPos
                ∧ p.canMove c = true
                ∧ (p.moveTile c now).2.tiles = (p.swapWithEmpty c).tiles
                ∧ (p.moveTile c now).2.emptyPos = (p.swapWithEmpty c).emptyPos))
      ∧ (∀ p : SlidingPuzzle, p.gridSize = size → ∀ (n : Int) (rnd : Nat → Nat),
          ∃ ms : List Int, ms.length ≤ n.toNat ∧ ∃ q, playMoves ms p.reset = some q
            ∧ q.tiles = (p.reset.shuffle n rnd).tiles
            ∧ q.emptyPos = (p.reset.shuffle n rnd).emptyPos)
      ∧ ((construct 3).tiles = [1, 2, 3, 4, 5, 6, 7, 8, 0]
          ∧ (construct 3).validMoves = [5, 7]
          ∧ ((construct 3).shuffle 1 (fun _ => 0)).tiles = [1, 2, 3, 4, 5, 0, 7, 8, 6]
          ∧ ((construct 3).shuffle 1 (fun _ => 0)).emptyPos = 5
          ∧ ((construct 3).shuffle 1 (fun _ => 0)).moveCount = 0) := by
  refine ⟨fun p hinv hgs => ?_, fun p hgs n rnd => ?_, by decide, by decide, by decide,
    by decide, by decide⟩
  · have hg : 1 ≤ p.gridSize := by rw [hgs]; exact hsize
    refine ⟨validMoves_eq p hg hinv.2.2.1, fun h2 => validMoves_ne_nil p (by rw [hgs]; exact h2),
      fun hne n rnd => shuffleLoop_succ p hne n rnd, fun c hc now => ?_⟩
    obtain ⟨hcan, hadj, hc0, hc1⟩ := validMoves_canMove p hg hinv c hc
    obtain ⟨-, ht, he, -, -⟩ := moveTile_of_canMove p c now hcan
    exact ⟨hc0, hc1, hadj, hcan, ht, he⟩
  · have hg : 1 ≤ p.reset.gridSize := by
      show 1 ≤ p.gridSize
      rw [hgs]; exact hsize
    obtain ⟨ms, hlen, q, hq, ht, he, -⟩ :=
      shuffleLoop_playMoves n.toNat rnd p.reset hg (reset_invariant p (by rw [hgs]; exact hsize))
    exact ⟨ms, hlen, q, hq, ht, he⟩

/-- Witness of C9 at grid size 3. -/
theorem C9_shuffle_legal_moves_witness :
    1 ≤ (3 : Int) ∧
    ((∀ p : SlidingPuzzle, GridInvariant p → p.gridSize = (3 : Int) →
        p.validMoves =
            (if p.row p.emptyPos > 0 then [p.emptyPos - p.gridSize] else [])
              ++ (if p.row p.emptyPos < p.gridSize - 1 then [p.emptyPos + p.gridSize] else [])
              ++ (if p.col p.emptyPos > 0 then [p.emptyPos - 1] else [])
              ++ (if p.col p.emptyPos < p.gridSize - 1 then [p.emptyPos + 1] else [])
          ∧ (2 ≤ (3 : Int) → p.validMoves ≠ [])
          ∧ (p.validMoves ≠ [] → ∀ (n : Nat) (rnd : Nat → Nat),
              shuffleLoop (n + 1) rnd p
                = shuffleLoop n (fun k => rnd (k + 1))
                    (p.swapWithEmpty (p.validMoves.getD (rnd 0 % p.validMoves.length) 0)))
          ∧ (∀ c ∈ p.validMoves, ∀ now : Nat,
              0 ≤ c ∧ c < p.gridSize * p.gridSize ∧ OrthAdjacent p c p.emptyPos
                ∧ p.canMove c = true
                ∧ (p.moveTile c now).2.tiles = (p.swapWithEmpty c).tiles
                ∧ (p.moveTile c now).2.emptyPos = (p.swapWithEmpty c).emptyPos))
      ∧ (∀ p : SlidingPuzzle, p.gridSize = (3 : Int) → ∀ (n : Int) (rnd : Nat → Nat),
          ∃ ms : List Int, ms.length ≤ n.toNat ∧ ∃ q, playMoves ms p.reset = some q
            ∧ q.tiles = (p.reset.shuffle n rnd).tiles
            ∧ q.emptyPos = (p.reset.shuffle n rnd).emptyPos)
      ∧ ((construct 3).tiles = [1, 2, 3, 4, 5, 6, 7, 8, 0]
          ∧ (construct 3).validMoves = [5, 7]
          ∧ ((construct 3).shuffle 1 (fun _ => 0)).tiles = [1, 2, 3, 4, 5, 0, 7, 8, 6]
          ∧ ((construct 3).shuffle 1 (fun _ => 0)).emptyPos = 5
          ∧ ((construct 3).shuffle 1 (fun _ => 0)).moveCount = 0)) :=
  ⟨by decide, C9_shuffle_legal_moves 3 (by decide)⟩

/-! ## Shuffle: counters -/

/-- C10: for every starting state, every `n` and every random outcomes, after
`shuffle(n)` the move count is 0, the win flag is false and `gameStarted` is
false, whatever swaps were performed; the swaps of the loop themselves leave
`moveCount` untouched, so they are never counted as moves. -/
theorem C10_shuffle_clears_counters (p : SlidingPuzzle) (n : Int) (rnd : Nat → Nat) :
    (p.shuffle n rnd).getMoveCount = 0
      ∧ (p.shuffle n rnd).isWon = false
      ∧ (p.shuffle n rnd).hasStarted = false
      ∧ (shuffleLoop n.toNat rnd p).moveCount = p.moveCount
      ∧ (p.shuffle n rnd).tiles = (shuffleLoop n.toNat rnd p).tiles
      ∧ (p.shuffle n rnd).emptyPos = (shuffleLoop n.toNat rnd p).emptyPos :=
  ⟨rfl, rfl, rfl, (shuffleLoop_counters n.toNat rnd p).1, rfl, rfl⟩

/-! ## Inversions -/

theorem invCount_cons (a : Int) (l : List Int) :
    invCount (a :: l) = l.countP (fun b => decide (b < a)) + invCount l := rfl

theorem invCount_swap_adjacent (A B : List Int) (a b : Int) (hab : a ≠ b) :
    (invCount (A ++ a :: b :: B) + invCount (A ++ b :: a :: B)) % 2 = 1 := by
  induction A with
  | nil =>
    simp only [List.nil_append, invCount_cons, List.countP_cons]
    rcases lt_trichotomy a b with h | h | h
    · have h2 : ¬ b < a := by omega
      simp only [h, h2, decide_True, decide_False, if_true, Bool.false_eq_true, if_false]
      omega
    · exact absurd h hab
    · have h2 : ¬ a < b := by omega
      simp only [h, h2, decide_True, decide_False, if_true, Bool.false_eq_true, if_false]
      omega
  | cons c A ih =>
    simp only [List.cons_append, invCount_cons, List.countP_append, List.countP_cons]
    omega

theorem invCount_move_across (M : List Int) (A B : List Int) (x : Int) (hx : x ∉ M) :
    (invCount (A ++ (M ++ x :: B)) + invCount (A ++ x :: (M ++ B)) + M.length) % 2 = 0 := by
  induction M generalizing A with
  | nil =>
    simp only [List.nil_append, List.length_nil]
    omega
  | cons m M ih =>
    have hxm : m ≠ x := by
      intro h; apply hx; rw [h]; exact List.mem_cons_self _ _
    have hxM : x ∉ M := fun h => hx (List.mem_cons_of_mem _ h)
    have h1 := ih (A ++ [m]) hxM
    have h2 := invCount_swap_adjacent A (M ++ B) m x hxm
    simp only [List.append_assoc, List.cons_append, List.nil_append, List.singleton_append,
      List.length_cons] at h1 h2 ⊢
    omega

theorem inversions_append_cons (A R : List Int) (a : Int) :
    inversions (A ++ a :: R)
      = invCount (A.filter (fun x => decide (x ≠ 0))
          ++ ((if a = 0 then [] else [a]) ++ R.filter (fun x => decide (x ≠ 0)))) := by
  unfold inversions
  rw [List.filter_append, List.filter_cons]
  by_cases h : a = 0 <;> simp [h]

/-- Exchanging the zero with another entry of a duplicate-free list changes
the parity of the inversion count by the number of entries in between. -/
theorem inversions_swap_parity (A M B : List Int) (a b : Int)
    (hnd : (A ++ a :: (M ++ b :: B)).Nodup) (hz : a = 0 ∨ b = 0) :
    (inversions (A ++ a :: (M ++ b :: B)) + inversions (A ++ b :: (M ++ a :: B)) + M.length) % 2
      = 0 := by
  have hnd2 : (a :: (M ++ b :: B)).Nodup := (List.nodup_append.1 hnd).2.1
  have haM : a ∉ M := fun h => (List.nodup_cons.1 hnd2).1 (List.mem_append_left _ h)
  have hab : a ≠ b := by
    intro h
    apply (List.nodup_cons.1 hnd2).1
    rw [h]
    exact List.mem_append_right _ (List.mem_cons_self _ _)
  have hnd3 : (M ++ b :: B).Nodup := (List.nodup_cons.1 hnd2).2
  have hbM : b ∉ M := by
    intro h
    have := (List.nodup_append.1 hnd3).2.2
    exact this h (List.mem_cons_self _ _)
  have hfilt : ∀ z, z = 0 → z ∉ M → M.filter (fun x => decide (x ≠ 0)) = M := by
    intro z hz0 hzM
    rw [List.filter_eq_self]
    intro y hy
    simp only [ne_eq, decide_not, Bool.not_eq_true', decide_eq_false_iff_not]
    intro hy0
    apply hzM
    rw [hz0, ← hy0]
    exact hy
  have e1 : ∀ u w : Int, inversions (A ++ u :: (M ++ w :: B))
      = invCount (A.filter (fun x => decide (x ≠ 0)) ++ ((if u = 0 then [] else [u])
          ++ (M.filter (fun x => decide (x ≠ 0))
            ++ ((if w = 0 then [] else [w]) ++ B.filter (fun x => decide (x ≠ 0)))))) := by
    intro u w
    rw [inversions_append_cons, List.filter_append, List.filter_cons]
    by_cases h : w = 0 <;> simp [h]
  rw [e1 a b, e1 b a]
  rcases hz with h0 | h0
  · have hb0 : b ≠ 0 := fun h => hab (h0.trans h.symm)
    rw [hfilt a h0 haM]
    simp only [h0, hb0, if_true, if_false, List.nil_append, List.singleton_append]
    exact invCount_move_across M _ _ b hbM
  · have ha0 : a ≠ 0 := fun h => hab (h.trans h0.symm)
    rw [hfilt b h0 hbM]
    simp only [h0, ha0, if_true, if_false, List.nil_append, List.singleton_append]
    have := invCount_move_across M (A.filter (fun x => decide (x ≠ 0)))
      (B.filter (fun x => decide (x ≠ 0))) a haM
    omega

theorem inversions_vecSwap_parity (v : List Int) (i j : Nat) (hi : i < v.length)
    (hj : j < v.length) (hij : i ≠ j) (hnd : v.Nodup) (hz : v.getD i 0 = 0) :
    (inversions v + inversions ((v.set i (v.getD j 0)).set j (v.getD i 0))
      + ((i : Int) - j).natAbs + 1) % 2 = 0 := by
  rcases Nat.lt_or_gt_of_ne hij with h | h
  · obtain ⟨A, M, B, a, b, hv, hA, hM, ha, hb, hs⟩ := swap_decomp v i j h hj
    rw [hs]
    conv_lhs => rw [hv]
    rw [hv] at hnd
    have := inversions_swap_parity A M B a b hnd (Or.inl (ha.symm.trans hz))
    omega
  · obtain ⟨A, M, B, a, b, hv, hA, hM, ha, hb, hs⟩ := swap_decomp v j i h hi
    rw [List.set_comm _ _ _ hij, hs]
    conv_lhs => rw [hv]
    rw [hv] at hnd
    have := inversions_swap_parity A M B a b hnd (Or.inr (hb.symm.trans hz))
    omega

/-! ## `countInversions` counts the inversions among the non-zero tiles -/

theorem map_getD_range' (l : List Int) (k s : Nat) (h : s + k = l.length) :
    (List.range' s k).map (fun j => l.getD j 0) = l.drop s := by
  induction k generalizing s with
  | zero =>
    rw [List.drop_of_length_le (by omega)]
    rfl
  | succ k ih =>
    have hs : s < l.length := by omega
    rw [List.range'_succ, List.map_cons, ih (s + 1) (by omega), List.drop_eq_getElem_cons hs,
      List.getD_eq_getElem _ _ hs]

theorem foldl_count_smaller (a : Int) (xs : List Int) (acc : Int) :
    xs.foldl (fun (acc : Int) (b : Int) =>
        if b = 0 then acc else if a > b then acc + 1 else acc) acc
      = acc + (xs.countP (fun b => decide (b ≠ 0) && decide (b < a)) : Nat) := by
  induction xs generalizing acc with
  | nil => simp
  | cons x xs ih =>
    rw [List.foldl_cons, ih, List.countP_cons]
    by_cases hx : x = 0
    · simp [hx]
    · by_cases hlt : x < a
      · simp [hx, hlt]
        ring
      · simp [hx, hlt]

theorem countInversionsInner_eq (p : SlidingPuzzle) (i : Nat) (inv : Int)
    (hi : i < p.tiles.length) :
    p.countInversionsInner i inv
      = inv + ((p.tiles.drop (i + 1)).countP
          (fun b => decide (b ≠ 0) && decide (b < p.tiles.getD i 0)) : Nat) := by
  unfold countInversionsInner
  simp only [vecGet_natCast]
  rw [← foldl_count_smaller, ← map_getD_range' p.tiles (p.tiles.length - (i + 1)) (i + 1)
    (by omega), List.foldl_map]

theorem inversions_cons (a : Int) (l : List Int) :
    inversions (a :: l)
      = (if a = 0 then 0 else l.countP (fun b => decide (b ≠ 0) && decide (b < a)))
        + inversions l := by
  unfold inversions
  rw [List.filter_cons]
  by_cases h : a = 0
  · simp [h]
  · simp only [ne_eq, h, not_false_eq_true, decide_True, if_true, if_false, invCount_cons,
      List.countP_filter]
    congr 2
    funext b
    simp [Bool.and_comm]

theorem inversions_singleton (a : Int) : inversions [a] = 0 := by
  rw [inversions_cons]
  by_cases h : a = 0 <;> simp [h, inversions, invCount]

theorem countInversions_loop (p : SlidingPuzzle) (k s : Nat) (acc : Int)
    (h : s + k + 1 = p.tiles.length) :
    (List.range' s k).foldl
        (fun (inv : Int) (i : Nat) =>
          if vecGet p.tiles (i : Int) = 0 then inv else countInversionsInner p i inv) acc
      = acc + (inversions (p.tiles.drop s) : Nat) := by
  induction k generalizing s acc with
  | zero =>
    have hs : s < p.tiles.length := by omega
    rw [List.drop_eq_getElem_cons hs, List.drop_of_length_le (by omega), inversions_singleton]
    simp
  | succ k ih =>
    have hs : s < p.tiles.length := by omega
    rw [List.range'_succ, List.foldl_cons, ih (s + 1) _ (by omega),
      List.drop_eq_getElem_cons hs, inversions_cons, vecGet_natCast,
      List.getD_eq_getElem _ _ hs]
    by_cases hz : p.tiles[s] = 0
    · simp [hz]
    · rw [if_neg hz, if_neg hz, countInversionsInner_eq p s acc hs, List.getD_eq_getElem _ _ hs]
      push_cast
      ring

theorem countInversions_eq (p : SlidingPuzzle) :
    p.countInversions = (inversions p.tiles : Nat) := by
  unfold countInversions
  by_cases h : p.tiles.length = 0
  · have : p.tiles = [] := List.length_eq_zero.1 h
    simp [this, inversions, invCount]
  · rw [List.range_eq_range', countInversions_loop p (p.tiles.length - 1) 0 0 (by omega)]
    simp

/-! ## Solvability is preserved by the shuffle -/

theorem row_bounds (p : SlidingPuzzle) (hg : 1 ≤ p.gridSize) (q : Int) (hq0 : 0 ≤ q)
    (hq1 : q < p.gridSize * p.gridSize) : 0 ≤ p.row q ∧ p.row q < p.gridSize := by
  obtain ⟨r, k, -, hr0, -, -, hrow, -, hrg⟩ := slot_decomp p.gridSize q hg hq0
  unfold row
  rw [hrow]
  exact ⟨hr0, hrg hq1⟩

theorem isSolvable_iff (p : SlidingPuzzle) (hg : 1 ≤ p.gridSize)
    (hr : p.row p.emptyPos < p.gridSize) :
    p.isSolvable = true ↔
      (if p.gridSize % 2 = 1 then ((inversions p.tiles : Nat) : Int) % 2 = 0
        else (((inversions p.tiles : Nat) : Int) + (p.gridSize - p.row p.emptyPos)) % 2 = 1) := by
  unfold isSolvable
  simp only [countInversions_eq]
  rw [Int.tmod_eq_emod (by omega) (by norm_num), Int.tmod_eq_emod (by omega) (by norm_num),
    Int.tmod_eq_emod (by omega) (by norm_num)]
  by_cases h : p.gridSize % 2 = 1
  · simp [h]
  · simp [h]

theorem swapWithEmpty_solvable (p : SlidingPuzzle) (hg : 1 ≤ p.gridSize) (h : GridInvariant p)
    (c : Int) (hc : c ∈ p.validMoves) (hs : p.isSolvable = true) :
    (p.swapWithEmpty c).isSolvable = true := by
  obtain ⟨hc0, hc1, hadj⟩ := validMoves_spec p hg h.2.2.1 h.2.2.2.1 c hc
  obtain ⟨hlen, -, he0, he1, hz⟩ := id h
  have hre := row_bounds p hg p.emptyPos he0 he1
  have hrc := row_bounds p hg c hc0 hc1
  have hgs : (p.swapWithEmpty c).gridSize = p.gridSize := rfl
  have hrow2 : (p.swapWithEmpty c).row (p.swapWithEmpty c).emptyPos = p.row c := rfl
  rw [isSolvable_iff p hg hre.2] at hs
  rw [isSolvable_iff _ (by rw [hgs]; exact hg) (by rw [hrow2, hgs]; exact hrc.2), hrow2, hgs]
  have hpar : (inversions p.tiles + inversions (p.swapWithEmpty c).tiles
      + (p.emptyPos - c).natAbs + 1) % 2 = 0 := by
    show (inversions p.tiles + inversions (vecSwap p.tiles p.emptyPos c)
      + (p.emptyPos - c).natAbs + 1) % 2 = 0
    have hne : p.emptyPos ≠ c := by
      rcases hadj with ⟨_, (⟨h1, _⟩ | ⟨h1, _⟩)⟩ | ⟨_, (⟨h1, _⟩ | ⟨h1, _⟩)⟩ <;> omega
    lift c to ℕ using hc0
    lift p.emptyPos to ℕ using he0 with e
    rw [vecSwap_natCast]
    rw [vecGet_natCast] at hz
    exact inversions_vecSwap_parity p.tiles e c (by omega) (by omega)
      (fun hh => hne (by rw [hh])) h.nodup hz
  generalize inversions p.tiles = i1 at hs hpar
  generalize inversions (p.swapWithEmpty c).tiles = i2 at hpar ⊢
  generalize p.row c = rc at hadj hrc ⊢
  generalize p.row p.emptyPos = re at hadj hre hs
  generalize p.col c = cc at hadj
  generalize p.col p.emptyPos = ce at hadj
  by_cases hodd : p.gridSize % 2 = 1
  · rw [if_pos hodd] at hs ⊢
    rcases hadj with ⟨_, (⟨h1, _⟩ | ⟨h1, _⟩)⟩ | ⟨_, (⟨h1, _⟩ | ⟨h1, _⟩)⟩ <;> omega
  · rw [if_neg hodd] at hs ⊢
    rcases hadj with ⟨_, (⟨h1, h2⟩ | ⟨h1, h2⟩)⟩ | ⟨h2, (⟨h1, _⟩ | ⟨h1, _⟩)⟩ <;> omega

theorem invCount_of_pairwise (l : List Int) (h : l.Pairwise (fun a b => a < b)) :
    invCount l = 0 := by
  induction l with
  | nil => rfl
  | cons a l ih =>
    rw [List.pairwise_cons] at h
    rw [invCount_cons, ih h.2, List.countP_eq_zero.2]
    intro b hb
    have := h.1 b hb
    simp only [decide_eq_true_eq]
    omega

theorem reset_solvable (p : SlidingPuzzle) (hg : 1 ≤ p.gridSize) :
    p.reset.isSolvable = true := by
  have hinv := reset_invariant p hg
  have hgs : p.reset.gridSize = p.gridSize := rfl
  have hep : p.reset.emptyPos = (p.gridSize - 1) * p.gridSize + (p.gridSize - 1) := by
    show p.gridSize * p.gridSize - 1 = _
    ring
  have hrow : p.reset.row p.reset.emptyPos = p.gridSize - 1 := by
    unfold row
    rw [hep, hgs]
    exact (tdiv_tmod_of_decomp p.gridSize (p.gridSize - 1) (p.gridSize - 1) hg (by omega)
      (by omega) (by omega)).1
  have hinv0 : inversions p.reset.tiles = 0 := by
    rw [reset_tiles]
    unfold inversions
    have hlast : ([0] : List Int).filter (fun x => decide (x ≠ 0)) = [] := by decide
    rw [List.filter_append, hlast, List.append_nil]
    apply invCount_of_pairwise
    apply List.Pairwise.filter
    rw [List.pairwise_map]
    exact List.Pairwise.imp (fun {a b} (hab : a < b) => by
      show Int.ofNat a < Int.ofNat b
      exact Int.ofNat_lt.2 hab) (List.pairwise_lt_range' 1 _)
  rw [isSolvable_iff _ (by rw [hgs]; exact hg) (by rw [hrow, hgs]; omega), hinv0, hrow, hgs]
  by_cases hodd : p.gridSize % 2 = 1
  · simp [hodd]
  · simp [hodd]

theorem shuffleLoop_solvable (n : Nat) (rnd : Nat → Nat) (p : SlidingPuzzle)
    (hg : 1 ≤ p.gridSize) (h : GridInvariant p) (hs : p.isSolvable = true) :
    (shuffleLoop n rnd p).isSolvable = true := by
  induction n generalizing rnd p with
  | zero => exact hs
  | succ n ih =>
    simp only [shuffleLoop]
    split
    · exact ih _ _ hg h hs
    · next hne =>
      have hmem := getD_mod_mem p.validMoves (rnd 0) (by simpa using hne)
      obtain ⟨hc0, hc1, -⟩ := validMoves_spec p hg h.2.2.1 h.2.2.2.1 _ hmem
      exact ih _ (p.swapWithEmpty (p.validMoves.getD (rnd 0 % p.validMoves.length) 0)) hg
        (swapWithEmpty_invariant p h _ hc0 hc1) (swapWithEmpty_solvable p hg h _ hmem hs)

theorem shuffle_reset_solvable (p : SlidingPuzzle) (hg : 1 ≤ p.gridSize) (n : Int)
    (rnd : Nat → Nat) : (p.reset.shuffle n rnd).isSolvable = true :=
  shuffleLoop_solvable n.toNat rnd p.reset hg (reset_invariant p hg) (reset_solvable p hg)

/-- C8: for every grid size `>= 1` (so for 3, 4 and 5), every `n` and every
random outcomes, the grid produced by `reset()` followed by `shuffle(n)`
passes `isSolvable()`: for odd sizes the inversion count computed by
`countInversions()` (the pairs of non-zero tiles in wrong order) is even, and
for even sizes inversions + (gridSize - row(emptyPos)) is odd. -/
theorem C8_shuffle_solvable (p : SlidingPuzzle) (hsize : 1 ≤ p.gridSize) (n : Int)
    (rnd : Nat → Nat) :
    (p.reset.shuffle n rnd).isSolvable = true
      ∧ (p.gridSize % 2 = 1 → (p.reset.shuffle n rnd).countInversions % 2 = 0)
      ∧ (p.gridSize % 2 = 0 →
          ((p.reset.shuffle n rnd).countInversions
            + (p.gridSize - (p.reset.shuffle n rnd).row (p.reset.shuffle n rnd).emptyPos)) % 2 = 1)
      ∧ (p.reset.shuffle n rnd).countInversions
          = ((inversions (p.reset.shuffle n rnd).tiles : Nat) : Int) := by
  have hs := shuffle_reset_solvable p hsize n rnd
  have hinv : GridInvariant (p.reset.shuffle n rnd) :=
    shuffle_invariant p.reset n rnd hsize (reset_invariant p hsize)
  have hgs : (p.reset.shuffle n rnd).gridSize = p.gridSize := shuffleLoop_gridSize _ _ _
  have hr := row_bounds (p.reset.shuffle n rnd) (by rw [hgs]; exact hsize) _ hinv.2.2.1
    hinv.2.2.2.1
  have hiff := (isSolvable_iff (p.reset.shuffle n rnd) (by rw [hgs]; exact hsize) hr.2).1 hs
  rw [hgs] at hiff
  refine ⟨hs, fun hodd => ?_, fun heven => ?_, countInversions_eq _⟩
  · rw [if_pos hodd] at hiff
    rw [countInversions_eq]
    exact hiff
  · rw [if_neg (by omega)] at hiff
    rw [countInversions_eq]
    exact hiff

/-- Witness of C8: the 4 x 4 puzzle, `shuffle(2)`, random outcomes all 0. -/
theorem C8_shuffle_solvable_witness :
    1 ≤ (construct 4).gridSize
      ∧ (((construct 4).reset.shuffle 2 (fun _ => 0)).isSolvable = true
        ∧ ((construct 4).gridSize % 2 = 1 →
            ((construct 4).reset.shuffle 2 (fun _ => 0)).countInversions % 2 = 0)
        ∧ ((construct 4).gridSize % 2 = 0 →
            (((construct 4).reset.shuffle 2 (fun _ => 0)).countInversions
              + ((construct 4).gridSize
                  - ((construct 4).reset.shuffle 2 (fun _ => 0)).row
                      ((construct 4).reset.shuffle 2 (fun _ => 0)).emptyPos)) % 2 = 1)
        ∧ ((construct 4).reset.shuffle 2 (fun _ => 0)).countInversions
            = ((inversions ((construct 4).reset.shuffle 2 (fun _ => 0)).tiles : Nat) : Int)) :=
  ⟨by decide, C8_shuffle_solvable (construct 4) (by decide) 2 (fun _ => 0)⟩

/-! ## Moves: win flag, frame, inverse -/

theorem vecGet_of_neg (v : List Int) (k : Int) (hk : k < 0) : vecGet v k = 0 := by
  unfold vecGet
  rw [if_neg (by omega)]

theorem vecGet_vecSwap (v : List Int) (i j k : Int) (hi0 : 0 ≤ i) (hi1 : i < v.length)
    (hj0 : 0 ≤ j) (hj1 : j < v.length) :
    vecGet (vecSwap v i j) k
      = if k = j then vecGet v i else if k = i then vecGet v j else vecGet v k := by
  lift i to ℕ using hi0
  lift j to ℕ using hj0
  by_cases hk : 0 ≤ k
  · lift k to ℕ using hk
    rw [vecSwap_natCast, vecGet_natCast, getD_swap _ _ _ _ (by omega) (by omega)]
    simp only [vecGet_natCast, Nat.cast_inj]
  · have hk2 : k < 0 := by omega
    have h1 : k ≠ (j : Int) := by omega
    have h2 : k ≠ (i : Int) := by omega
    rw [if_neg h1, if_neg h2, vecGet_of_neg _ _ hk2, vecGet_of_neg _ _ hk2]

theorem vecSwap_of_eq (v : List Int) (i j : Int) (hi0 : 0 ≤ i) (hi1 : i < v.length)
    (hj0 : 0 ≤ j) (hj1 : j < v.length) (h : vecGet v i = vecGet v j) : vecSwap v i j = v := by
  lift i to ℕ using hi0
  lift j to ℕ using hj0
  have hi : i < v.length := by omega
  have hj : j < v.length := by omega
  rw [vecGet_natCast, vecGet_natCast] at h
  rw [vecSwap_natCast, ← h, List.getD_eq_getElem _ _ hi, set_getElem_same _ _ hi]
  rw [List.getD_eq_getElem _ _ hi, List.getD_eq_getElem _ _ hj] at h
  rw [h, set_getElem_same _ _ hj]

theorem vecSwap_perm (v : List Int) (i j : Int) (hi0 : 0 ≤ i) (hi1 : i < v.length)
    (hj0 : 0 ≤ j) (hj1 : j < v.length) : (vecSwap v i j).Perm v := by
  lift i to ℕ using hi0
  lift j to ℕ using hj0
  rw [vecSwap_natCast]
  exact swap_perm _ _ _ (by omega) (by omega)

theorem list_eq_of_vecGet (u v : List Int) (hlen : u.length = v.length)
    (h : ∀ k : Nat, k < v.length → vecGet u (k : Int) = vecGet v (k : Int)) : u = v := by
  apply List.ext_getElem hlen
  intro n h1 h2
  have := h n h2
  rwa [vecGet_natCast, vecGet_natCast, List.getD_eq_getElem _ _ h1,
    List.getD_eq_getElem _ _ h2] at this

theorem vecSwap_vecSwap (v : List Int) (i j : Int) (hi0 : 0 ≤ i) (hi1 : i < v.length)
    (hj0 : 0 ≤ j) (hj1 : j < v.length) : vecSwap (vecSwap v i j) j i = v := by
  have hl : (vecSwap v i j).length = v.length := length_vecSwap v i j
  apply list_eq_of_vecGet _ _ (by rw [length_vecSwap, hl])
  intro k hk
  rw [vecGet_vecSwap _ j i _ hj0 (by rw [hl]; exact hj1) hi0 (by rw [hl]; exact hi1),
    vecGet_vecSwap _ i j _ hi0 hi1 hj0 hj1, vecGet_vecSwap _ i j _ hi0 hi1 hj0 hj1,
    vecGet_vecSwap _ i j _ hi0 hi1 hj0 hj1]
  by_cases h1 : (k : Int) = i
  · by_cases h2 : (k : Int) = j
    · simp [h1, h2]
    · simp [h1]
  · by_cases h2 : (k : Int) = j
    · have h3 : ¬ j = i := fun h => h1 (h2.trans h)
      have h4 : ¬ i = j := fun h => h3 h.symm
      simp [h2, h3, h4]
    · simp [h1, h2]

theorem OrthAdjacent.ne {p : SlidingPuzzle} {a b : Int} (h : OrthAdjacent p a b) : a ≠ b := by
  intro hab
  subst hab
  rcases h with ⟨_, h | h⟩ | ⟨_, h | h⟩ <;> omega

theorem isWon_moveTile_of_isWon (p : SlidingPuzzle) (s : Int) (now : Nat)
    (h : p.isWon = true) : (p.moveTile s now).2.isWon = true := by
  cases hcan : p.canMove s with
  | false => rw [(moveTile_of_not_canMove p s now hcan).2]; exact h
  | true =>
    unfold isWon at h ⊢
    rw [moveTile_gameWon p s now hcan, h]
    rfl

theorem isWon_moveTile_iff (p : SlidingPuzzle) (s : Int) (now : Nat) (hinv : GridInvariant p)
    (hcan : p.canMove s = true) :
    (p.moveTile s now).2.isWon = true ↔
      (p.isWon = true ∨ SolvedArrangement (p.moveTile s now).2) := by
  have hinv2 := moveTile_invariant p s now hinv
  have hiff := checkWinCondition_iff _ hinv2.1 hinv2.length_pos
  unfold isWon
  rw [moveTile_gameWon p s now hcan, Bool.or_eq_true, hiff]

/-- C11: after a successful `moveTile(s)` on a state satisfying the grid
invariant, `isWon()` is true exactly when it was true before the call or the
resulting tiles are the solved arrangement; no call of `moveTile` clears the
flag.  Scenario: the size 3 grid `[1,2,3,4,5,6,7,0,8]` (reached from the
solved grid by `moveTile(7)`), `moveTile(8)` gives `[1,2,3,4,5,6,7,8,0]`
with `isWon()` true. -/
theorem C11_moveTile_win_flag (p : SlidingPuzzle) (s : Int) (now : Nat)
    (hinv : GridInvariant p) (hcan : p.canMove s = true) :
    ((p.moveTile s now).2.isWon = true ↔
        (p.isWon = true ∨ SolvedArrangement (p.moveTile s now).2))
      ∧ (∀ (s2 : Int) (now2 : Nat), p.isWon = true → (p.moveTile s2 now2).2.isWon = true)
      ∧ (((construct 3).moveTile 7 0).2.tiles = [1, 2, 3, 4, 5, 6, 7, 0, 8]
          ∧ ((construct 3).moveTile 7 0).2.isWon = false
          ∧ ((construct 3).moveTile 7 0).2.canMove 8 = true
          ∧ (((construct 3).moveTile 7 0).2.moveTile 8 0).2.tiles = [1, 2, 3, 4, 5, 6, 7, 8, 0]
          ∧ (((construct 3).moveTile 7 0).2.moveTile 8 0).2.isWon = true) :=
  ⟨isWon_moveTile_iff p s now hinv hcan, fun s2 now2 h => isWon_moveTile_of_isWon p s2 now2 h,
    by decide, by decide, by decide, by decide, by decide⟩

/-- Witness of C11: the size 3 grid `[1,2,3,4,5,6,7,0,8]` and slot 8. -/
theorem C11_moveTile_win_flag_witness :
    GridInvariant ((construct 3).moveTile 7 0).2
      ∧ ((construct 3).moveTile 7 0).2.canMove 8 = true
      ∧ (((((construct 3).moveTile 7 0).2.moveTile 8 5).2.isWon = true ↔
            (((construct 3).moveTile 7 0).2.isWon = true
              ∨ SolvedArrangement (((construct 3).moveTile 7 0).2.moveTile 8 5).2))
        ∧ (∀ (s2 : Int) (now2 : Nat), ((construct 3).moveTile 7 0).2.isWon = true →
            (((construct 3).moveTile 7 0).2.moveTile s2 now2).2.isWon = true)
        ∧ (((construct 3).moveTile 7 0).2.tiles = [1, 2, 3, 4, 5, 6, 7, 0, 8]
            ∧ ((construct 3).moveTile 7 0).2.isWon = false
            ∧ ((construct 3).moveTile 7 0).2.canMove 8 = true
            ∧ (((construct 3).moveTile 7 0).2.moveTile 8 0).2.tiles
                = [1, 2, 3, 4, 5, 6, 7, 8, 0]
            ∧ (((construct 3).moveTile 7 0).2.moveTile 8 0).2.isWon = true)) :=
  ⟨⟨by decide, by decide, by decide, by decide, by decide⟩, by decide,
    C11_moveTile_win_flag ((construct 3).moveTile 7 0).2 8 5
      ⟨by decide, by decide, by decide, by decide, by decide⟩ (by decide)⟩

theorem moveTile_frame (p : SlidingPuzzle) (s : Int) (now : Nat) (he0 : 0 ≤ p.emptyPos)
    (he1 : p.emptyPos < p.tiles.length) :
    (p.moveTile s now).2.tiles.Perm p.tiles
      ∧ ((p.moveTile s now).2.tiles = p.tiles
        ∨ (p.canMove s = true ∧ s ≠ p.emptyPos ∧ OrthAdjacent p s p.emptyPos
          ∧ (∀ k : Int, vecGet (p.moveTile s now).2.tiles k ≠ vecGet p.tiles k ↔
              (k = s ∨ k = p.emptyPos))
          ∧ vecGet (p.moveTile s now).2.tiles s = vecGet p.tiles p.emptyPos
          ∧ vecGet (p.moveTile s now).2.tiles p.emptyPos = vecGet p.tiles s)) := by
  cases hcan : p.canMove s with
  | false =>
    rw [(moveTile_of_not_canMove p s now hcan).2]
    exact ⟨List.Perm.refl _, Or.inl rfl⟩
  | true =>
    obtain ⟨-, ht, -, -, -⟩ := moveTile_of_canMove p s now hcan
    obtain ⟨⟨hs0, hs1⟩, -, hadj⟩ := (canMove_eq_true_iff p s).1 hcan
    rw [ht]
    refine ⟨vecSwap_perm _ _ _ he0 he1 hs0 hs1, ?_⟩
    by_cases heq : vecGet p.tiles p.emptyPos = vecGet p.tiles s
    · exact Or.inl (vecSwap_of_eq _ _ _ he0 he1 hs0 hs1 heq)
    · right
      have hne : s ≠ p.emptyPos := hadj.ne
      refine ⟨rfl, hne, hadj, fun k => ?_, ?_, ?_⟩
      · rw [vecGet_vecSwap _ _ _ _ he0 he1 hs0 hs1]
        by_cases h1 : k = s
        · subst h1
          simp only [if_true, true_or, iff_true]
          exact heq
        · by_cases h2 : k = p.emptyPos
          · rw [if_neg h1, if_pos h2, h2]
            simp only [or_true, iff_true]
            exact fun h => heq h.symm
          · rw [if_neg h1, if_neg h2]
            simp [h1, h2]
      · rw [vecGet_vecSwap _ _ _ _ he0 he1 hs0 hs1, if_pos rfl]
      · rw [vecGet_vecSwap _ _ _ _ he0 he1 hs0 hs1, if_neg (Ne.symm hne), if_pos rfl]

/-- C12: for every puzzle state whose `emptyPos` indexes `tiles` and every
slot, `moveTile` never changes the multiset of tile values: either the tiles
are unchanged, or exactly two positions change, the tapped slot and the old
empty slot, which are orthogonally adjacent; their values are exchanged and
every other position keeps its value. -/
theorem C12_moveTile_frame (p : SlidingPuzzle) (s : Int) (now : Nat) (he0 : 0 ≤ p.emptyPos)
    (he1 : p.emptyPos < p.tiles.length) :
    (p.moveTile s now).2.tiles.Perm p.tiles
      ∧ ((p.moveTile s now).2.tiles = p.tiles
        ∨ (p.canMove s = true ∧ s ≠ p.emptyPos ∧ OrthAdjacent p s p.emptyPos
          ∧ (∀ k : Int, vecGet (p.moveTile s now).2.tiles k ≠ vecGet p.tiles k ↔
              (k = s ∨ k = p.emptyPos))
          ∧ vecGet (p.moveTile s now).2.tiles s = vecGet p.tiles p.emptyPos
          ∧ vecGet (p.moveTile s now).2.tiles p.emptyPos = vecGet p.tiles s)) :=
  moveTile_frame p s now he0 he1

/-- Witness of C12 on the solved 3 x 3 grid and slot 7. -/
theorem C12_moveTile_frame_witness :
    0 ≤ (construct 3).emptyPos ∧ (construct 3).emptyPos < (construct 3).tiles.length
      ∧ (((construct 3).moveTile 7 4).2.tiles.Perm (construct 3).tiles
        ∧ (((construct 3).moveTile 7 4).2.tiles = (construct 3).tiles
          ∨ ((construct 3).canMove 7 = true ∧ (7 : Int) ≠ (construct 3).emptyPos
            ∧ OrthAdjacent (construct 3) 7 (construct 3).emptyPos
            ∧ (∀ k : Int,
                vecGet ((construct 3).moveTile 7 4).2.tiles k ≠ vecGet (construct 3).tiles k ↔
                  (k = 7 ∨ k = (construct 3).emptyPos))
            ∧ vecGet ((construct 3).moveTile 7 4).2.tiles 7
                = vecGet (construct 3).tiles (construct 3).emptyPos
            ∧ vecGet ((construct 3).moveTile 7 4).2.tiles (construct 3).emptyPos
                = vecGet (construct 3).tiles 7))) :=
  ⟨by decide, by decide, C12_moveTile_frame (construct 3) 7 4 (by decide) (by decide)⟩

theorem moveTile_twice (p : SlidingPuzzle) (s : Int) (now1 now2 : Nat)
    (hinv : GridInvariant p) (hcan : p.canMove s = true)
    (hlo : -2147483648 ≤ p.moveCount) (hhi : p.moveCount < 2147483646) :
    (p.moveTile s now1).1 = true
      ∧ (p.moveTile s now1).2.canMove p.emptyPos = true
      ∧ ((p.moveTile s now1).2.moveTile p.emptyPos now2).1 = true
      ∧ ((p.moveTile s now1).2.moveTile p.emptyPos now2).2.tiles = p.tiles
      ∧ ((p.moveTile s now1).2.moveTile p.emptyPos now2).2.emptyPos = p.emptyPos
      ∧ ((p.moveTile s now1).2.moveTile p.emptyPos now2).2.moveCount = p.moveCount + 2 := by
  obtain ⟨h1, ht, he, hm, hg⟩ := moveTile_of_canMove p s now1 hcan
  obtain ⟨hlen, -, he0, he1, hz⟩ := id hinv
  obtain ⟨⟨hs0, hs1⟩, hne0, hadj⟩ := (canMove_eq_true_iff p s).1 hcan
  have he1b : p.emptyPos < (p.tiles.length : Int) := by rw [hlen]; exact he1
  have hcan2 : (p.moveTile s now1).2.canMove p.emptyPos = true := by
    rw [canMove_eq_true_iff, ht, length_vecSwap, he]
    refine ⟨⟨he0, he1b⟩, ?_, ?_⟩
    · rw [vecGet_vecSwap _ _ _ _ he0 he1b hs0 hs1, if_neg (Ne.symm hadj.ne), if_pos rfl]
      exact hne0
    · unfold OrthAdjacent row col at hadj ⊢
      rw [hg]
      rcases hadj with ⟨hc, hr | hr⟩ | ⟨hr, hc | hc⟩
      · exact Or.inl ⟨hc.symm, Or.inr hr⟩
      · exact Or.inl ⟨hc.symm, Or.inl hr⟩
      · exact Or.inr ⟨hr.symm, Or.inr hc⟩
      · exact Or.inr ⟨hr.symm, Or.inl hc⟩
  obtain ⟨k1, kt, ke, km, -⟩ := moveTile_of_canMove _ p.emptyPos now2 hcan2
  refine ⟨h1, hcan2, k1, ?_, ke, ?_⟩
  · rw [kt, ht, he]
    exact vecSwap_vecSwap _ _ _ he0 he1b hs0 hs1
  · rw [km, hm, wrapInt_of_range (p.moveCount + 1) (by omega) (by omega),
      wrapInt_of_range (p.moveCount + 1 + 1) (by omega) (by omega)]
    ring

/-- C13: for every state satisfying the grid invariant whose move counter is
an `int` at most `INT_MAX - 2` (so that neither `moveCount++` overflows) and
every slot `s` with `canMove(s)`, `moveTile(s)` followed by `moveTile` on the
slot that was empty before the first call succeeds both times, returns `tiles`
and `emptyPos` to their values before the first move, and leaves `moveCount`
increased by exactly 2. -/
theorem C13_moveTile_self_inverse (p : SlidingPuzzle) (s : Int) (now1 now2 : Nat)
    (hinv : GridInvariant p) (hcan : p.canMove s = true)
    (hlo : -2147483648 ≤ p.moveCount) (hhi : p.moveCount < 2147483646) :
    (p.moveTile s now1).1 = true
      ∧ ((p.moveTile s now1).2.moveTile p.emptyPos now2).1 = true
      ∧ ((p.moveTile s now1).2.moveTile p.emptyPos now2).2.tiles = p.tiles
      ∧ ((p.moveTile s now1).2.moveTile p.emptyPos now2).2.getEmptyPos = p.emptyPos
      ∧ ((p.moveTile s now1).2.moveTile p.emptyPos now2).2.getMoveCount = p.moveCount + 2 := by
  obtain ⟨h1, -, h3, h4, h5, h6⟩ := moveTile_twice p s now1 now2 hinv hcan hlo hhi
  exact ⟨h1, h3, h4, h5, h6⟩

/-- Witness of C13 on the 3 x 3 grid after `shuffle(1)`, slot 2. -/
theorem C13_moveTile_self_inverse_witness :
    GridInvariant ((construct 3).shuffle 1 (fun _ => 0))
      ∧ ((construct 3).shuffle 1 (fun _ => 0)).canMove 2 = true
      ∧ -2147483648 ≤ ((construct 3).shuffle 1 (fun _ => 0)).moveCount
      ∧ ((construct 3).shuffle 1 (fun _ => 0)).moveCount < 2147483646
      ∧ ((((construct 3).shuffle 1 (fun _ => 0)).moveTile 2 10).1 = true
        ∧ ((((construct 3).shuffle 1 (fun _ => 0)).moveTile 2 10).2.moveTile
              ((construct 3).shuffle 1 (fun _ => 0)).emptyPos 20).1 = true
        ∧ ((((construct 3).shuffle 1 (fun _ => 0)).moveTile 2 10).2.moveTile
              ((construct 3).shuffle 1 (fun _ => 0)).emptyPos 20).2.tiles
            = ((construct 3).shuffle 1 (fun _ => 0)).tiles
        ∧ ((((construct 3).shuffle 1 (fun _ => 0)).moveTile 2 10).2.moveTile
              ((construct 3).shuffle 1 (fun _ => 0)).emptyPos 20).2.getEmptyPos
            = ((construct 3).shuffle 1 (fun _ => 0)).emptyPos
        ∧ ((((construct 3).shuffle 1 (fun _ => 0)).moveTile 2 10).2.moveTile
              ((construct 3).shuffle 1 (fun _ => 0)).emptyPos 20).2.getMoveCount
            = ((construct 3).shuffle 1 (fun _ => 0)).moveCount + 2) :=
  ⟨⟨by decide, by decide, by decide, by decide, by decide⟩, by decide, by decide, by decide,
    C13_moveTile_self_inverse ((construct 3).shuffle 1 (fun _ => 0)) 2 10 20
      ⟨by decide, by decide, by decide, by decide, by decide⟩ (by decide) (by decide)
      (by decide)⟩

theorem canMove_emptyPos (p : SlidingPuzzle) : p.canMove p.emptyPos = false := by
  cases h : p.canMove p.emptyPos with
  | false => rfl
  | true => exact absurd rfl ((canMove_eq_true_iff p p.emptyPos).1 h).2.2.ne

/-- C14: in every state, so in every state reachable by `reset`, `shuffle`
and `moveTile` for any grid size, `canMove(getEmptyPos())` is false: a slot is
never adjacent to itself, and under the grid invariant the empty slot holds
`0`. -/
theorem C14_canMove_empty_false :
    (∀ p : SlidingPuzzle, p.canMove p.getEmptyPos = false)
      ∧ (∀ (size : Int) (p : SlidingPuzzle), Reachable size p →
          p.canMove p.getEmptyPos = false ∧ (p.moveTile p.getEmptyPos 0).1 = false) :=
  ⟨canMove_emptyPos, fun _ p _ =>
    ⟨canMove_emptyPos p, (moveTile_of_not_canMove p p.emptyPos 0 (canMove_emptyPos p)).1⟩⟩

end SlidingPuzzle

/-! ## The debouncer -/

theorem usub_of_le (a b : Nat) (hab : b ≤ a) (ha : a < 4294967296) : usub a b = a - b := by
  unfold usub
  omega

theorem startGame_lastTouch (c : Controller) (d i : Int) (ok : Bool) (rnd : Nat → Nat) :
    (startGame c d i ok rnd).lastTouchTime = c.lastTouchTime
      ∧ (startGame c d i ok rnd).lastTouchState = c.lastTouchState := by
  unfold startGame
  cases ok <;> exact ⟨rfl, rfl⟩

theorem handleGameTouch_lastTouch (c : Controller) (x y : Int) (t : Tick) :
    (handleGameTouch c x y t).lastTouchTime = c.lastTouchTime
      ∧ (handleGameTouch c x y t).lastTouchState = c.lastTouchState := by
  unfold handleGameTouch
  split
  · exact ⟨rfl, rfl⟩
  · dsimp only
    split
    · exact ⟨rfl, rfl⟩
    · split
      · split
        · exact ⟨rfl, rfl⟩
        · split <;> exact ⟨rfl, rfl⟩
      · split
        · exact ⟨rfl, rfl⟩
        · split
          · split <;> exact ⟨rfl, rfl⟩
          · exact ⟨rfl, rfl⟩

theorem handleWinTouch_lastTouch (c : Controller) (x y : Int) (t : Tick) :
    (handleWinTouch c x y t).lastTouchTime = c.lastTouchTime
      ∧ (handleWinTouch c x y t).lastTouchState = c.lastTouchState := by
  unfold handleWinTouch
  split
  · exact startGame_lastTouch _ _ _ _ _
  · split <;> exact ⟨rfl, rfl⟩

theorem handleMenuTouch_lastTouch (c : Controller) (x y : Int) :
    (handleMenuTouch c x y).lastTouchTime = c.lastTouchTime
      ∧ (handleMenuTouch c x y).lastTouchState = c.lastTouchState := by
  unfold handleMenuTouch
  dsimp only
  split
  · exact ⟨rfl, rfl⟩
  · split
    · exact ⟨rfl, rfl⟩
    · split <;> exact ⟨rfl, rfl⟩

theorem handlePuzzleSelectTouch_lastTouch (c : Controller) (x y : Int) (t : Tick) :
    (handlePuzzleSelectTouch c x y t).lastTouchTime = c.lastTouchTime
      ∧ (handlePuzzleSelectTouch c x y t).lastTouchState = c.lastTouchState := by
  unfold handlePuzzleSelectTouch
  split
  · exact ⟨rfl, rfl⟩
  · dsimp only
    split
    · exact startGame_lastTouch _ _ _ _ _
    · exact ⟨rfl, rfl⟩

theorem dispatchTouch_lastTouch (c : Controller) (t : Tick) :
    (dispatchTouch c t).lastTouchTime = c.lastTouchTime
      ∧ (dispatchTouch c t).lastTouchState = c.lastTouchState := by
  unfold dispatchTouch
  split
  · exact handleMenuTouch_lastTouch _ _ _
  · exact handlePuzzleSelectTouch_lastTouch _ _ _ _
  · exact handleGameTouch_lastTouch _ _ _ _
  · exact handleWinTouch_lastTouch _ _ _ _

theorem loopAnimation_lastTouch (c : Controller) (t : Tick) :
    (loopAnimation c t).lastTouchTime = c.lastTouchTime
      ∧ (loopAnimation c t).lastTouchState = c.lastTouchState := by
  unfold loopAnimation
  split
  · have hu : (updateAnimation c t.animNow).2.lastTouchTime = c.lastTouchTime
        ∧ (updateAnimation c t.animNow).2.lastTouchState = c.lastTouchState := by
      unfold updateAnimation
      split
      · exact ⟨rfl, rfl⟩
      · dsimp only
        split <;> exact ⟨rfl, rfl⟩
    dsimp only
    split
    · split
      · split <;> exact hu
      · exact hu
    · exact hu
  · exact ⟨rfl, rfl⟩

theorem loopFlash_lastTouch (c : Controller) (t : Tick) :
    (loopFlash c t).lastTouchTime = c.lastTouchTime
      ∧ (loopFlash c t).lastTouchState = c.lastTouchState := by
  unfold loopFlash
  split <;> exact ⟨rfl, rfl⟩

theorem touchAccepted_congr (c d : Controller) (t : Tick)
    (h1 : d.lastTouchTime = c.lastTouchTime) (h2 : d.lastTouchState = c.lastTouchState) :
    touchAccepted d t = touchAccepted c t := by
  unfold touchAccepted
  rw [h1, h2]

theorem touchAccepted_loop (c : Controller) (t : Tick) :
    touchAccepted (loopFlash (loopAnimation c t) t) t = touchAccepted c t :=
  touchAccepted_congr _ _ _
    ((loopFlash_lastTouch _ t).1.trans (loopAnimation_lastTouch c t).1)
    ((loopFlash_lastTouch _ t).2.trans (loopAnimation_lastTouch c t).2)

theorem touchAccepted_iff (c : Controller) (t : Tick) :
    touchAccepted c t = true ↔
      (t.touching = true ∧ c.lastTouchState = false
        ∧ usub t.now c.lastTouchTime > TOUCH_DEBOUNCE_MS) := by
  unfold touchAccepted
  simp [and_assoc]

theorem loop_lastTouch (c : Controller) (t : Tick) :
    (loop c t).lastTouchTime = (if touchAccepted c t then t.now else c.lastTouchTime)
      ∧ (loop c t).lastTouchState = t.touching := by
  unfold loop loopTouch
  rw [touchAccepted_loop]
  refine ⟨?_, rfl⟩
  cases h : touchAccepted c t
  · simp only [Bool.false_eq_true, if_false]
    exact (loopFlash_lastTouch _ t).1.trans (loopAnimation_lastTouch c t).1
  · simp only [if_true]
    exact (dispatchTouch_lastTouch _ t).1

theorem loop_of_not_accepted (c : Controller) (t : Tick) (h : touchAccepted c t = false) :
    loop c t = { loopFlash (loopAnimation c t) t with lastTouchState := t.touching } := by
  unfold loop loopTouch
  rw [touchAccepted_loop, h]
  rfl

theorem loop_of_accepted (c : Controller) (t : Tick) (h : touchAccepted c t = true) :
    loop c t =
      { dispatchTouch { loopFlash (loopAnimation c t) t with lastTouchTime := t.now } t with
        lastTouchState := t.touching } := by
  unfold loop loopTouch
  rw [touchAccepted_loop, h]
  rfl

/-- C15 as stated fails at the boundary: after a press accepted at clock 1000
and a release, a rising edge at clock 1250 has `now - L = 250 >= 250`, yet no
press is dispatched: `L` stays 1000 and the tap on the Back button leaves the
controller in the puzzle-select screen. -/
theorem C15_debounce_boundary_counterexample :
    (runTicks initialController [pollAt true 240 280 1000, pollAt false 0 0 1100]).lastTouchState
        = false
      ∧ (runTicks initialController [pollAt true 240 280 1000, pollAt false 0 0 1100]).lastTouchTime
        = 1000
      ∧ (pollAt true 20 440 1250).touching = true
      ∧ usub (pollAt true 20 440 1250).now 1000 ≥ TOUCH_DEBOUNCE_MS
      ∧ touchAccepted
          (runTicks initialController [pollAt true 240 280 1000, pollAt false 0 0 1100])
          (pollAt true 20 440 1250) = false
      ∧ (loop (runTicks initialController [pollAt true 240 280 1000, pollAt false 0 0 1100])
          (pollAt true 20 440 1250)).lastTouchTime = 1000
      ∧ (loop (runTicks initialController [pollAt true 240 280 1000, pollAt false 0 0 1100])
          (pollAt true 20 440 1250)).gameState = GameState.PUZZLE_SELECT
      ∧ (loop (runTicks initialController [pollAt true 240 280 1000, pollAt false 0 0 1100])
          (pollAt true 20 440 1251)).gameState = GameState.MAIN_MENU := by
  decide

/-- C15, amended: on every loop tick with raw touch flag `p`, previous flag
`q`, clock `now` and last accepted time `L`, a press event is dispatched if
and only if `p` is true, `q` is false, and `now - L` (as `unsigned long`) is
strictly greater than the debounce interval of 250 ms; on dispatch `L`
becomes `now` and the handler of the current screen runs, otherwise `L` is
unchanged and no handler runs; in all cases the stored previous flag becomes
`p`. -/
theorem C15_debounce_step (c : Controller) (t : Tick) :
    (touchAccepted c t = true ↔
        (t.touching = true ∧ c.lastTouchState = false
          ∧ usub t.now c.lastTouchTime > TOUCH_DEBOUNCE_MS))
      ∧ TOUCH_DEBOUNCE_MS = 250
      ∧ touchAccepted (loopFlash (loopAnimation c t) t) t = touchAccepted c t
      ∧ (loop c t).lastTouchTime = (if touchAccepted c t then t.now else c.lastTouchTime)
      ∧ (loop c t).lastTouchState = t.touching
      ∧ (touchAccepted c t = false →
          loop c t = { loopFlash (loopAnimation c t) t with lastTouchState := t.touching })
      ∧ (touchAccepted c t = true →
          loop c t =
            { dispatchTouch { loopFlash (loopAnimation c t) t with lastTouchTime := t.now } t with
              lastTouchState := t.touching }) :=
  ⟨touchAccepted_iff c t, rfl, touchAccepted_loop c t, (loop_lastTouch c t).1,
    (loop_lastTouch c t).2, loop_of_not_accepted c t, loop_of_accepted c t⟩

theorem not_accepted_of_not_rising (c : Controller) (t : Tick)
    (h : (t.touching && !c.lastTouchState) = false) : touchAccepted c t = false := by
  unfold touchAccepted
  rw [h]
  rfl

theorem accepted_of_rising (c : Controller) (t : Tick)
    (h : (t.touching && !c.lastTouchState) = true) :
    touchAccepted c t = decide (usub t.now c.lastTouchTime > TOUCH_DEBOUNCE_MS) := by
  unfold touchAccepted
  rw [h]
  rfl

theorem countDispatched_cons (c : Controller) (t : Tick) (rest : List Tick) :
    countDispatched c (t :: rest)
      = (if touchAccepted c t then 1 else 0) + countDispatched (loop c t) rest := by
  simp only [countDispatched, touchAccepted_loop]

theorem countDispatched_no_edge (ticks : List Tick) (c : Controller)
    (h : risingEdges c.lastTouchState ticks = []) : countDispatched c ticks = 0 := by
  induction ticks generalizing c with
  | nil => rfl
  | cons t rest ih =>
    simp only [risingEdges] at h
    cases hr : (t.touching && !c.lastTouchState) with
    | true => simp [hr] at h
    | false =>
      rw [hr] at h
      simp only [Bool.false_eq_true, if_false, List.nil_append] at h
      rw [countDispatched_cons, not_accepted_of_not_rising c t hr]
      simp only [Bool.false_eq_true, if_false, Nat.zero_add]
      exact ih (loop c t) (by rw [(loop_lastTouch c t).2]; exact h)

theorem countDispatched_one_edge (ticks : List Tick) (c : Controller) (e : Nat)
    (h : risingEdges c.lastTouchState ticks = [e]) :
    countDispatched c ticks
      = if usub e c.lastTouchTime > TOUCH_DEBOUNCE_MS then 1 else 0 := by
  induction ticks generalizing c with
  | nil => simp [risingEdges] at h
  | cons t rest ih =>
    simp only [risingEdges] at h
    cases hr : (t.touching && !c.lastTouchState) with
    | true =>
      rw [hr] at h
      simp only [if_true, List.singleton_append, List.cons.injEq] at h
      obtain ⟨hnow, hrest⟩ := h
      rw [countDispatched_cons, accepted_of_rising c t hr,
        countDispatched_no_edge rest (loop c t) (by rw [(loop_lastTouch c t).2]; exact hrest),
        hnow]
      simp
    | false =>
      rw [hr] at h
      simp only [Bool.false_eq_true, if_false, List.nil_append] at h
      have hna := not_accepted_of_not_rising c t hr
      rw [countDispatched_cons, hna]
      simp only [Bool.false_eq_true, if_false, Nat.zero_add]
      have hL : (loop c t).lastTouchTime = c.lastTouchTime := by
        rw [(loop_lastTouch c t).1, hna]
        rfl
      rw [ih (loop c t) (by rw [(loop_lastTouch c t).2]; exact h), hL]

theorem countDispatched_two_edges (ticks : List Tick) (c : Controller) (t1 t2 : Nat)
    (h : risingEdges c.lastTouchState ticks = [t1, t2])
    (hfirst : usub t1 c.lastTouchTime > TOUCH_DEBOUNCE_MS) :
    countDispatched c ticks = 1 + (if usub t2 t1 > TOUCH_DEBOUNCE_MS then 1 else 0) := by
  induction ticks generalizing c with
  | nil => simp [risingEdges] at h
  | cons t rest ih =>
    simp only [risingEdges] at h
    cases hr : (t.touching && !c.lastTouchState) with
    | true =>
      rw [hr] at h
      simp only [if_true, List.singleton_append, List.cons.injEq] at h
      obtain ⟨hnow, hrest⟩ := h
      have hacc : touchAccepted c t = true := by
        rw [accepted_of_rising c t hr, hnow]
        exact decide_eq_true hfirst
      have hL : (loop c t).lastTouchTime = t1 := by
        rw [(loop_lastTouch c t).1, hacc, ← hnow]
        rfl
      rw [countDispatched_cons, hacc,
        countDispatched_one_edge rest (loop c t) t2
          (by rw [(loop_lastTouch c t).2]; exact hrest), hL]
      rfl
    | false =>
      rw [hr] at h
      simp only [Bool.false_eq_true, if_false, List.nil_append] at h
      have hna := not_accepted_of_not_rising c t hr
      rw [countDispatched_cons, hna]
      simp only [Bool.false_eq_true, if_false, Nat.zero_add]
      have hL : (loop c t).lastTouchTime = c.lastTouchTime := by
        rw [(loop_lastTouch c t).1, hna]
        rfl
      exact ih (loop c t) (by rw [(loop_lastTouch c t).2]; exact h) (by rw [hL]; exact hfirst)

/-- C16: for every run of loop ticks whose raw touch flag rises exactly twice,
at clock values `t1 < t2` (below `2^32`, so the clock does not wrap between
them), and whose first rising edge is accepted, the number of dispatched press
events is exactly one when `t2 - t1 <= 250` and exactly two when
`t2 - t1 > 250`, whatever the screen, the touch coordinates and the other
inputs of the ticks. -/
theorem C16_two_presses (c : Controller) (ticks : List Tick) (t1 t2 : Nat)
    (hedges : risingEdges c.lastTouchState ticks = [t1, t2])
    (hfirst : usub t1 c.lastTouchTime > TOUCH_DEBOUNCE_MS)
    (horder : t1 < t2) (hrange : t2 < 4294967296) :
    (t2 - t1 ≤ 250 → countDispatched c ticks = 1)
      ∧ (t2 - t1 > 250 → countDispatched c ticks = 2) := by
  have h := countDispatched_two_edges ticks c t1 t2 hedges hfirst
  rw [usub_of_le t2 t1 (by omega) hrange] at h
  unfold TOUCH_DEBOUNCE_MS at h
  constructor
  · intro hle
    rw [h, if_neg (by omega)]
  · intro hgt
    rw [h, if_pos hgt]

/-- Witness of C16: presses at clock 1000 and 1200 (one event) from start-up. -/
theorem C16_two_presses_witness :
    risingEdges initialController.lastTouchState
        [pollAt true 240 280 1000, pollAt false 0 0 1100, pollAt true 20 440 1200,
          pollAt true 20 440 1300] = [1000, 1200]
      ∧ usub 1000 initialController.lastTouchTime > TOUCH_DEBOUNCE_MS
      ∧ (1000 : Nat) < 1200 ∧ (1200 : Nat) < 4294967296
      ∧ ((1200 - 1000 ≤ 250 →
            countDispatched initialController
              [pollAt true 240 280 1000, pollAt false 0 0 1100, pollAt true 20 440 1200,
                pollAt true 20 440 1300] = 1)
        ∧ (1200 - 1000 > 250 →
            countDispatched initialController
              [pollAt true 240 280 1000, pollAt false 0 0 1100, pollAt true 20 440 1200,
                pollAt true 20 440 1300] = 2)) :=
  ⟨by decide, by decide, by decide, by decide,
    C16_two_presses initialController
      [pollAt true 240 280 1000, pollAt false 0 0 1100, pollAt true 20 440 1200,
        pollAt true 20 440 1300] 1000 1200 (by decide) (by decide) (by decide) (by decide)⟩

/-! ## Board presses while playing -/

theorem loopAnimation_of_not_animating (c : Controller) (t : Tick)
    (h : c.isAnimating = false) : loopAnimation c t = c := by
  unfold loopAnimation
  rw [if_neg (by rw [h]; simp)]

theorem loopFlash_eq (c : Controller) (t : Tick) :
    loopFlash c t = { c with flashTile := (loopFlash c t).flashTile } := by
  unfold loopFlash
  split <;> rfl

theorem handleGameTouch_valid (c : Controller) (pz : SlidingPuzzle) (x y : Int) (t : Tick)
    (p : Int) (hpz : c.puzzle = some pz) (hanim : c.isAnimating = false)
    (hy : y < 480 - BUTTON_BAR_HEIGHT) (hslot : boardSlot pz.getGridSize x y = some p)
    (hcan : pz.canMove p = true) :
    handleGameTouch c x y t =
      { c with
        puzzle := some (pz.moveTile p t.moveNow).2
        flashTile := p
        flashStartTime := t.flashNow
        flashColor := COL_FLASH_VALID
        gameStartTime :=
          if c.timerRunning = false ∧ c.gameStartTime = 0 then t.timerNow else c.gameStartTime
        timerRunning :=
          if c.timerRunning = false ∧ c.gameStartTime = 0 then true else c.timerRunning
        isAnimating := true
        animStartTime := t.startNow
        animFromPos := p
        animToPos := pz.getEmptyPos
        animTileNum := pz.getTile p } := by
  unfold handleGameTouch
  rw [hpz]
  dsimp only
  rw [if_neg (by rw [hanim]; simp), if_neg (by omega), hslot]
  dsimp only
  rw [if_pos hcan]
  by_cases htimer : c.timerRunning = false ∧ c.gameStartTime = 0
  · rw [if_pos htimer, if_pos htimer, if_pos htimer]
    rfl
  · rw [if_neg htimer, if_neg htimer, if_neg htimer]
    rfl

theorem handleGameTouch_invalid (c : Controller) (pz : SlidingPuzzle) (x y : Int) (t : Tick)
    (p : Int) (hpz : c.puzzle = some pz) (hanim : c.isAnimating = false)
    (hy : y < 480 - BUTTON_BAR_HEIGHT) (hslot : boardSlot pz.getGridSize x y = some p)
    (hcan : pz.canMove p = false) :
    handleGameTouch c x y t =
      { c with
        flashTile := p
        flashStartTime := t.flashNow
        flashColor := COL_FLASH_INVALID } := by
  unfold handleGameTouch
  rw [hpz]
  dsimp only
  rw [if_neg (by rw [hanim]; simp), if_neg (by omega), hslot]
  dsimp only
  rw [if_neg (by rw [hcan]; simp)]

theorem loop_playing_press (c : Controller) (t : Tick) (hstate : c.gameState = GameState.PLAYING)
    (hanim : c.isAnimating = false) (hacc : touchAccepted c t = true) :
    loop c t =
      { handleGameTouch
          { c with flashTile := (loopFlash c t).flashTile, lastTouchTime := t.now } t.x t.y t with
        lastTouchState := t.touching } := by
  rw [loop_of_accepted c t hacc, loopAnimation_of_not_animating c t hanim, loopFlash_eq c t]
  unfold dispatchTouch
  simp only [hstate]

theorem getTile_of_canMove (pz : SlidingPuzzle) (p : Int) (h : pz.canMove p = true) :
    pz.getTile p = vecGet pz.tiles p := by
  obtain ⟨⟨h0, h1⟩, -, -⟩ := (SlidingPuzzle.canMove_eq_true_iff pz p).1 h
  unfold SlidingPuzzle.getTile
  rw [if_neg (by omega)]

/-- C17: in Playing with no animation running, an accepted press that maps to
board slot `p` with `canMove(p)` true applies the move to the grid at once
(the puzzle is the result of `moveTile(p)`), starts the animation with
`animFromPos = p`, `animToPos` the slot that was empty, `animTileNum` the
value that was at `p` and `isAnimating = true`, starts the session timer
(`gameStartTime = millis()`, `timerRunning = true`) if it was not started and
leaves it unchanged if it was running; the game state stays Playing. -/
theorem C17_valid_board_press (c : Controller) (pz : SlidingPuzzle) (t : Tick) (p : Int)
    (hstate : c.gameState = GameState.PLAYING) (hpz : c.puzzle = some pz)
    (hanim : c.isAnimating = false) (hacc : touchAccepted c t = true)
    (hy : t.y < 480 - BUTTON_BAR_HEIGHT) (hslot : boardSlot pz.getGridSize t.x t.y = some p)
    (hcan : pz.canMove p = true) :
    (loop c t).puzzle = some (pz.moveTile p t.moveNow).2
      ∧ (pz.moveTile p t.moveNow).1 = true
      ∧ (loop c t).isAnimating = true
      ∧ (loop c t).animStartTime = t.startNow
      ∧ (loop c t).animFromPos = p
      ∧ (loop c t).animToPos = pz.getEmptyPos
      ∧ (loop c t).animTileNum = vecGet pz.tiles p
      ∧ (c.timerRunning = false ∧ c.gameStartTime = 0 →
          (loop c t).gameStartTime = t.timerNow ∧ (loop c t).timerRunning = true)
      ∧ (c.timerRunning = true →
          (loop c t).gameStartTime = c.gameStartTime ∧ (loop c t).timerRunning = true)
      ∧ (loop c t).gameEndTime = c.gameEndTime
      ∧ (loop c t).gameState = GameState.PLAYING := by
  have hl := loop_playing_press c t hstate hanim hacc
  have hv := handleGameTouch_valid
    { c with flashTile := (loopFlash c t).flashTile, lastTouchTime := t.now } pz t.x t.y t p
    hpz hanim hy hslot hcan
  rw [hv] at hl
  rw [hl]
  refine ⟨rfl, (SlidingPuzzle.moveTile_of_canMove pz p t.moveNow hcan).1, rfl, rfl, rfl, rfl,
    getTile_of_canMove pz p hcan, ?_, ?_, rfl, hstate⟩
  · intro h
    exact ⟨if_pos h, if_pos h⟩
  · intro h
    have hn : ¬ (c.timerRunning = false ∧ c.gameStartTime = 0) := by
      rw [h]; simp
    exact ⟨if_neg hn, (if_neg hn).trans h⟩

/-- Witness of C17: solved 3 x 3 grid, press at pixel (350, 200), slot 5. -/
theorem C17_valid_board_press_witness :
    playingSolved3.gameState = GameState.PLAYING
      ∧ playingSolved3.puzzle = some (SlidingPuzzle.construct 3)
      ∧ playingSolved3.isAnimating = false
      ∧ touchAccepted playingSolved3 (pollAt true 350 200 2000) = true
      ∧ (pollAt true 350 200 2000).y < 480 - BUTTON_BAR_HEIGHT
      ∧ boardSlot (SlidingPuzzle.construct 3).getGridSize (pollAt true 350 200 2000).x
          (pollAt true 350 200 2000).y = some 5
      ∧ (SlidingPuzzle.construct 3).canMove 5 = true
      ∧ ((loop playingSolved3 (pollAt true 350 200 2000)).puzzle = some ((SlidingPuzzle.construct 3).moveTile 5 (pollAt true 350 200 2000).moveNow).2
      ∧ ((SlidingPuzzle.construct 3).moveTile 5 (pollAt true 350 200 2000).moveNow).1 = true
      ∧ (loop playingSolved3 (pollAt true 350 200 2000)).isAnimating = true
      ∧ (loop playingSolved3 (pollAt true 350 200 2000)).animStartTime = (pollAt true 350 200 2000).startNow
      ∧ (loop playingSolved3 (pollAt true 350 200 2000)).animFromPos = 5
      ∧ (loop playingSolved3 (pollAt true 350 200 2000)).animToPos = (SlidingPuzzle.construct 3).getEmptyPos
      ∧ (loop playingSolved3 (pollAt true 350 200 2000)).animTileNum = vecGet (SlidingPuzzle.construct 3).tiles 5
      ∧ (playingSolved3.timerRunning = false ∧ playingSolved3.gameStartTime = 0 →
          (loop playingSolved3 (pollAt true 350 200 2000)).gameStartTime = (pollAt true 350 200 2000).timerNow ∧ (loop playingSolved3 (pollAt true 350 200 2000)).timerRunning = true)
      ∧ (playingSolved3.timerRunning = true →
          (loop playingSolved3 (pollAt true 350 200 2000)).gameStartTime = playingSolved3.gameStartTime ∧ (loop playingSolved3 (pollAt true 350 200 2000)).timerRunning = true)
      ∧ (loop playingSolved3 (pollAt true 350 200 2000)).gameEndTime = playingSolved3.gameEndTime
      ∧ (loop playingSolved3 (pollAt true 350 200 2000)).gameState = GameState.PLAYING) :=
  ⟨by decide, by decide, by decide, by decide, by decide, by decide, by decide,
    C17_valid_board_press playingSolved3 (SlidingPuzzle.construct 3) (pollAt true 350 200 2000) 5
      (by decide) (by decide) (by decide) (by decide) (by decide) (by decide) (by decide)⟩

/-- C18: in Playing with no animation running, an accepted press that maps to
board slot `p` with `canMove(p)` false changes nothing but the feedback flash
(`flashTile = p`, the invalid colour, its start time) and the debounce state:
the puzzle (tiles, `emptyPos`, `moveCount`, win flag), the game state, the
timer variables and the animation state are all unchanged. -/
theorem C18_invalid_board_press (c : Controller) (pz : SlidingPuzzle) (t : Tick) (p : Int)
    (hstate : c.gameState = GameState.PLAYING) (hpz : c.puzzle = some pz)
    (hanim : c.isAnimating = false) (hacc : touchAccepted c t = true)
    (hy : t.y < 480 - BUTTON_BAR_HEIGHT) (hslot : boardSlot pz.getGridSize t.x t.y = some p)
    (hcan : pz.canMove p = false) :
    handleGameTouch c t.x t.y t
        = { c with
            flashTile := p
            flashStartTime := t.flashNow
            flashColor := COL_FLASH_INVALID }
      ∧ loop c t
        = { c with
            flashTile := p
            flashStartTime := t.flashNow
            flashColor := COL_FLASH_INVALID
            lastTouchTime := t.now
            lastTouchState := t.touching }
      ∧ (loop c t).puzzle = some pz
      ∧ (loop c t).gameState = GameState.PLAYING
      ∧ (loop c t).isAnimating = false := by
  have hl := loop_playing_press c t hstate hanim hacc
  have hv := handleGameTouch_invalid
    { c with flashTile := (loopFlash c t).flashTile, lastTouchTime := t.now } pz t.x t.y t p
    hpz hanim hy hslot hcan
  rw [hv] at hl
  rw [hl]
  exact ⟨handleGameTouch_invalid c pz t.x t.y t p hpz hanim hy hslot hcan, rfl, hpz, hstate,
    hanim⟩

/-- Witness of C18: solved 3 x 3 grid, press at pixel (200, 200), slot 4. -/
theorem C18_invalid_board_press_witness :
    playingSolved3.gameState = GameState.PLAYING
      ∧ playingSolved3.puzzle = some (SlidingPuzzle.construct 3)
      ∧ playingSolved3.isAnimating = false
      ∧ touchAccepted playingSolved3 (pollAt true 200 200 2000) = true
      ∧ (pollAt true 200 200 2000).y < 480 - BUTTON_BAR_HEIGHT
      ∧ boardSlot (SlidingPuzzle.construct 3).getGridSize (pollAt true 200 200 2000).x
          (pollAt true 200 200 2000).y = some 4
      ∧ (SlidingPuzzle.construct 3).canMove 4 = false
      ∧ (handleGameTouch playingSolved3 (pollAt true 200 200 2000).x
              (pollAt true 200 200 2000).y (pollAt true 200 200 2000)
            = { playingSolved3 with
                flashTile := 4
                flashStartTime := (pollAt true 200 200 2000).flashNow
                flashColor := COL_FLASH_INVALID }
        ∧ loop playingSolved3 (pollAt true 200 200 2000)
            = { playingSolved3 with
                flashTile := 4
                flashStartTime := (pollAt true 200 200 2000).flashNow
                flashColor := COL_FLASH_INVALID
                lastTouchTime := (pollAt true 200 200 2000).now
                lastTouchState := (pollAt true 200 200 2000).touching }
        ∧ (loop playingSolved3 (pollAt true 200 200 2000)).puzzle
            = some (SlidingPuzzle.construct 3)
        ∧ (loop playingSolved3 (pollAt true 200 200 2000)).gameState = GameState.PLAYING
        ∧ (loop playingSolved3 (pollAt true 200 200 2000)).isAnimating = false) :=
  ⟨by decide, by decide, by decide, by decide, by decide, by decide, by decide,
    C18_invalid_board_press playingSolved3 (SlidingPuzzle.construct 3)
      (pollAt true 200 200 2000) 4
      (by decide) (by decide) (by decide) (by decide) (by decide) (by decide) (by decide)⟩

/-! ## Animation completion and the win screen -/

theorem updateAnimation_snd (c : Controller) (now : Nat) :
    (updateAnimation c now).2 = c
      ∨ (updateAnimation c now).2 = { c with isAnimating := false } := by
  unfold updateAnimation
  split
  · exact Or.inl rfl
  · dsimp only
    split
    · exact Or.inr rfl
    · exact Or.inl rfl

theorem updateAnimation_fst (c : Controller) (now : Nat) (ha : c.isAnimating = true)
    (hp : c.puzzle ≠ none) :
    (updateAnimation c now).1 = true ↔ usub now c.animStartTime ≥ ANIM_DURATION_MS := by
  unfold updateAnimation
  have hn : ¬ (c.isAnimating = false ∨ c.puzzle.isNone = true) := by
    rw [ha]
    cases hq : c.puzzle with
    | none => exact absurd hq hp
    | some pz => simp
  rw [if_neg hn]
  dsimp only
  split
  · next h => simpa using h
  · next h =>
    simp only [Bool.false_eq_true, false_iff]
    exact h

theorem loopAnimation_eq (c : Controller) (t : Tick)
    (hstate : c.gameState = GameState.PLAYING) (ha : c.isAnimating = true) :
    loopAnimation c t =
      if (updateAnimation c t.animNow).1 = true then
        (match c.puzzle with
          | some pz =>
            if pz.isWon = true then
              { c with
                isAnimating := false
                timerRunning := false
                gameEndTime := t.winNow
                gameState := GameState.WIN_SCREEN }
            else { c with isAnimating := false }
          | none => { c with isAnimating := false })
      else c := by
  cases hq : c.puzzle with
  | none =>
    simp [loopAnimation, updateAnimation, hstate, ha, hq]
  | some pz =>
    by_cases he : usub t.animNow c.animStartTime ≥ ANIM_DURATION_MS
    · by_cases hw : pz.isWon = true
      · simp [loopAnimation, updateAnimation, hstate, ha, hq, he, hw, showWinScreen]
      · simp [loopAnimation, updateAnimation, hstate, ha, hq, he, hw, showWinScreen]
    · simp [loopAnimation, updateAnimation, hstate, ha, hq, he]

/-- The first block of `loop()` in the playing screen: either the win
transition, or no change of screen and timer. -/
theorem loopAnimation_cases (c : Controller) (t : Tick)
    (hstate : c.gameState = GameState.PLAYING) :
    ((c.isAnimating = true ∧ (updateAnimation c t.animNow).1 = true
        ∧ ∃ pz : SlidingPuzzle, c.puzzle = some pz ∧ pz.isWon = true)
      ∧ loopAnimation c t =
          { c with
            isAnimating := false
            timerRunning := false
            gameEndTime := t.winNow
            gameState := GameState.WIN_SCREEN })
    ∨ (¬ (c.isAnimating = true ∧ (updateAnimation c t.animNow).1 = true
          ∧ ∃ pz : SlidingPuzzle, c.puzzle = some pz ∧ pz.isWon = true)
      ∧ (loopAnimation c t = c ∨ loopAnimation c t = { c with isAnimating := false })) := by
  by_cases ha : c.isAnimating = true
  · rw [loopAnimation_eq c t hstate ha]
    by_cases hr : (updateAnimation c t.animNow).1 = true
    · rw [if_pos hr]
      cases hq : c.puzzle with
      | none =>
        right
        refine ⟨?_, Or.inr rfl⟩
        rintro ⟨-, -, pz, h, -⟩
        cases h
      | some pz =>
        by_cases hw : pz.isWon = true
        · left
          refine ⟨⟨ha, hr, pz, rfl, hw⟩, ?_⟩
          simp only [hw, if_true]
        · right
          refine ⟨?_, Or.inr ?_⟩
          · rintro ⟨-, -, pz2, h, hw2⟩
            cases h
            exact hw hw2
          · simp only [hw, if_false]
            simp
    · rw [if_neg hr]
      exact Or.inr ⟨fun h => hr h.2.1, Or.inl rfl⟩
  · have ha2 : c.isAnimating = false := by simpa using ha
    exact Or.inr ⟨fun h => ha h.1, Or.inl (loopAnimation_of_not_animating c t ha2)⟩

theorem handleGameTouch_gameState (c : Controller) (x y : Int) (t : Tick) :
    (handleGameTouch c x y t).gameState = c.gameState
      ∨ (handleGameTouch c x y t).gameState = GameState.PUZZLE_SELECT := by
  unfold handleGameTouch
  split
  · exact Or.inl rfl
  · dsimp only
    split
    · exact Or.inl rfl
    · split
      · split
        · exact Or.inr rfl
        · split <;> exact Or.inl rfl
      · split
        · exact Or.inl rfl
        · split
          · split <;> exact Or.inl rfl
          · exact Or.inl rfl

theorem startGame_gameState (c : Controller) (d i : Int) (ok : Bool) (rnd : Nat → Nat) :
    (startGame c d i ok rnd).gameState ≠ GameState.WIN_SCREEN := by
  unfold startGame
  cases ok <;> simp [showMainMenu]

theorem handleWinTouch_timer (c : Controller) (x y : Int) (t : Tick)
    (h : (handleWinTouch c x y t).gameState = GameState.WIN_SCREEN) :
    handleWinTouch c x y t = c := by
  unfold handleWinTouch at h ⊢
  split
  · next hr =>
    rw [if_pos hr] at h
    exact absurd h (startGame_gameState _ _ _ _ _)
  · next hr =>
    rw [if_neg hr] at h
    split
    · next hr2 =>
      rw [if_pos hr2] at h
      simp [showMainMenu] at h
    · rfl

theorem loopFlash_fields (c : Controller) (t : Tick) :
    (loopFlash c t).gameState = c.gameState
      ∧ (loopFlash c t).timerRunning = c.timerRunning
      ∧ (loopFlash c t).gameEndTime = c.gameEndTime := by
  unfold loopFlash
  split <;> exact ⟨rfl, rfl, rfl⟩

theorem dispatchTouch_playing (d : Controller) (t : Tick)
    (h : d.gameState = GameState.PLAYING) : dispatchTouch d t = handleGameTouch d t.x t.y t := by
  unfold dispatchTouch
  rw [h]

theorem dispatchTouch_win (d : Controller) (t : Tick)
    (h : d.gameState = GameState.WIN_SCREEN) : dispatchTouch d t = handleWinTouch d t.x t.y t := by
  unfold dispatchTouch
  rw [h]

theorem loop_gameState_of_playing (c : Controller) (t : Tick)
    (h : (loopAnimation c t).gameState = GameState.PLAYING) :
    (loop c t).gameState ≠ GameState.WIN_SCREEN := by
  have hf : (loopFlash (loopAnimation c t) t).gameState = GameState.PLAYING :=
    (loopFlash_fields _ t).1.trans h
  cases hacc : touchAccepted c t with
  | false =>
    rw [loop_of_not_accepted c t hacc]
    show (loopFlash (loopAnimation c t) t).gameState ≠ GameState.WIN_SCREEN
    rw [hf]
    decide
  | true =>
    rw [loop_of_accepted c t hacc,
      dispatchTouch_playing { loopFlash (loopAnimation c t) t with lastTouchTime := t.now } t hf]
    show (handleGameTouch { loopFlash (loopAnimation c t) t with lastTouchTime := t.now }
      t.x t.y t).gameState ≠ GameState.WIN_SCREEN
    rcases handleGameTouch_gameState
      { loopFlash (loopAnimation c t) t with lastTouchTime := t.now } t.x t.y t with h2 | h2
    · rw [h2]
      show (loopFlash (loopAnimation c t) t).gameState ≠ GameState.WIN_SCREEN
      rw [hf]
      decide
    · rw [h2]
      decide

theorem loop_of_win (c : Controller) (t : Tick)
    (h : (loopAnimation c t).gameState = GameState.WIN_SCREEN) :
    (touchAccepted c t = false → (loop c t).gameState = GameState.WIN_SCREEN)
      ∧ ((loop c t).gameState = GameState.WIN_SCREEN →
          (loop c t).timerRunning = (loopAnimation c t).timerRunning
            ∧ (loop c t).gameEndTime = (loopAnimation c t).gameEndTime) := by
  obtain ⟨hf1, hf2, hf3⟩ := loopFlash_fields (loopAnimation c t) t
  cases hacc : touchAccepted c t with
  | false =>
    rw [loop_of_not_accepted c t hacc]
    exact ⟨fun _ => hf1.trans h, fun _ => ⟨hf2, hf3⟩⟩
  | true =>
    rw [loop_of_accepted c t hacc,
      dispatchTouch_win { loopFlash (loopAnimation c t) t with lastTouchTime := t.now } t
        (hf1.trans h)]
    refine ⟨fun hh => (by cases hh), fun hw => ?_⟩
    have hw2 : (handleWinTouch { loopFlash (loopAnimation c t) t with lastTouchTime := t.now }
        t.x t.y t).gameState = GameState.WIN_SCREEN := hw
    rw [handleWinTouch_timer _ _ _ _ hw2]
    exact ⟨hf2, hf3⟩

/-- A press accepted on the very tick on which the win block shows the win
screen is handled by `handleWinTouch` on that same tick.  In `wonAnimating3`
the tick at clock 1300 finds the animation complete (`1300 - 1000 >= 180`)
and `isWon()` true, and the win block switches to the win screen and stops
the timer; the touch sampled on that tick at pixel (300, 420) is accepted
(`1300 - 1000 > 250`) and handled as a press of Menu, so the controller is in
the main menu when the tick ends.  Without a touch the tick ends in the win
screen. -/
theorem win_tick_with_accepted_press :
    wonAnimating3.gameState = GameState.PLAYING
      ∧ wonAnimating3.isAnimating = true
      ∧ (updateAnimation wonAnimating3 (pollAt true 300 420 1300).animNow).1 = true
      ∧ (∃ pz : SlidingPuzzle, wonAnimating3.puzzle = some pz ∧ pz.isWon = true)
      ∧ (loopAnimation wonAnimating3 (pollAt true 300 420 1300)).gameState
          = GameState.WIN_SCREEN
      ∧ (loopAnimation wonAnimating3 (pollAt true 300 420 1300)).timerRunning = false
      ∧ (loopAnimation wonAnimating3 (pollAt true 300 420 1300)).gameEndTime = 1300
      ∧ touchAccepted wonAnimating3 (pollAt true 300 420 1300) = true
      ∧ (loop wonAnimating3 (pollAt true 300 420 1300)).gameState = GameState.MAIN_MENU
      ∧ (loop wonAnimating3 (pollAt false 0 0 1300)).gameState = GameState.WIN_SCREEN :=
  ⟨by decide, by decide, by decide, ⟨_, rfl, by decide⟩, by decide, by decide, by decide,
    by decide, by decide, by decide⟩

/-- C19: in the playing screen, a loop tick makes the move to the win screen
(its win block, the only place that shows the win screen, does so) if and only
if an animation was in flight at the start of the tick, `updateAnimation`
reports it complete on this tick (`millis() - animStartTime >= 180` ms) and
the puzzle's `isWon()` is true; on that tick the timer is stopped
(`timerRunning = false`, `gameEndTime` the clock read at completion), and on
every other tick the block leaves the screen and the timer as they were, so
the timer is not stopped earlier.  A tick that ends in the win screen made
this move, and a tick that made it ends in the win screen unless a press is
accepted on it (that press is handled afterwards by the handler of the win
screen).  While the animation is still running the block changes nothing, and
an accepted winning move itself leaves the screen Playing and does not stop
the timer. -/
theorem C19_win_transition (c : Controller) (t : Tick)
    (hstate : c.gameState = GameState.PLAYING) :
    ((loopAnimation c t).gameState = GameState.WIN_SCREEN ↔
        (c.isAnimating = true ∧ (updateAnimation c t.animNow).1 = true
          ∧ ∃ pz : SlidingPuzzle, c.puzzle = some pz ∧ pz.isWon = true))
      ∧ (c.isAnimating = true → c.puzzle ≠ none →
          ((updateAnimation c t.animNow).1 = true ↔
            usub t.animNow c.animStartTime ≥ ANIM_DURATION_MS))
      ∧ ANIM_DURATION_MS = 180
      ∧ ((loopAnimation c t).gameState = GameState.WIN_SCREEN →
          (loopAnimation c t).timerRunning = false
            ∧ (loopAnimation c t).gameEndTime = t.winNow
            ∧ (loopAnimation c t).isAnimating = false
            ∧ (loopAnimation c t).puzzle = c.puzzle)
      ∧ ((loopAnimation c t).gameState ≠ GameState.WIN_SCREEN →
          (loopAnimation c t).gameState = GameState.PLAYING
            ∧ (loopAnimation c t).timerRunning = c.timerRunning
            ∧ (loopAnimation c t).gameEndTime = c.gameEndTime
            ∧ (loopAnimation c t).gameStartTime = c.gameStartTime)
      ∧ ((loop c t).gameState = GameState.WIN_SCREEN →
          (loopAnimation c t).gameState = GameState.WIN_SCREEN
            ∧ (loop c t).timerRunning = false
            ∧ (loop c t).gameEndTime = t.winNow)
      ∧ ((loopAnimation c t).gameState = GameState.WIN_SCREEN → touchAccepted c t = false →
          (loop c t).gameState = GameState.WIN_SCREEN)
      ∧ (c.isAnimating = true → c.puzzle ≠ none →
          usub t.animNow c.animStartTime < ANIM_DURATION_MS → loopAnimation c t = c)
      ∧ (∀ (pz : SlidingPuzzle) (p : Int), c.puzzle = some pz → c.isAnimating = false →
          touchAccepted c t = true → t.y < 480 - BUTTON_BAR_HEIGHT →
          boardSlot pz.getGridSize t.x t.y = some p → pz.canMove p = true →
          (loop c t).gameState = GameState.PLAYING
            ∧ (loop c t).isAnimating = true
            ∧ (c.timerRunning = true → (loop c t).timerRunning = true)
            ∧ (loop c t).gameEndTime = c.gameEndTime) := by
  have hcases := loopAnimation_cases c t hstate
  refine ⟨?_, fun ha hp => updateAnimation_fst c t.animNow ha hp, rfl, ?_, ?_, ?_, ?_, ?_, ?_⟩
  · rcases hcases with ⟨hc, he⟩ | ⟨hn, he | he⟩
    · rw [he]
      exact ⟨fun _ => hc, fun _ => rfl⟩
    · rw [he, hstate]
      exact ⟨fun h => (by cases h), fun h => absurd h hn⟩
    · rw [he]
      refine ⟨fun h => ?_, fun h => absurd h hn⟩
      have h2 : c.gameState = GameState.WIN_SCREEN := h
      rw [hstate] at h2
      cases h2
  · intro hw
    rcases hcases with ⟨-, he⟩ | ⟨-, he | he⟩
    · rw [he]
      exact ⟨rfl, rfl, rfl, rfl⟩
    · rw [he, hstate] at hw
      cases hw
    · rw [he] at hw
      have h2 : c.gameState = GameState.WIN_SCREEN := hw
      rw [hstate] at h2
      cases h2
  · intro hw
    rcases hcases with ⟨-, he⟩ | ⟨-, he | he⟩
    · rw [he] at hw
      exact absurd rfl hw
    · rw [he]
      exact ⟨hstate, rfl, rfl, rfl⟩
    · rw [he]
      exact ⟨hstate, rfl, rfl, rfl⟩
  · intro hw
    have hwin : (loopAnimation c t).gameState = GameState.WIN_SCREEN := by
      rcases hcases with ⟨-, he⟩ | ⟨-, he | he⟩
      · rw [he]
      · exact absurd hw (loop_gameState_of_playing c t (by rw [he]; exact hstate))
      · exact absurd hw (loop_gameState_of_playing c t (by rw [he]; exact hstate))
    obtain ⟨h1, h2⟩ := (loop_of_win c t hwin).2 hw
    refine ⟨hwin, ?_, ?_⟩
    · rw [h1]
      rcases hcases with ⟨-, he⟩ | ⟨-, he | he⟩
      · rw [he]
      · rw [he, hstate] at hwin
        cases hwin
      · rw [he] at hwin
        have h3 : c.gameState = GameState.WIN_SCREEN := hwin
        rw [hstate] at h3
        cases h3
    · rw [h2]
      rcases hcases with ⟨-, he⟩ | ⟨-, he | he⟩
      · rw [he]
      · rw [he, hstate] at hwin
        cases hwin
      · rw [he] at hwin
        have h3 : c.gameState = GameState.WIN_SCREEN := hwin
        rw [hstate] at h3
        cases h3
  · intro hw hacc
    exact (loop_of_win c t hw).1 hacc
  · intro ha hp hlt
    rw [loopAnimation_eq c t hstate ha, if_neg]
    rw [updateAnimation_fst c t.animNow ha hp]
    omega
  · intro pz p hpz hanim hacc hy hslot hcan
    have hl := loop_playing_press c t hstate hanim hacc
    have hv := handleGameTouch_valid
      { c with flashTile := (loopFlash c t).flashTile, lastTouchTime := t.now } pz t.x t.y t p
      hpz hanim hy hslot hcan
    rw [hv] at hl
    rw [hl]
    refine ⟨hstate, rfl, fun hr => ?_, rfl⟩
    show (if c.timerRunning = false ∧ c.gameStartTime = 0 then true else c.timerRunning) = true
    rw [hr]
    simp

/-- Witness of C19: `wonAnimating3` (the winning move of a 3 x 3 game animating
since clock 1000) polled at clock 1300 with no touch: the animation is
complete, the puzzle is won, and the tick shows the win screen and stops the
timer at 1300. -/
theorem C19_win_transition_witness :
    wonAnimating3.gameState = GameState.PLAYING
      ∧ (((loopAnimation wonAnimating3 (pollAt false 0 0 1300)).gameState = GameState.WIN_SCREEN ↔
          (wonAnimating3.isAnimating = true ∧ (updateAnimation wonAnimating3 (pollAt false 0 0 1300).animNow).1 = true
            ∧ ∃ pz : SlidingPuzzle, wonAnimating3.puzzle = some pz ∧ pz.isWon = true))
        ∧ (wonAnimating3.isAnimating = true → wonAnimating3.puzzle ≠ none →
            ((updateAnimation wonAnimating3 (pollAt false 0 0 1300).animNow).1 = true ↔
              usub (pollAt false 0 0 1300).animNow wonAnimating3.animStartTime ≥ ANIM_DURATION_MS))
        ∧ ANIM_DURATION_MS = 180
        ∧ ((loopAnimation wonAnimating3 (pollAt false 0 0 1300)).gameState = GameState.WIN_SCREEN →
            (loopAnimation wonAnimating3 (pollAt false 0 0 1300)).timerRunning = false
              ∧ (loopAnimation wonAnimating3 (pollAt false 0 0 1300)).gameEndTime = (pollAt false 0 0 1300).winNow
              ∧ (loopAnimation wonAnimating3 (pollAt false 0 0 1300)).isAnimating = false
              ∧ (loopAnimation wonAnimating3 (pollAt false 0 0 1300)).puzzle = wonAnimating3.puzzle)
        ∧ ((loopAnimation wonAnimating3 (pollAt false 0 0 1300)).gameState ≠ GameState.WIN_SCREEN →
            (loopAnimation wonAnimating3 (pollAt false 0 0 1300)).gameState = GameState.PLAYING
              ∧ (loopAnimation wonAnimating3 (pollAt false 0 0 1300)).timerRunning = wonAnimating3.timerRunning
              ∧ (loopAnimation wonAnimating3 (pollAt false 0 0 1300)).gameEndTime = wonAnimating3.gameEndTime
              ∧ (loopAnimation wonAnimating3 (pollAt false 0 0 1300)).gameStartTime = wonAnimating3.gameStartTime)
        ∧ ((loop wonAnimating3 (pollAt false 0 0 1300)).gameState = GameState.WIN_SCREEN →
            (loopAnimation wonAnimating3 (pollAt false 0 0 1300)).gameState = GameState.WIN_SCREEN
              ∧ (loop wonAnimating3 (pollAt false 0 0 1300)).timerRunning = false
              ∧ (loop wonAnimating3 (pollAt false 0 0 1300)).gameEndTime = (pollAt false 0 0 1300).winNow)
        ∧ ((loopAnimation wonAnimating3 (pollAt false 0 0 1300)).gameState = GameState.WIN_SCREEN → touchAccepted wonAnimating3 (pollAt false 0 0 1300) = false →
            (loop wonAnimating3 (pollAt false 0 0 1300)).gameState = GameState.WIN_SCREEN)
        ∧ (wonAnimating3.isAnimating = true → wonAnimating3.puzzle ≠ none →
            usub (pollAt false 0 0 1300).animNow wonAnimating3.animStartTime < ANIM_DURATION_MS → loopAnimation wonAnimating3 (pollAt false 0 0 1300) = wonAnimating3)
        ∧ (∀ (pz : SlidingPuzzle) (p : Int), wonAnimating3.puzzle = some pz → wonAnimating3.isAnimating = false →
            touchAccepted wonAnimating3 (pollAt false 0 0 1300) = true → (pollAt false 0 0 1300).y < 480 - BUTTON_BAR_HEIGHT →
            boardSlot pz.getGridSize (pollAt false 0 0 1300).x (pollAt false 0 0 1300).y = some p → pz.canMove p = true →
            (loop wonAnimating3 (pollAt false 0 0 1300)).gameState = GameState.PLAYING
              ∧ (loop wonAnimating3 (pollAt false 0 0 1300)).isAnimating = true
              ∧ (wonAnimating3.timerRunning = true → (loop wonAnimating3 (pollAt false 0 0 1300)).timerRunning = true)
              ∧ (loop wonAnimating3 (pollAt false 0 0 1300)).gameEndTime = wonAnimating3.gameEndTime)) :=
  ⟨by decide, C19_win_transition wonAnimating3 (pollAt false 0 0 1300) (by decide)⟩

/-! ## Image-load failure -/

/-- C20: if `loadPuzzleImage` fails when `startGame(difficulty, index)` is
called, the controller ends in the main menu and not in Playing; no puzzle is
created, reset or shuffled (the `puzzle` pointer is left as it was) and the
timer variables are untouched.  The call records the selection and leaves the
image buffer released. -/
theorem C20_startGame_load_failure (c : Controller) (difficulty puzzleIndex : Int)
    (rnd : Nat → Nat) :
    (startGame c difficulty puzzleIndex false rnd).gameState = GameState.MAIN_MENU
      ∧ (startGame c difficulty puzzleIndex false rnd).gameState ≠ GameState.PLAYING
      ∧ (startGame c difficulty puzzleIndex false rnd).puzzle = c.puzzle
      ∧ (startGame c difficulty puzzleIndex false rnd).gameStartTime = c.gameStartTime
      ∧ (startGame c difficulty puzzleIndex false rnd).gameEndTime = c.gameEndTime
      ∧ (startGame c difficulty puzzleIndex false rnd).timerRunning = c.timerRunning
      ∧ (startGame c difficulty puzzleIndex false rnd).isAnimating = c.isAnimating
      ∧ startGame c difficulty puzzleIndex false rnd
          = { c with
              gameState := GameState.MAIN_MENU
              selectedDifficulty := difficulty
              selectedPuzzle := puzzleIndex
              puzzleImageBuffer := false } :=
  ⟨rfl, fun h => GameState.noConfusion h, rfl, rfl, rfl, rfl, rfl, rfl⟩

/-! ## Presses while an animation is in flight; Back and Restart -/

theorem handleGameTouch_animating (c : Controller) (x y : Int) (t : Tick)
    (ha : c.isAnimating = true) : handleGameTouch c x y t = c := by
  unfold handleGameTouch
  split
  · rfl
  · dsimp only
    rw [if_pos ha]

theorem handleGameTouch_back (c : Controller) (pz : SlidingPuzzle) (x y : Int) (t : Tick)
    (hpz : c.puzzle = some pz) (hanim : c.isAnimating = false)
    (hy : y ≥ 480 - BUTTON_BAR_HEIGHT)
    (hback : inRect x y 10 (480 - BUTTON_BAR_HEIGHT + 5) 140 40 = true) :
    handleGameTouch c x y t =
      { c with
        puzzleImageBuffer := false
        puzzle := none
        gameState := GameState.PUZZLE_SELECT } := by
  unfold handleGameTouch
  rw [hpz]
  dsimp only
  rw [if_neg (by rw [hanim]; simp), if_pos hy, if_pos hback]
  rfl

theorem handleGameTouch_restart (c : Controller) (pz : SlidingPuzzle) (x y : Int) (t : Tick)
    (hpz : c.puzzle = some pz) (hanim : c.isAnimating = false)
    (hy : y ≥ 480 - BUTTON_BAR_HEIGHT)
    (hrestart : inRect x y 330 (480 - BUTTON_BAR_HEIGHT + 5) 140 40 = true) :
    handleGameTouch c x y t =
      { c with
        puzzle := some (pz.reset.shuffle (shuffleMovesFor pz.getGridSize) t.rnd)
        gameStartTime := 0
        gameEndTime := 0
        timerRunning := false } := by
  have hnb : ¬ inRect x y 10 (480 - BUTTON_BAR_HEIGHT + 5) 140 40 = true := by
    unfold inRect at hrestart ⊢
    simp only [Bool.and_eq_true, decide_eq_true_eq] at hrestart ⊢
    omega
  unfold handleGameTouch
  rw [hpz]
  dsimp only
  rw [if_neg (by rw [hanim]; simp), if_pos hy, if_neg hnb, if_pos hrestart]

theorem loopAnimation_running (c : Controller) (t : Tick)
    (hstate : c.gameState = GameState.PLAYING) (ha : c.isAnimating = true)
    (hp : c.puzzle ≠ none) (hlt : usub t.animNow c.animStartTime < ANIM_DURATION_MS) :
    loopAnimation c t = c := by
  rw [loopAnimation_eq c t hstate ha, if_neg]
  rw [updateAnimation_fst c t.animNow ha hp]
  omega

/-- A tick in the playing screen on which the animation is still running:
only the feedback flash and the debounce state can change. -/
theorem loop_while_animating (c : Controller) (t : Tick)
    (hstate : c.gameState = GameState.PLAYING) (ha : c.isAnimating = true)
    (hp : c.puzzle ≠ none) (hlt : usub t.animNow c.animStartTime < ANIM_DURATION_MS) :
    loop c t =
      { c with
        flashTile := (loopFlash c t).flashTile
        lastTouchTime := if touchAccepted c t = true then t.now else c.lastTouchTime
        lastTouchState := t.touching } := by
  have hl := loopAnimation_running c t hstate ha hp hlt
  have hfa : (loopFlash c t).isAnimating = true := by
    unfold loopFlash
    split <;> exact ha
  have hfs : (loopFlash c t).gameState = GameState.PLAYING :=
    (loopFlash_fields c t).1.trans hstate
  cases hacc : touchAccepted c t with
  | false =>
    rw [loop_of_not_accepted c t hacc, hl]
    conv_lhs => rw [loopFlash_eq c t]
    rfl
  | true =>
    rw [loop_of_accepted c t hacc, hl,
      dispatchTouch_playing { loopFlash c t with lastTouchTime := t.now } t hfs,
      handleGameTouch_animating { loopFlash c t with lastTouchTime := t.now } _ _ _ hfa]
    conv_lhs => rw [loopFlash_eq c t]
    rfl

/-- C21: while a tile animation is in flight a press is dropped by
`handleGameTouch`, for every touch coordinate (so for every one inside the
grid): the whole state is returned unchanged, in particular the tiles,
`emptyPos`, `moveCount`, the win flag and the animation fields (from, to,
tile, start time).  On a loop tick in Playing on which the animation is still
running, accepted press or not, the puzzle and the animation fields are
unchanged, so no second animation is started and no mutator of the puzzle is
invoked. -/
theorem C21_press_dropped_while_animating (c : Controller) (x y : Int) (t : Tick)
    (hanim : c.isAnimating = true) :
    handleGameTouch c x y t = c
      ∧ (handleGameTouch c x y t).puzzle = c.puzzle
      ∧ (handleGameTouch c x y t).animFromPos = c.animFromPos
      ∧ (handleGameTouch c x y t).animToPos = c.animToPos
      ∧ (handleGameTouch c x y t).animTileNum = c.animTileNum
      ∧ (handleGameTouch c x y t).animStartTime = c.animStartTime
      ∧ (handleGameTouch c x y t).isAnimating = true
      ∧ (c.gameState = GameState.PLAYING → c.puzzle ≠ none →
          usub t.animNow c.animStartTime < ANIM_DURATION_MS →
          (loop c t).puzzle = c.puzzle
            ∧ (loop c t).isAnimating = true
            ∧ (loop c t).animFromPos = c.animFromPos
            ∧ (loop c t).animToPos = c.animToPos
            ∧ (loop c t).animTileNum = c.animTileNum
            ∧ (loop c t).animStartTime = c.animStartTime
            ∧ (loop c t).gameState = GameState.PLAYING) := by
  have h := handleGameTouch_animating c x y t hanim
  refine ⟨h, by rw [h], by rw [h], by rw [h], by rw [h], by rw [h], by rw [h]; exact hanim, ?_⟩
  intro hstate hp hlt
  rw [loop_while_animating c t hstate hanim hp hlt]
  exact ⟨rfl, hanim, rfl, rfl, rfl, rfl, hstate⟩

/-- Witness of C21: the animating 3 x 3 state, press at pixel (350, 200). -/
theorem C21_press_dropped_while_animating_witness :
    animatingSolved3.isAnimating = true
      ∧ (handleGameTouch animatingSolved3 350 200 (pollAt true 350 200 800) = animatingSolved3
        ∧ (handleGameTouch animatingSolved3 350 200 (pollAt true 350 200 800)).puzzle
            = animatingSolved3.puzzle
        ∧ (handleGameTouch animatingSolved3 350 200 (pollAt true 350 200 800)).animFromPos
            = animatingSolved3.animFromPos
        ∧ (handleGameTouch animatingSolved3 350 200 (pollAt true 350 200 800)).animToPos
            = animatingSolved3.animToPos
        ∧ (handleGameTouch animatingSolved3 350 200 (pollAt true 350 200 800)).animTileNum
            = animatingSolved3.animTileNum
        ∧ (handleGameTouch animatingSolved3 350 200 (pollAt true 350 200 800)).animStartTime
            = animatingSolved3.animStartTime
        ∧ (handleGameTouch animatingSolved3 350 200 (pollAt true 350 200 800)).isAnimating = true
        ∧ (animatingSolved3.gameState = GameState.PLAYING → animatingSolved3.puzzle ≠ none →
            usub (pollAt true 350 200 800).animNow animatingSolved3.animStartTime
              < ANIM_DURATION_MS →
            (loop animatingSolved3 (pollAt true 350 200 800)).puzzle = animatingSolved3.puzzle
              ∧ (loop animatingSolved3 (pollAt true 350 200 800)).isAnimating = true
              ∧ (loop animatingSolved3 (pollAt true 350 200 800)).animFromPos
                  = animatingSolved3.animFromPos
              ∧ (loop animatingSolved3 (pollAt true 350 200 800)).animToPos
                  = animatingSolved3.animToPos
              ∧ (loop animatingSolved3 (pollAt true 350 200 800)).animTileNum
                  = animatingSolved3.animTileNum
              ∧ (loop animatingSolved3 (pollAt true 350 200 800)).animStartTime
                  = animatingSolved3.animStartTime
              ∧ (loop animatingSolved3 (pollAt true 350 200 800)).gameState
                  = GameState.PLAYING)) :=
  ⟨by decide,
    C21_press_dropped_while_animating animatingSolved3 350 200 (pollAt true 350 200 800)
      (by decide)⟩

/-- C22 as stated fails: with an animation in flight, a press on the Back
button (pixel (50, 450)) and a press on the Restart button (pixel (400, 450))
are both dropped by `handleGameTouch`; on the tick at clock 800 the debouncer
accepts the press, yet the controller stays in Playing with the same puzzle. -/
theorem C22_buttons_while_animating_counterexample :
    animatingSolved3.gameState = GameState.PLAYING
      ∧ animatingSolved3.isAnimating = true
      ∧ inRect 50 450 10 (480 - BUTTON_BAR_HEIGHT + 5) 140 40 = true
      ∧ inRect 400 450 330 (480 - BUTTON_BAR_HEIGHT + 5) 140 40 = true
      ∧ handleGameTouch animatingSolved3 50 450 (pollAt true 50 450 800) = animatingSolved3
      ∧ handleGameTouch animatingSolved3 400 450 (pollAt true 400 450 800) = animatingSolved3
      ∧ touchAccepted animatingSolved3 (pollAt true 50 450 800) = true
      ∧ (loop animatingSolved3 (pollAt true 50 450 800)).gameState = GameState.PLAYING
      ∧ (loop animatingSolved3 (pollAt true 50 450 800)).puzzle = animatingSolved3.puzzle
      ∧ (loop animatingSolved3 (pollAt true 400 450 800)).puzzle = animatingSolved3.puzzle := by
  decide

/-- C22, amended: while a tile animation is in flight every press that
reaches `handleGameTouch` is blocked, a press on the Back button or on the
Restart button included: the state is returned unchanged.  The two buttons
are acted on only when no animation is in flight: then Back leaves Playing
for the puzzle-select screen (puzzle deleted, image buffer released) and
Restart resets and reshuffles the puzzle. -/
theorem C22_buttons_blocked_while_animating (c : Controller) (pz : SlidingPuzzle) (x y : Int)
    (t : Tick) (hpz : c.puzzle = some pz) (hy : y ≥ 480 - BUTTON_BAR_HEIGHT) :
    (c.isAnimating = true → handleGameTouch c x y t = c)
      ∧ (c.isAnimating = false → inRect x y 10 (480 - BUTTON_BAR_HEIGHT + 5) 140 40 = true →
          (handleGameTouch c x y t).gameState = GameState.PUZZLE_SELECT
            ∧ (handleGameTouch c x y t).puzzle = none
            ∧ (handleGameTouch c x y t).puzzleImageBuffer = false)
      ∧ (c.isAnimating = false → inRect x y 330 (480 - BUTTON_BAR_HEIGHT + 5) 140 40 = true →
          (handleGameTouch c x y t).gameState = c.gameState
            ∧ (handleGameTouch c x y t).puzzle
                = some (pz.reset.shuffle (shuffleMovesFor pz.getGridSize) t.rnd)) := by
  refine ⟨fun ha => handleGameTouch_animating c x y t ha, fun ha hb => ?_, fun ha hr => ?_⟩
  · rw [handleGameTouch_back c pz x y t hpz ha hy hb]
    exact ⟨rfl, rfl, rfl⟩
  · rw [handleGameTouch_restart c pz x y t hpz ha hy hr]
    exact ⟨rfl, rfl⟩

/-- Witness of the amended C22: the animating 3 x 3 state, Back button. -/
theorem C22_buttons_blocked_while_animating_witness :
    animatingSolved3.puzzle = some (((SlidingPuzzle.construct 3).moveTile 7 500).2)
      ∧ (450 : Int) ≥ 480 - BUTTON_BAR_HEIGHT
      ∧ ((animatingSolved3.isAnimating = true → handleGameTouch animatingSolved3 50 450 (pollAt true 50 450 800) = animatingSolved3)
      ∧ (animatingSolved3.isAnimating = false → inRect 50 450 10 (480 - BUTTON_BAR_HEIGHT + 5) 140 40 = true →
          (handleGameTouch animatingSolved3 50 450 (pollAt true 50 450 800)).gameState = GameState.PUZZLE_SELECT
            ∧ (handleGameTouch animatingSolved3 50 450 (pollAt true 50 450 800)).puzzle = none
            ∧ (handleGameTouch animatingSolved3 50 450 (pollAt true 50 450 800)).puzzleImageBuffer = false)
      ∧ (animatingSolved3.isAnimating = false → inRect 50 450 330 (480 - BUTTON_BAR_HEIGHT + 5) 140 40 = true →
          (handleGameTouch animatingSolved3 50 450 (pollAt true 50 450 800)).gameState = animatingSolved3.gameState
            ∧ (handleGameTouch animatingSolved3 50 450 (pollAt true 50 450 800)).puzzle
                = some ((((SlidingPuzzle.construct 3).moveTile 7 500).2).reset.shuffle (shuffleMovesFor (((SlidingPuzzle.construct 3).moveTile 7 500).2).getGridSize) (pollAt true 50 450 800).rnd))) :=
  ⟨by decide, by decide,
    C22_buttons_blocked_while_animating animatingSolved3 (((SlidingPuzzle.construct 3).moveTile 7 500).2) 50 450
      (pollAt true 50 450 800) (by decide) (by decide)⟩

/-- C23: in Playing with no animation running, an accepted press on the
Restart button keeps the controller in Playing on the same puzzle (same grid
size, difficulty and puzzle index), leaves the grid equal to `reset()`
followed by `shuffle(k)` with `k` = 50, 150 or 300 for size 3, 4 or 5, and
clears the score state: `moveCount = 0`, win flag false, `gameStartTime = 0`,
`gameEndTime = 0`, `timerRunning = false`, so `getGameSeconds()` is 0. -/
theorem C23_restart_press (c : Controller) (pz : SlidingPuzzle) (t : Tick)
    (hstate : c.gameState = GameState.PLAYING) (hpz : c.puzzle = some pz)
    (hanim : c.isAnimating = false) (hacc : touchAccepted c t = true)
    (hy : t.y ≥ 480 - BUTTON_BAR_HEIGHT)
    (hrestart : inRect t.x t.y 330 (480 - BUTTON_BAR_HEIGHT + 5) 140 40 = true) :
    (loop c t).gameState = GameState.PLAYING
      ∧ (loop c t).selectedDifficulty = c.selectedDifficulty
      ∧ (loop c t).selectedPuzzle = c.selectedPuzzle
      ∧ (loop c t).puzzle = some (pz.reset.shuffle (shuffleMovesFor pz.getGridSize) t.rnd)
      ∧ (pz.reset.shuffle (shuffleMovesFor pz.getGridSize) t.rnd).getGridSize = pz.getGridSize
      ∧ (shuffleMovesFor 3 = 50 ∧ shuffleMovesFor 4 = 150 ∧ shuffleMovesFor 5 = 300)
      ∧ (pz.reset.shuffle (shuffleMovesFor pz.getGridSize) t.rnd).getMoveCount = 0
      ∧ (pz.reset.shuffle (shuffleMovesFor pz.getGridSize) t.rnd).isWon = false
      ∧ (loop c t).gameStartTime = 0
      ∧ (loop c t).gameEndTime = 0
      ∧ (loop c t).timerRunning = false
      ∧ (loop c t).isAnimating = false
      ∧ (∀ now : Nat, getGameSeconds (loop c t) now = 0) := by
  have hl := loop_playing_press c t hstate hanim hacc
  have hv := handleGameTouch_restart
    { c with flashTile := (loopFlash c t).flashTile, lastTouchTime := t.now } pz t.x t.y t
    hpz hanim hy hrestart
  rw [hv] at hl
  rw [hl]
  refine ⟨hstate, rfl, rfl, rfl, SlidingPuzzle.shuffleLoop_gridSize _ _ _,
    ⟨by decide, by decide, by decide⟩, rfl, rfl, rfl, rfl, rfl, hanim, fun now => ?_⟩
  unfold getGameSeconds
  rw [if_pos ⟨rfl, rfl⟩]

/-- Witness of C23: the solved 3 x 3 playing state, press at pixel (400, 450). -/
theorem C23_restart_press_witness :
    playingSolved3.gameState = GameState.PLAYING
      ∧ playingSolved3.puzzle = some (SlidingPuzzle.construct 3)
      ∧ playingSolved3.isAnimating = false
      ∧ touchAccepted playingSolved3 (pollAt true 400 450 2000) = true
      ∧ (pollAt true 400 450 2000).y ≥ 480 - BUTTON_BAR_HEIGHT
      ∧ inRect (pollAt true 400 450 2000).x (pollAt true 400 450 2000).y 330 (480 - BUTTON_BAR_HEIGHT + 5) 140 40 = true
      ∧ ((loop playingSolved3 (pollAt true 400 450 2000)).gameState = GameState.PLAYING
      ∧ (loop playingSolved3 (pollAt true 400 450 2000)).selectedDifficulty = playingSolved3.selectedDifficulty
      ∧ (loop playingSolved3 (pollAt true 400 450 2000)).selectedPuzzle = playingSolved3.selectedPuzzle
      ∧ (loop playingSolved3 (pollAt true 400 450 2000)).puzzle = some ((SlidingPuzzle.construct 3).reset.shuffle (shuffleMovesFor (SlidingPuzzle.construct 3).getGridSize) (pollAt true 400 450 2000).rnd)
      ∧ ((SlidingPuzzle.construct 3).reset.shuffle (shuffleMovesFor (SlidingPuzzle.construct 3).getGridSize) (pollAt true 400 450 2000).rnd).getGridSize = (SlidingPuzzle.construct 3).getGridSize
      ∧ (shuffleMovesFor 3 = 50 ∧ shuffleMovesFor 4 = 150 ∧ shuffleMovesFor 5 = 300)
      ∧ ((SlidingPuzzle.construct 3).reset.shuffle (shuffleMovesFor (SlidingPuzzle.construct 3).getGridSize) (pollAt true 400 450 2000).rnd).getMoveCount = 0
      ∧ ((SlidingPuzzle.construct 3).reset.shuffle (shuffleMovesFor (SlidingPuzzle.construct 3).getGridSize) (pollAt true 400 450 2000).rnd).isWon = false
      ∧ (loop playingSolved3 (pollAt true 400 450 2000)).gameStartTime = 0
      ∧ (loop playingSolved3 (pollAt true 400 450 2000)).gameEndTime = 0
      ∧ (loop playingSolved3 (pollAt true 400 450 2000)).timerRunning = false
      ∧ (loop playingSolved3 (pollAt true 400 450 2000)).isAnimating = false
      ∧ (∀ now : Nat, getGameSeconds (loop playingSolved3 (pollAt true 400 450 2000)) now = 0)) :=
  ⟨by decide, by decide, by decide, by decide, by decide, by decide,
    C23_restart_press playingSolved3 (SlidingPuzzle.construct 3) (pollAt true 400 450 2000)
      (by decide) (by decide) (by decide) (by decide) (by decide) (by decide)⟩

/-! ## The animation over a run of ticks -/

theorem runTicks_append (c : Controller) (a b : List Tick) :
    runTicks c (a ++ b) = runTicks (runTicks c a) b := by
  induction a generalizing c with
  | nil => rfl
  | cons t a ih => exact ih (loop c t)

theorem animationReports_append (c : Controller) (a b : List Tick) :
    animationReports c (a ++ b) = animationReports c a ++ animationReports (runTicks c a) b := by
  induction a generalizing c with
  | nil => rfl
  | cons t a ih =>
    show _ :: animationReports (loop c t) (a ++ b) = _ :: (_ ++ _)
    rw [ih (loop c t)]
    rfl

/-- While every poll finds the animation younger than `ANIM_DURATION_MS`, each
poll reports "not complete" and the animation stays as it was started. -/
theorem animationReports_running (pre : List Tick) (c : Controller)
    (hstate : c.gameState = GameState.PLAYING) (ha : c.isAnimating = true)
    (hp : c.puzzle ≠ none)
    (hpre : ∀ u ∈ pre, usub u.animNow c.animStartTime < ANIM_DURATION_MS) :
    animationReports c pre = pre.map (fun _ => some false)
      ∧ (runTicks c pre).gameState = GameState.PLAYING
      ∧ (runTicks c pre).isAnimating = true
      ∧ (runTicks c pre).puzzle = c.puzzle
      ∧ (runTicks c pre).animStartTime = c.animStartTime
      ∧ (runTicks c pre).animFromPos = c.animFromPos
      ∧ (runTicks c pre).animToPos = c.animToPos
      ∧ (runTicks c pre).animTileNum = c.animTileNum := by
  induction pre generalizing c with
  | nil => exact ⟨rfl, hstate, ha, rfl, rfl, rfl, rfl, rfl⟩
  | cons u pre ih =>
    have hu := hpre u (List.mem_cons_self _ _)
    have hl := loop_while_animating c u hstate ha hp hu
    have hf : (updateAnimation c u.animNow).1 = false := by
      cases h : (updateAnimation c u.animNow).1 with
      | false => rfl
      | true =>
        have := (updateAnimation_fst c u.animNow ha hp).1 h
        omega
    have h2 := ih (loop c u) (by rw [hl]; exact hstate) (by rw [hl]; exact ha)
      (by rw [hl]; exact hp)
      (by
        intro v hv
        rw [hl]
        exact hpre v (List.mem_cons_of_mem _ hv))
    obtain ⟨r1, r2, r3, r4, r5, r6, r7, r8⟩ := h2
    simp only [animationReports, runTicks, List.map_cons]
    rw [if_pos ⟨hstate, ha⟩, hf, r1]
    refine ⟨rfl, r2, r3, ?_, ?_, ?_, ?_, ?_⟩
    · rw [r4, hl]
    · rw [r5, hl]
    · rw [r6, hl]
    · rw [r7, hl]
    · rw [r8, hl]

theorem loop_idle_no_touch (d : Controller) (u : Tick) (hd : d.isAnimating = false)
    (hu : u.touching = false) : (loop d u).isAnimating = false := by
  have hna : touchAccepted d u = false := by
    unfold touchAccepted
    rw [hu]
    rfl
  rw [loop_of_not_accepted d u hna, loopAnimation_of_not_animating d u hd]
  show (loopFlash d u).isAnimating = false
  unfold loopFlash
  split <;> exact hd

theorem animationReports_idle (post : List Tick) (d : Controller) (hd : d.isAnimating = false)
    (hpost : ∀ u ∈ post, u.touching = false) :
    animationReports d post = post.map (fun _ => none) := by
  induction post generalizing d with
  | nil => rfl
  | cons u post ih =>
    simp only [animationReports, List.map_cons]
    rw [if_neg (by rw [hd]; simp),
      ih (loop d u) (loop_idle_no_touch d u hd (hpost u (List.mem_cons_self _ _)))
        (fun v hv => hpost v (List.mem_cons_of_mem _ hv))]

theorem loopAnimation_complete (c : Controller) (t : Tick)
    (hstate : c.gameState = GameState.PLAYING) (ha : c.isAnimating = true)
    (hp : c.puzzle ≠ none) (hge : usub t.animNow c.animStartTime ≥ ANIM_DURATION_MS) :
    (updateAnimation c t.animNow).1 = true ∧ (loopAnimation c t).isAnimating = false := by
  have h1 := (updateAnimation_fst c t.animNow ha hp).2 hge
  refine ⟨h1, ?_⟩
  rcases loopAnimation_cases c t hstate with ⟨-, he⟩ | ⟨hn, he | he⟩
  · rw [he]
  · rw [loopAnimation_eq c t hstate ha, if_pos h1]
    cases hq : c.puzzle with
    | none => rfl
    | some pz =>
      dsimp only
      split <;> rfl
  · rw [he]

theorem animProgress_bounds (c : Controller) (now : Nat)
    (h : usub now c.animStartTime < ANIM_DURATION_MS) :
    0 ≤ animProgress c now ∧ animProgress c now < 1 := by
  unfold animProgress
  have hpos : (0 : ℚ) < (ANIM_DURATION_MS : ℚ) := by
    unfold ANIM_DURATION_MS
    norm_num
  constructor
  · exact div_nonneg (Nat.cast_nonneg _) (le_of_lt hpos)
  · rw [div_lt_one hpos]
    exact_mod_cast h

theorem animProgress_mono (c : Controller) (a b : Nat) (hs : c.animStartTime ≤ a)
    (hab : a ≤ b) (hb : b < 4294967296) : animProgress c a ≤ animProgress c b := by
  unfold animProgress
  have hpos : (0 : ℚ) < (ANIM_DURATION_MS : ℚ) := by
    unfold ANIM_DURATION_MS
    norm_num
  apply div_le_div_of_nonneg_right _ (le_of_lt hpos)
  rw [usub_of_le a _ hs (by omega), usub_of_le b _ (by omega) hb]
  exact_mod_cast Nat.sub_le_sub_right hab _


/-- Claim C24. A started tile animation (state `PLAYING`, `isAnimating`, a live
puzzle) polled by `loop` over the ticks `pre ++ t :: post`, where every poll of
`pre` reads a clock less than `ANIM_DURATION_MS` after `animStartTime` and `t`
is the first poll that reads at least `ANIM_DURATION_MS` after it: every poll
of `pre` reports "not complete" and leaves the animation as started, the poll
of `t` reports completion and leaves the animation idle, and no later poll
reports anything as long as no touch arrives to start a new animation.  On
every poll of `pre` the progress fraction `(now - animStartTime) / 180` (taken
as an exact quotient; the program rounds it to a `float`) lies in `[0, 1)`, and
it does not decrease when the clock reading does not decrease. -/
theorem C24_animation_completes_once (c : Controller) (pre post : List Tick) (t : Tick)
    (hstate : c.gameState = GameState.PLAYING) (hanim : c.isAnimating = true)
    (hp : c.puzzle ≠ none)
    (hpre : ∀ u ∈ pre, usub u.animNow c.animStartTime < ANIM_DURATION_MS)
    (ht : usub t.animNow c.animStartTime ≥ ANIM_DURATION_MS) :
    animationReports c pre = pre.map (fun _ => some false)
      ∧ (runTicks c pre).isAnimating = true
      ∧ (runTicks c pre).animStartTime = c.animStartTime
      ∧ animationReports c (pre ++ [t]) = pre.map (fun _ => some false) ++ [some true]
      ∧ (loopAnimation (runTicks c pre) t).isAnimating = false
      ∧ ((∀ u ∈ t :: post, u.touching = false) →
          animationReports c (pre ++ t :: post)
            = pre.map (fun _ => some false) ++ some true :: post.map (fun _ => none))
      ∧ (∀ u ∈ pre, 0 ≤ animProgress c u.animNow ∧ animProgress c u.animNow < 1)
      ∧ (∀ a b : Nat, c.animStartTime ≤ a → a ≤ b → b < 4294967296 →
          animProgress c a ≤ animProgress c b) := by
  obtain ⟨r1, r2, r3, r4, r5, -, -, -⟩ := animationReports_running pre c hstate hanim hp hpre
  have hp2 : (runTicks c pre).puzzle ≠ none := by rw [r4]; exact hp
  have ht2 : usub t.animNow (runTicks c pre).animStartTime ≥ ANIM_DURATION_MS := by
    rw [r5]; exact ht
  obtain ⟨k1, k2⟩ := loopAnimation_complete (runTicks c pre) t r2 r3 hp2 ht2
  have hentry : ∀ rest : List Tick, animationReports (runTicks c pre) (t :: rest)
      = some true :: animationReports (loop (runTicks c pre) t) rest := by
    intro rest
    simp only [animationReports]
    rw [if_pos ⟨r2, r3⟩, k1]
  refine ⟨r1, r3, r5, ?_, k2, ?_, ?_, ?_⟩
  · rw [animationReports_append, r1, hentry]
    rfl
  · intro hq
    have htq : t.touching = false := hq t (List.mem_cons_self _ _)
    have hidle : (loop (runTicks c pre) t).isAnimating = false := by
      have hna : touchAccepted (runTicks c pre) t = false := by
        unfold touchAccepted
        rw [htq]
        rfl
      rw [loop_of_not_accepted _ t hna]
      show (loopFlash (loopAnimation (runTicks c pre) t) t).isAnimating = false
      unfold loopFlash
      split <;> exact k2
    rw [animationReports_append, r1, hentry,
      animationReports_idle post _ hidle (fun v hv => hq v (List.mem_cons_of_mem _ hv))]
  · intro u hu
    exact animProgress_bounds c u.animNow (hpre u hu)
  · intro a b hs hab hb
    exact animProgress_mono c a b hs hab hb

/-- Witness for C24: the animation started at clock 700 in `animatingSolved3`,
polled at 800 (running), 900 (complete) and 950 (idle). -/
theorem C24_animation_completes_once_witness :
    animatingSolved3.gameState = GameState.PLAYING
      ∧ animatingSolved3.isAnimating = true
      ∧ animatingSolved3.puzzle ≠ none
      ∧ (∀ u ∈ [pollAt false 0 0 800],
          usub u.animNow animatingSolved3.animStartTime < ANIM_DURATION_MS)
      ∧ usub (pollAt false 0 0 900).animNow animatingSolved3.animStartTime ≥ ANIM_DURATION_MS
      ∧ (animationReports animatingSolved3 [pollAt false 0 0 800]
            = [pollAt false 0 0 800].map (fun _ => some false)
          ∧ (runTicks animatingSolved3 [pollAt false 0 0 800]).isAnimating = true
          ∧ (runTicks animatingSolved3 [pollAt false 0 0 800]).animStartTime
              = animatingSolved3.animStartTime
          ∧ animationReports animatingSolved3 ([pollAt false 0 0 800] ++ [pollAt false 0 0 900])
              = [pollAt false 0 0 800].map (fun _ => some false) ++ [some true]
          ∧ (loopAnimation (runTicks animatingSolved3 [pollAt false 0 0 800])
                (pollAt false 0 0 900)).isAnimating = false
          ∧ ((∀ u ∈ pollAt false 0 0 900 :: [pollAt false 0 0 950], u.touching = false) →
              animationReports animatingSolved3
                  ([pollAt false 0 0 800] ++ pollAt false 0 0 900 :: [pollAt false 0 0 950])
                = [pollAt false 0 0 800].map (fun _ => some false)
                    ++ some true :: [pollAt false 0 0 950].map (fun _ => none))
          ∧ (∀ u ∈ [pollAt false 0 0 800],
              0 ≤ animProgress animatingSolved3 u.animNow
                ∧ animProgress animatingSolved3 u.animNow < 1)
          ∧ (∀ a b : Nat, animatingSolved3.animStartTime ≤ a → a ≤ b → b < 4294967296 →
              animProgress animatingSolved3 a ≤ animProgress animatingSolved3 b)) :=
  ⟨by decide, by decide, by decide, by decide, by decide,
    C24_animation_completes_once animatingSolved3 [pollAt false 0 0 800]
      [pollAt false 0 0 950] (pollAt false 0 0 900)
      (by decide) (by decide) (by decide) (by decide) (by decide)⟩


/-! ## No animation outside `PLAYING` -/

theorem loopAnimation_confined (c : Controller) (t : Tick)
    (h : c.isAnimating = true → c.gameState = GameState.PLAYING ∧ c.puzzle ≠ none) :
    (loopAnimation c t).isAnimating = true →
      (loopAnimation c t).gameState = GameState.PLAYING ∧ (loopAnimation c t).puzzle ≠ none := by
  unfold loopAnimation
  split
  · dsimp only
    split
    · split
      · split
        · intro h2
          cases h2
        · intro h2
          cases h2
      · intro h2
        cases h2
    · rename_i hr
      have hsnd : (updateAnimation c t.animNow).2 = c := by
        unfold updateAnimation at hr ⊢
        split
        · rfl
        · dsimp only at hr ⊢
          split
          · rename_i hge
            rw [if_neg (by assumption), if_pos hge] at hr
            exact absurd rfl hr
          · rfl
      rw [hsnd]
      exact h
  · exact h

theorem loopFlash_confined (c : Controller) (t : Tick)
    (h : c.isAnimating = true → c.gameState = GameState.PLAYING ∧ c.puzzle ≠ none) :
    (loopFlash c t).isAnimating = true →
      (loopFlash c t).gameState = GameState.PLAYING ∧ (loopFlash c t).puzzle ≠ none := by
  unfold loopFlash
  split
  · exact h
  · exact h

theorem startGame_confined (c : Controller) (d i : Int) (ok : Bool) (rnd : Nat → Nat)
    (h : c.isAnimating = false) : (startGame c d i ok rnd).isAnimating = false := by
  unfold startGame
  cases ok <;> simp [showMainMenu, h]

theorem handleGameTouch_confined (c : Controller) (x y : Int) (t : Tick)
    (h : c.isAnimating = true → c.gameState = GameState.PLAYING ∧ c.puzzle ≠ none)
    (hstate : c.gameState = GameState.PLAYING) :
    (handleGameTouch c x y t).isAnimating = true →
      (handleGameTouch c x y t).gameState = GameState.PLAYING
        ∧ (handleGameTouch c x y t).puzzle ≠ none := by
  unfold handleGameTouch
  split
  · exact h
  · rename_i pz hpz
    split
    · exact h
    · rename_i hna
      have hna2 : c.isAnimating = false := by
        cases hc : c.isAnimating with
        | false => rfl
        | true => exact absurd hc hna
      dsimp only
      split
      · split
        · intro h2
          exact absurd (hna2.symm.trans h2) (by decide)
        · split
          · intro h2
            exact absurd (hna2.symm.trans h2) (by decide)
          · exact h
      · split
        · exact h
        · split
          · intro _
            refine ⟨?_, by simp⟩
            show (if _ then _ else _ : Controller).gameState = GameState.PLAYING
            split <;> exact hstate
          · intro h2
            exact absurd (hna2.symm.trans h2) (by decide)

theorem dispatchTouch_confined (c : Controller) (t : Tick)
    (h : c.isAnimating = true → c.gameState = GameState.PLAYING ∧ c.puzzle ≠ none) :
    (dispatchTouch c t).isAnimating = true →
      (dispatchTouch c t).gameState = GameState.PLAYING ∧ (dispatchTouch c t).puzzle ≠ none := by
  cases hs : c.gameState with
  | PLAYING =>
    rw [dispatchTouch_playing c t hs]
    exact handleGameTouch_confined c t.x t.y t h hs
  | MAIN_MENU =>
    have hna : c.isAnimating = false := by
      cases hc : c.isAnimating with
      | false => rfl
      | true => exact absurd ((h hc).1.symm.trans hs) (by decide)
    have : (dispatchTouch c t).isAnimating = false := by
      unfold dispatchTouch
      rw [hs]
      show (handleMenuTouch c t.x t.y).isAnimating = false
      unfold handleMenuTouch
      dsimp only
      split
      · exact hna
      · split
        · exact hna
        · split
          · exact hna
          · exact hna
    intro h2
    exact absurd (this.symm.trans h2) (by decide)
  | PUZZLE_SELECT =>
    have hna : c.isAnimating = false := by
      cases hc : c.isAnimating with
      | false => rfl
      | true => exact absurd ((h hc).1.symm.trans hs) (by decide)
    have : (dispatchTouch c t).isAnimating = false := by
      unfold dispatchTouch
      rw [hs]
      show (handlePuzzleSelectTouch c t.x t.y t).isAnimating = false
      unfold handlePuzzleSelectTouch
      split
      · exact hna
      · dsimp only
        split
        · exact startGame_confined c _ _ _ _ hna
        · exact hna
    intro h2
    exact absurd (this.symm.trans h2) (by decide)
  | WIN_SCREEN =>
    have hna : c.isAnimating = false := by
      cases hc : c.isAnimating with
      | false => rfl
      | true => exact absurd ((h hc).1.symm.trans hs) (by decide)
    have : (dispatchTouch c t).isAnimating = false := by
      rw [dispatchTouch_win c t hs]
      unfold handleWinTouch
      split
      · exact startGame_confined c _ _ _ _ hna
      · split
        · exact hna
        · exact hna
    intro h2
    exact absurd (this.symm.trans h2) (by decide)

theorem loopTouch_confined (c : Controller) (t : Tick)
    (h : c.isAnimating = true → c.gameState = GameState.PLAYING ∧ c.puzzle ≠ none) :
    (loopTouch c t).isAnimating = true →
      (loopTouch c t).gameState = GameState.PLAYING ∧ (loopTouch c t).puzzle ≠ none := by
  unfold loopTouch
  dsimp only
  split
  · exact dispatchTouch_confined { c with lastTouchTime := t.now } t h
  · exact h

theorem loop_confined (c : Controller) (t : Tick)
    (h : c.isAnimating = true → c.gameState = GameState.PLAYING ∧ c.puzzle ≠ none) :
    (loop c t).isAnimating = true →
      (loop c t).gameState = GameState.PLAYING ∧ (loop c t).puzzle ≠ none :=
  loopTouch_confined _ t (loopFlash_confined _ t (loopAnimation_confined c t h))

theorem runTicks_confined (ticks : List Tick) (c : Controller)
    (h : c.isAnimating = true → c.gameState = GameState.PLAYING ∧ c.puzzle ≠ none) :
    (runTicks c ticks).isAnimating = true →
      (runTicks c ticks).gameState = GameState.PLAYING ∧ (runTicks c ticks).puzzle ≠ none := by
  induction ticks generalizing c with
  | nil => exact h
  | cons t rest ih => exact ih (loop c t) (loop_confined c t h)

/-- Claim C25. In every controller state reached from start-up by any run of
`loop()` ticks (any touch samples, clock readings, random outcomes and
image-load results): when the game state is not `PLAYING` no animation is in
flight, and an animation in flight implies the state is `PLAYING` with a live
puzzle. -/
theorem C25_no_animation_outside_playing (ticks : List Tick) :
    ((runTicks initialController ticks).gameState ≠ GameState.PLAYING →
        (runTicks initialController ticks).isAnimating = false)
      ∧ ((runTicks initialController ticks).isAnimating = true →
          (runTicks initialController ticks).gameState = GameState.PLAYING
            ∧ (runTicks initialController ticks).puzzle ≠ none) := by
  have h := runTicks_confined ticks initialController (fun h0 => by cases h0)
  refine ⟨?_, h⟩
  intro hne
  cases hc : (runTicks initialController ticks).isAnimating with
  | false => rfl
  | true => exact absurd (h hc).1 hne


/-! ## Touch geometry -/

theorem boardSlot_drawnTile (size p x y : Int) (hsize : size = 3 ∨ size = 4 ∨ size = 5)
    (hp0 : 0 ≤ p) (hp1 : p < size * size)
    (hx0 : (drawnTileOrigin size p).1 ≤ x)
    (hx1 : x < (drawnTileOrigin size p).1 + Int.tdiv GAME_AREA_SIZE size)
    (hy0 : (drawnTileOrigin size p).2 ≤ y)
    (hy1 : y < (drawnTileOrigin size p).2 + Int.tdiv GAME_AREA_SIZE size) :
    y < 480 - BUTTON_BAR_HEIGHT ∧ boardSlot size x y = some p := by
  have hd : Int.tdiv p size = p / size := by
    rcases hsize with h | h | h <;> subst h <;> exact Int.tdiv_eq_ediv hp0 (by norm_num)
  have hm : Int.tmod p size = p % size := by
    rcases hsize with h | h | h <;> subst h <;> exact Int.tmod_eq_emod hp0 (by norm_num)
  unfold drawnTileOrigin at hx0 hx1 hy0 hy1
  dsimp only at hx0 hx1 hy0 hy1
  rw [hm] at hx0 hx1
  rw [hd] at hy0 hy1
  unfold boardSlot
  dsimp only
  rcases hsize with h | h | h
  · subst h
    have e1 : Int.tdiv GAME_AREA_SIZE 3 = 130 := by decide
    have e2 : Int.tdiv (480 - 130 * 3) 2 = 45 := by decide
    have e3 : GAME_AREA_Y + Int.tdiv (GAME_AREA_SIZE - 130 * 3) 2 = 40 := by decide
    have e4 : (480 : Int) - BUTTON_BAR_HEIGHT = 430 := by decide
    rw [e1] at hx0 hx1 hy0 hy1 ⊢
    rw [e2] at hx0 hx1 ⊢
    rw [e3] at hy0 hy1 ⊢
    rw [e4]
    rw [if_neg (by omega), Int.tdiv_eq_ediv (by omega) (by norm_num),
      Int.tdiv_eq_ediv (by omega) (by norm_num)]
    refine ⟨by omega, ?_⟩
    congr 1
    omega
  · subst h
    have e1 : Int.tdiv GAME_AREA_SIZE 4 = 97 := by decide
    have e2 : Int.tdiv (480 - 97 * 4) 2 = 46 := by decide
    have e3 : GAME_AREA_Y + Int.tdiv (GAME_AREA_SIZE - 97 * 4) 2 = 41 := by decide
    have e4 : (480 : Int) - BUTTON_BAR_HEIGHT = 430 := by decide
    rw [e1] at hx0 hx1 hy0 hy1 ⊢
    rw [e2] at hx0 hx1 ⊢
    rw [e3] at hy0 hy1 ⊢
    rw [e4]
    rw [if_neg (by omega), Int.tdiv_eq_ediv (by omega) (by norm_num),
      Int.tdiv_eq_ediv (by omega) (by norm_num)]
    refine ⟨by omega, ?_⟩
    congr 1
    omega
  · subst h
    have e1 : Int.tdiv GAME_AREA_SIZE 5 = 78 := by decide
    have e2 : Int.tdiv (480 - 78 * 5) 2 = 45 := by decide
    have e3 : GAME_AREA_Y + Int.tdiv (GAME_AREA_SIZE - 78 * 5) 2 = 40 := by decide
    have e4 : (480 : Int) - BUTTON_BAR_HEIGHT = 430 := by decide
    rw [e1] at hx0 hx1 hy0 hy1 ⊢
    rw [e2] at hx0 hx1 ⊢
    rw [e3] at hy0 hy1 ⊢
    rw [e4]
    rw [if_neg (by omega), Int.tdiv_eq_ediv (by omega) (by norm_num),
      Int.tdiv_eq_ediv (by omega) (by norm_num)]
    refine ⟨by omega, ?_⟩
    congr 1
    omega


/-- Claim C26. For a grid size in {3, 4, 5}, a slot `p` of the grid and a pixel
`(x, y)` inside the square where `drawGameScreen` / `drawTile` draw slot `p`:
the pixel lies above the button bar, the slot computation of
`handleGameTouch` yields `p`, and `handleGameTouch` (with a live puzzle of that
size and no animation in flight) acts on slot `p`: it flashes slot `p`, and
when tile `p` can move it is tile `p` that is moved. -/
theorem C26_touch_inverts_layout (c : Controller) (pz : SlidingPuzzle) (t : Tick)
    (size p x y : Int) (hsize : size = 3 ∨ size = 4 ∨ size = 5)
    (hp0 : 0 ≤ p) (hp1 : p < size * size)
    (hx0 : (drawnTileOrigin size p).1 ≤ x)
    (hx1 : x < (drawnTileOrigin size p).1 + Int.tdiv GAME_AREA_SIZE size)
    (hy0 : (drawnTileOrigin size p).2 ≤ y)
    (hy1 : y < (drawnTileOrigin size p).2 + Int.tdiv GAME_AREA_SIZE size)
    (hpz : c.puzzle = some pz) (hg : pz.getGridSize = size) (hna : c.isAnimating = false) :
    y < 480 - BUTTON_BAR_HEIGHT
      ∧ boardSlot pz.getGridSize x y = some p
      ∧ (handleGameTouch c x y t).flashTile = p
      ∧ (pz.canMove p = true →
          (handleGameTouch c x y t).puzzle = some (pz.moveTile p t.moveNow).2
            ∧ (handleGameTouch c x y t).animFromPos = p) := by
  obtain ⟨h1, h2⟩ := boardSlot_drawnTile size p x y hsize hp0 hp1 hx0 hx1 hy0 hy1
  rw [← hg] at h2
  refine ⟨h1, h2, ?_, ?_⟩
  · cases hcan : pz.canMove p with
    | true => rw [handleGameTouch_valid c pz x y t p hpz hna h1 h2 hcan]
    | false => rw [handleGameTouch_invalid c pz x y t p hpz hna h1 h2 hcan]
  · intro hcan
    rw [handleGameTouch_valid c pz x y t p hpz hna h1 h2 hcan]
    exact ⟨rfl, rfl⟩

/-- Witness for C26: slot 5 of the 3 x 3 grid is drawn at (305, 170) with side
130; the pixel (350, 200) is mapped back to slot 5. -/
theorem C26_touch_inverts_layout_witness :
    ((3 : Int) = 3 ∨ (3 : Int) = 4 ∨ (3 : Int) = 5)
      ∧ (0 : Int) ≤ 5
      ∧ (5 : Int) < 3 * 3
      ∧ (drawnTileOrigin 3 5).1 ≤ 350
      ∧ 350 < (drawnTileOrigin 3 5).1 + Int.tdiv GAME_AREA_SIZE 3
      ∧ (drawnTileOrigin 3 5).2 ≤ 200
      ∧ 200 < (drawnTileOrigin 3 5).2 + Int.tdiv GAME_AREA_SIZE 3
      ∧ playingSolved3.puzzle = some (SlidingPuzzle.construct 3)
      ∧ (SlidingPuzzle.construct 3).getGridSize = 3
      ∧ playingSolved3.isAnimating = false
      ∧ ((200 : Int) < 480 - BUTTON_BAR_HEIGHT
          ∧ boardSlot (SlidingPuzzle.construct 3).getGridSize 350 200 = some 5
          ∧ (handleGameTouch playingSolved3 350 200 (pollAt true 350 200 1000)).flashTile = 5
          ∧ ((SlidingPuzzle.construct 3).canMove 5 = true →
              (handleGameTouch playingSolved3 350 200 (pollAt true 350 200 1000)).puzzle
                  = some ((SlidingPuzzle.construct 3).moveTile 5
                      (pollAt true 350 200 1000).moveNow).2
                ∧ (handleGameTouch playingSolved3 350 200
                    (pollAt true 350 200 1000)).animFromPos = 5)) :=
  ⟨by decide, by decide, by decide, by decide, by decide, by decide, by decide, by decide,
    by decide, by decide,
    C26_touch_inverts_layout playingSolved3 (SlidingPuzzle.construct 3)
      (pollAt true 350 200 1000) 3 5 350 200
      (by decide) (by decide) (by decide) (by decide) (by decide) (by decide) (by decide)
      (by decide) (by decide) (by decide)⟩


/-! ## A shuffle that comes back to the solved grid -/

/-- When the random outcomes repeat with period 2 and the first two iterations
of the loop of `shuffle` bring the puzzle back to where it was, an even number
of iterations leaves the puzzle where it was. -/
theorem shuffleLoop_two_cycle (p : SlidingPuzzle) (rnd : Nat → Nat)
    (hrnd : ∀ k, rnd (k + 2) = rnd k) (h1 : p.validMoves ≠ [])
    (h2 : (p.swapWithEmpty (p.validMoves.getD (rnd 0 % p.validMoves.length) 0)).validMoves ≠ [])
    (hback :
      (p.swapWithEmpty (p.validMoves.getD (rnd 0 % p.validMoves.length) 0)).swapWithEmpty
          ((p.swapWithEmpty (p.validMoves.getD (rnd 0 % p.validMoves.length) 0)).validMoves.getD
            (rnd 1 %
              (p.swapWithEmpty
                (p.validMoves.getD (rnd 0 % p.validMoves.length) 0)).validMoves.length) 0)
        = p)
    (k : Nat) : SlidingPuzzle.shuffleLoop (2 * k) rnd p = p := by
  induction k with
  | zero => rfl
  | succ k ih =>
    have e : 2 * (k + 1) = 2 * k + 1 + 1 := by ring
    have hr : (fun i => (fun j => rnd (j + 1)) (i + 1)) = rnd := by
      funext i
      exact hrnd i
    rw [e, SlidingPuzzle.shuffleLoop_succ p h1, SlidingPuzzle.shuffleLoop_succ _ h2, hr]
    show SlidingPuzzle.shuffleLoop (2 * k) rnd
      ((p.swapWithEmpty (p.validMoves.getD (rnd 0 % p.validMoves.length) 0)).swapWithEmpty
          ((p.swapWithEmpty (p.validMoves.getD (rnd 0 % p.validMoves.length) 0)).validMoves.getD
            (rnd 1 %
              (p.swapWithEmpty
                (p.validMoves.getD (rnd 0 % p.validMoves.length) 0)).validMoves.length) 0)) = p
    rw [hback, ih]

theorem shuffle_alternating_3 (k : Nat) :
    SlidingPuzzle.shuffleLoop (2 * k) (fun i => i % 2) (SlidingPuzzle.construct 3)
      = SlidingPuzzle.construct 3 :=
  shuffleLoop_two_cycle (SlidingPuzzle.construct 3) (fun i => i % 2)
    (fun i => by show (i + 2) % 2 = i % 2; omega) (by decide) (by decide) (by decide) k

theorem shuffle_alternating_4 (k : Nat) :
    SlidingPuzzle.shuffleLoop (2 * k) (fun i => i % 2) (SlidingPuzzle.construct 4)
      = SlidingPuzzle.construct 4 :=
  shuffleLoop_two_cycle (SlidingPuzzle.construct 4) (fun i => i % 2)
    (fun i => by show (i + 2) % 2 = i % 2; omega) (by decide) (by decide) (by decide) k

theorem shuffle_alternating_5 (k : Nat) :
    SlidingPuzzle.shuffleLoop (2 * k) (fun i => i % 2) (SlidingPuzzle.construct 5)
      = SlidingPuzzle.construct 5 :=
  shuffleLoop_two_cycle (SlidingPuzzle.construct 5) (fun i => i % 2)
    (fun i => by show (i + 2) % 2 = i % 2; omega) (by decide) (by decide) (by decide) k


theorem shuffle_solved_3 (p : SlidingPuzzle) (hg : p.gridSize = 3) :
    p.reset.shuffle 50 (fun i => i % 2) = SlidingPuzzle.construct 3 := by
  have h : ((50 : Int).toNat) = 2 * 25 := by decide
  rw [SlidingPuzzle.reset_eq_construct, hg]
  unfold SlidingPuzzle.shuffle
  dsimp only
  rw [h, shuffle_alternating_3]
  decide

theorem shuffle_solved_4 (p : SlidingPuzzle) (hg : p.gridSize = 4) :
    p.reset.shuffle 150 (fun i => i % 2) = SlidingPuzzle.construct 4 := by
  have h : ((150 : Int).toNat) = 2 * 75 := by decide
  rw [SlidingPuzzle.reset_eq_construct, hg]
  unfold SlidingPuzzle.shuffle
  dsimp only
  rw [h, shuffle_alternating_4]
  decide

theorem shuffle_solved_5 (p : SlidingPuzzle) (hg : p.gridSize = 5) :
    p.reset.shuffle 300 (fun i => i % 2) = SlidingPuzzle.construct 5 := by
  have h : ((300 : Int).toNat) = 2 * 150 := by decide
  rw [SlidingPuzzle.reset_eq_construct, hg]
  unfold SlidingPuzzle.shuffle
  dsimp only
  rw [h, shuffle_alternating_5]
  decide

/-- Claim C27. There is a sequence of random outcomes (0, 1, 0, 1, ...: the
empty slot goes up and comes back down) for which `reset()` followed by
`shuffle` with the length `startGame` uses (50 for size 3, 150 for size 4, 300
for size 5) leaves the tiles in the solved arrangement `[1, ..., N-1, 0]`,
which `checkWinCondition` accepts, while `isWon()` is false; with these
outcomes `startGame` on the easy difficulty hands out exactly that board. -/
theorem C27_shuffle_can_return_solved :
    ∃ rnd : Nat → Nat,
      (∀ p : SlidingPuzzle, p.gridSize = 3 →
          (p.reset.shuffle (shuffleMovesFor 3) rnd).tiles = [1, 2, 3, 4, 5, 6, 7, 8, 0]
            ∧ (p.reset.shuffle (shuffleMovesFor 3) rnd).checkWinCondition = true
            ∧ (p.reset.shuffle (shuffleMovesFor 3) rnd).isWon = false)
        ∧ (∀ p : SlidingPuzzle, p.gridSize = 4 →
          (p.reset.shuffle (shuffleMovesFor 4) rnd).tiles
              = [1, 2, 3, 4, 5, 6, 7, 8, 9, 10, 11, 12, 13, 14, 15, 0]
            ∧ (p.reset.shuffle (shuffleMovesFor 4) rnd).checkWinCondition = true
            ∧ (p.reset.shuffle (shuffleMovesFor 4) rnd).isWon = false)
        ∧ (∀ p : SlidingPuzzle, p.gridSize = 5 →
          (p.reset.shuffle (shuffleMovesFor 5) rnd).tiles
              = [1, 2, 3, 4, 5, 6, 7, 8, 9, 10, 11, 12, 13, 14, 15, 16, 17, 18, 19, 20,
                  21, 22, 23, 24, 0]
            ∧ (p.reset.shuffle (shuffleMovesFor 5) rnd).checkWinCondition = true
            ∧ (p.reset.shuffle (shuffleMovesFor 5) rnd).isWon = false)
        ∧ (shuffleMovesFor 3 = 50 ∧ shuffleMovesFor 4 = 150 ∧ shuffleMovesFor 5 = 300)
        ∧ (∀ (c : Controller) (i : Int),
            (startGame c 0 i true rnd).gameState = GameState.PLAYING
              ∧ (startGame c 0 i true rnd).puzzle = some (SlidingPuzzle.construct 3)
              ∧ (SlidingPuzzle.construct 3).tiles = [1, 2, 3, 4, 5, 6, 7, 8, 0]
              ∧ (SlidingPuzzle.construct 3).isWon = false) := by
  have e3 : shuffleMovesFor 3 = 50 := by decide
  have e4 : shuffleMovesFor 4 = 150 := by decide
  have e5 : shuffleMovesFor 5 = 300 := by decide
  refine ⟨fun i => i % 2, ?_, ?_, ?_, ⟨e3, e4, e5⟩, ?_⟩
  · intro p hg
    rw [e3, shuffle_solved_3 p hg]
    decide
  · intro p hg
    rw [e4, shuffle_solved_4 p hg]
    decide
  · intro p hg
    rw [e5, shuffle_solved_5 p hg]
    decide
  · intro c i
    refine ⟨rfl, ?_, by decide, by decide⟩
    have h := shuffle_solved_3 (SlidingPuzzle.construct 3) rfl
    rw [SlidingPuzzle.reset_eq_construct] at h
    show some ((SlidingPuzzle.construct (getPuzzleGridSize 0)).shuffle
      (shuffleMovesFor (getPuzzleGridSize 0)) (fun i => i % 2)) = _
    have hgs : getPuzzleGridSize 0 = 3 := by decide
    rw [hgs, e3]
    exact congrArg some h

end Sliding15
